import Mathlib

/-!
# mdadm linear device: block cache (`cache.c`) and storage controller (`mdadm.c`)

A shallow embedding of the two C files.  The file-scope variables of each C file
become the fields of a record that every function takes and returns.  C `int`
counters (`clock`, `num_queries`, `num_hits`, ...) are mathematical integers:
signed overflow is undefined in C and is out of reach of the properties below.
The `uint32_t` arithmetic of `mdadm.c` is kept, with explicit `% 2 ^ 32`.
A byte is a natural number; the code only ever copies bytes.
-/

namespace Mdadm

/-! ## Constants of `jbod.h` (quoted in the comment at the end of `mdadm.c`) -/

/-- Constant `JBOD_NUM_DISKS`. -/
def JBOD_NUM_DISKS : Nat := 16

/-- Constant `JBOD_DISK_SIZE`. -/
def JBOD_DISK_SIZE : Nat := 65536

/-- Constant `JBOD_BLOCK_SIZE`. -/
def JBOD_BLOCK_SIZE : Nat := 256

/-- `memcpy(dst, src, n)` on arrays held as lists: the first `n` cells of `dst`
take the bytes of `src`, the other cells keep theirs; the array keeps its size. -/
def memcpy (dst src : List Nat) (n : Nat) : List Nat :=
  (List.range dst.length).map (fun i => if i < n then src.getD i 0 else dst.getD i 0)

/-! ## `cache.c` -/

/-- The struct `cache_entry_t` of `cache.h`, with the fields `cache.c` uses. -/
structure cache_entry_t where
  valid : Bool
  disk_num : Int
  block_num : Int
  block : List Nat
  access_time : Int
deriving DecidableEq, Repr, Inhabited

/-- The file-scope variables of `cache.c`.  `cache` is `none` for `NULL` and
otherwise the allocated array; `unfilledCurrentCacheIndex` is the offset of that
pointer from `cache` (0 also stands for `NULL`, which is never dereferenced). -/
structure CacheState where
  cache : Option (List cache_entry_t)
  unfilledCurrentCacheIndex : Nat
  cache_size : Int
  numFilledCacheIndices : Int
  clock : Int
  num_queries : Int
  num_hits : Int
  cacheExists : Bool
  cacheIsEmpty : Bool
  cacheIsFull : Bool
deriving DecidableEq, Repr

/-- The initialisers of the file-scope variables of `cache.c`. -/
def CacheState.init : CacheState :=
  { cache := none, unfilledCurrentCacheIndex := 0, cache_size := 0,
    numFilledCacheIndices := 0, clock := 0, num_queries := 0, num_hits := 0,
    cacheExists := false, cacheIsEmpty := true, cacheIsFull := false }

/-- Function `cache_create`.  `malloc` does not initialise what it returns: `mem i` is the
indeterminate content of slot `i` of the new array.  `malloc` is taken to succeed. -/
def cache_create (s : CacheState) (mem : Nat → cache_entry_t) (num_entries : Int) :
    Int × CacheState :=
  let parametersAreInvalid := !(decide (num_entries ≥ 2) && decide (num_entries ≤ 4096)) || s.cacheExists
  if parametersAreInvalid then (-1, s)
  else
    (1, { s with
          cache_size := num_entries
          cache := some ((List.range num_entries.toNat).map mem)
          unfilledCurrentCacheIndex := 0
          cacheExists := true })

/-- Function `cache_destroy` -/
def cache_destroy (s : CacheState) : Int × CacheState :=
  if !s.cacheExists then (-1, s)
  else
    (1, { s with
          cache := none
          unfilledCurrentCacheIndex := 0
          numFilledCacheIndices := 0
          cache_size := 0
          cacheExists := false })

/-- The slots a loop `for (i = 0; i < n; i++)` over the array visits. -/
def scanned (arr : List cache_entry_t) (n : Int) : List cache_entry_t :=
  arr.take n.toNat

/-- The test `blockFound` of `cache_lookup` and `cache_update`. -/
def blockFound (disk_num block_num : Int) (e : cache_entry_t) : Bool :=
  decide (e.disk_num = disk_num) && decide (e.block_num = block_num)

/-- Function `cache_lookup`: the return value, the new variables and the caller's buffer. -/
def cache_lookup (s : CacheState) (disk_num block_num : Int) (buf : Option (List Nat)) :
    Int × CacheState × Option (List Nat) :=
  let s1 := { s with num_queries := s.num_queries + 1 }
  match s.cache, buf with
  | some arr, some out =>
    if s.cacheIsEmpty then (-1, s1, buf)
    else
      match (scanned arr s.cache_size).find? (blockFound disk_num block_num) with
      | some e =>
        (1, { s1 with num_hits := s1.num_hits + 1 }, some (memcpy out e.block JBOD_BLOCK_SIZE))
      | none => (-1, s1, buf)
  | _, _ => (-1, s1, buf)

/-- The loop of `cache_update` over the slots it visits, threading `clock`. -/
def update_loop (disk_num block_num : Int) (buf : List Nat) :
    List cache_entry_t → Int → List cache_entry_t × Int
  | [], clock => ([], clock)
  | e :: es, clock =>
    if blockFound disk_num block_num e then
      let r := update_loop disk_num block_num buf es (clock + 1)
      ({ e with access_time := clock + 1, block := memcpy e.block buf JBOD_BLOCK_SIZE } :: r.1, r.2)
    else
      let r := update_loop disk_num block_num buf es clock
      (e :: r.1, r.2)

/-- Function `cache_update` -/
def cache_update (s : CacheState) (disk_num block_num : Int) (buf : List Nat) : CacheState :=
  match s.cache with
  | none => s
  | some arr =>
    let r := update_loop disk_num block_num buf (scanned arr s.cache_size) s.clock
    { s with cache := some (r.1 ++ arr.drop s.cache_size.toNat), clock := r.2 }

/-- The test `blockAlreadyInCache` of `cache_insert`. -/
def blockAlreadyInCache (disk_num block_num : Int) (e : cache_entry_t) : Bool :=
  decide (e.disk_num = disk_num) && decide (e.block_num = block_num) && (e.valid == true)

/-- The eviction scan of `cache_insert` (lines 167-176): `i` is the loop index,
`minAccessTime` and `idx` (the offset of `indexOfSmallestAccessTime`) the loop
variables; the list holds the slots still to visit. -/
def evict_scan : List cache_entry_t → Nat → Int → Nat → Nat
  | [], _, _, idx => idx
  | e :: es, i, minAccessTime, idx =>
    if minAccessTime < e.access_time then evict_scan es (i + 1) e.access_time i
    else evict_scan es (i + 1) minAccessTime idx

/-- The five stores through a slot pointer that `cache_insert` makes. -/
def store_entry (arr : List cache_entry_t) (idx : Nat) (clock disk_num block_num : Int)
    (buf : List Nat) : List cache_entry_t :=
  arr.set idx
    { access_time := clock, disk_num := disk_num, block_num := block_num, valid := true,
      block := memcpy (arr.getD idx default).block buf JBOD_BLOCK_SIZE }

/-- Function `cache_insert` -/
def cache_insert (s : CacheState) (disk_num block_num : Int) (buf : Option (List Nat)) :
    Int × CacheState :=
  match s.cache, buf with
  | some arr, some data =>
    let parametersAreInvalid :=
      !(decide (disk_num ≥ 0) && decide (disk_num ≤ 15)) ||
      !(decide (block_num ≥ 0) && decide (block_num ≤ 255))
    if parametersAreInvalid then (-1, s)
    else if (scanned arr s.cache_size).any (blockAlreadyInCache disk_num block_num) then (-1, s)
    else if s.cacheIsFull then
      let idx := evict_scan (scanned arr (s.cache_size - 1)) 0 (arr.getD 0 default).access_time 0
      (1, { s with
            clock := s.clock + 1
            cache := some (store_entry arr idx (s.clock + 1) disk_num block_num data) })
    else
      let arr1 := store_entry arr s.unfilledCurrentCacheIndex (s.clock + 1) disk_num block_num data
      let filled := s.numFilledCacheIndices + 1
      if filled = s.cache_size then
        (1, { s with
              cacheIsEmpty := false, clock := s.clock + 1, cache := some arr1
              numFilledCacheIndices := filled, cacheIsFull := true })
      else
        (1, { s with
              cacheIsEmpty := false, clock := s.clock + 1, cache := some arr1
              numFilledCacheIndices := filled
              unfilledCurrentCacheIndex := s.unfilledCurrentCacheIndex + 1 })
  | _, _ => (-1, s)

/-- Function `cache_enabled` -/
def cache_enabled (s : CacheState) : Bool :=
  if s.cache_size ≥ 2 then true else false

/-! ### Runs of the cache interface -/

/-- A call of the cache interface, with its arguments. -/
inductive CacheCall where
  | create (mem : Nat → cache_entry_t) (num_entries : Int)
  | destroy
  | lookup (disk_num block_num : Int) (buf : Option (List Nat))
  | update (disk_num block_num : Int) (buf : List Nat)
  | insert (disk_num block_num : Int) (buf : Option (List Nat))

/-- The variables after one call. -/
def CacheCall.run : CacheCall → CacheState → CacheState
  | .create mem n, s => (cache_create s mem n).2
  | .destroy, s => (cache_destroy s).2
  | .lookup d b buf, s => (cache_lookup s d b buf).2.1
  | .update d b buf, s => cache_update s d b buf
  | .insert d b buf, s => (cache_insert s d b buf).2

/-- The variables after a sequence of calls, first call first. -/
def runCalls (calls : List CacheCall) (s : CacheState) : CacheState :=
  calls.foldl (fun st c => c.run st) s

/-- The states of `cache.c` a program can be in: those some sequence of calls
produces from the initial values of the variables. -/
def Reachable (s : CacheState) : Prop :=
  ∃ calls : List CacheCall, s = runCalls calls CacheState.init

/-! ## The JBOD device behind `jbod_client_operation` -/

/-- Modelled from the spec: the command kinds of `jbod.h`, a header that is not
among the sources, numbered from 0 in the order section 6 lists them
(`MOUNT`, `UNMOUNT`, `SEEK_TO_DISK`, `SEEK_TO_BLOCK`, `READ_BLOCK`, `WRITE_BLOCK`). -/
def JBOD_MOUNT : Nat := 0

/-- Modelled from the spec: command kind `UNMOUNT` of `jbod.h`, see `JBOD_MOUNT`. -/
def JBOD_UNMOUNT : Nat := 1

/-- Modelled from the spec: command kind `SEEK_TO_DISK` of `jbod.h`, see `JBOD_MOUNT`. -/
def JBOD_SEEK_TO_DISK : Nat := 2

/-- Modelled from the spec: command kind `SEEK_TO_BLOCK` of `jbod.h`, see `JBOD_MOUNT`. -/
def JBOD_SEEK_TO_BLOCK : Nat := 3

/-- Modelled from the spec: command kind `READ_BLOCK` of `jbod.h`, see `JBOD_MOUNT`. -/
def JBOD_READ_BLOCK : Nat := 4

/-- Modelled from the spec: command kind `WRITE_BLOCK` of `jbod.h`, see `JBOD_MOUNT`. -/
def JBOD_WRITE_BLOCK : Nat := 5

/-- Modelled from the spec: the state of the external device, which is not among
the sources: the "current disk/block" cursor of section 6 and the bytes it holds,
`data d b o` being the byte at offset `o` of block `b` of disk `d`. -/
structure Jbod where
  disk : Nat
  block : Nat
  data : Nat → Nat → Nat → Nat

/-- Modelled from the spec: the command-kind field (bits 31-26) of a command word. -/
def opCommand (op : Nat) : Nat := op >>> 26

/-- Modelled from the spec: the disk-id field (bits 25-22) of a command word. -/
def opDisk (op : Nat) : Nat := (op >>> 22) &&& 0xF

/-- Modelled from the spec: the block-id field (bits 7-0) of a command word. -/
def opBlock (op : Nat) : Nat := op &&& 0xFF

/-- Modelled from the spec: the external device executing one command word
(section 6), a call that always succeeds (sections 5 and 7).  `SEEK_TO_DISK` and
`SEEK_TO_BLOCK` set the cursor from their field; `READ_BLOCK` copies the block
under the cursor into the buffer and `WRITE_BLOCK` the buffer into that block,
each exchanging `JBOD_BLOCK_SIZE` bytes and then moving the cursor to the next
block (as the comments at lines 153 and 223 of `mdadm.c` say); every other
command leaves cursor and contents alone.  The result is the device and the
buffer after the call. -/
def Jbod.exec (j : Jbod) (op : Nat) (block : Option (List Nat)) : Jbod × Option (List Nat) :=
  if opCommand op = JBOD_SEEK_TO_DISK then ({ j with disk := opDisk op }, block)
  else if opCommand op = JBOD_SEEK_TO_BLOCK then ({ j with block := opBlock op }, block)
  else if opCommand op = JBOD_READ_BLOCK then
    ({ j with block := j.block + 1 },
      block.map (fun b => memcpy b ((List.range JBOD_BLOCK_SIZE).map (j.data j.disk j.block))
        JBOD_BLOCK_SIZE))
  else if opCommand op = JBOD_WRITE_BLOCK then
    match block with
    | none => (j, block)
    | some b =>
      ({ j with
         block := j.block + 1
         data := fun d k o =>
           if d = j.disk ∧ k = j.block ∧ o < JBOD_BLOCK_SIZE then b.getD o 0 else j.data d k o },
        block)
  else (j, block)

/-! ## `mdadm.c` -/

/-- The state `mdadm.c` works on: its variable `isMounted`, the variables of
`cache.c`, the device, and the command words handed to `jbod_client_operation`
so far, oldest first. -/
structure World where
  isMounted : Bool
  cache : CacheState
  jbod : Jbod
  trace : List Nat

/-- Function `createOpCode`, on `uint32_t`. -/
def createOpCode (command diskID reserved blockID : Nat) : Nat :=
  let opCode := 0
  let command := (command <<< 26) % 2 ^ 32
  let diskID := (diskID <<< 22) % 2 ^ 32
  let reserved := (reserved <<< 8) % 2 ^ 32
  opCode ||| command ||| diskID ||| reserved ||| blockID

/-- The call `jbod_client_operation(op, block)`: the device executes the word,
which is also recorded.  `block` is `none` for `NULL`. -/
def jbod_client_operation (w : World) (op : Nat) (block : Option (List Nat)) :
    World × Option (List Nat) :=
  let r := w.jbod.exec op block
  ({ w with jbod := r.1, trace := w.trace ++ [op] }, r.2)

/-- A call `jbod_client_operation(op, readValues)` with the local array. -/
def jbod_op_array (w : World) (op : Nat) (readValues : List Nat) : World × List Nat :=
  let r := jbod_client_operation w op (some readValues)
  (r.1, r.2.getD readValues)

/-- Function `mdadm_mount`: the return value and the new state. -/
def mdadm_mount (w : World) : Int × World :=
  let op := createOpCode JBOD_MOUNT 0 0 0
  if !w.isMounted then
    (1, { (jbod_client_operation w op none).1 with isMounted := true })
  else (-1, w)

/-- Function `mdadm_unmount`: the return value and the new state. -/
def mdadm_unmount (w : World) : Int × World :=
  let op := createOpCode JBOD_UNMOUNT 0 0 0
  if w.isMounted then
    (1, { (jbod_client_operation w op none).1 with isMounted := false })
  else (-1, w)

/-- Conversion of a `uint32_t` to `int` (two's complement). -/
def toInt32 (u : Nat) : Int :=
  if u % 2 ^ 32 < 2 ^ 31 then ((u % 2 ^ 32 : Nat) : Int) else ((u % 2 ^ 32 : Nat) : Int) - 2 ^ 32

/-- Conversion of an `int` to `uint32_t`. -/
def toUInt32 (i : Int) : Nat := (i % 2 ^ 32).toNat

/-- The statement `int endRead = addr + len;` of `mdadm_read` and `mdadm_write`:
the sum is taken in `uint32_t` and stored in an `int`. -/
def endRead (addr len : Nat) : Int := toInt32 ((addr + len) % 2 ^ 32)

/-- The validation test of `mdadm_read` and `mdadm_write` (lines 60 and 192);
`bufIsNull` is `buf == 0`. -/
def requestIsInvalid (w : World) (addr len : Nat) (bufIsNull : Bool) : Bool :=
  (!w.isMounted) || decide (endRead addr len > 0x100000) || decide (len > 0x400) ||
    (bufIsNull && decide (len ≠ 0))

/-- The block fetch of `mdadm_read`, written out three times in the C code
(lines 85-99, 131-145, 162-174): the cache is asked first when it is enabled, and
a miss reads the block from the device and inserts it.  The result is the state
and the array `readValues`. -/
def read_fetch (w : World) (diskValue blockValue : Nat) (readValues : List Nat) :
    World × List Nat :=
  let op_read_block := createOpCode JBOD_READ_BLOCK 0 0 0
  if cache_enabled w.cache then
    let r := cache_lookup w.cache diskValue blockValue (some readValues)
    let w1 := { w with cache := r.2.1 }
    let rv1 := r.2.2.getD readValues
    if r.1 = -1 then
      let d := jbod_op_array w1 op_read_block rv1
      let c := cache_insert d.1.cache diskValue blockValue (some d.2)
      ({ d.1 with cache := c.2 }, d.2)
    else (w1, rv1)
  else
    jbod_op_array w op_read_block readValues

/-- The local variables of `mdadm_read` that its loop changes, with the state.
`readPtr` is the offset of that pointer in `readValues`, `bufPos` the offset of
the moving pointer `buf` in the caller's array `buf`.  The variables
`op_seek_disk` and `op_seek_block` are assigned right before each use and are
not kept. -/
structure ReadVars where
  addr : Nat
  diskValue : Nat
  blockValue : Nat
  readValues : List Nat
  readPtr : Nat
  buf : Option (List Nat)
  bufPos : Nat
  w : World

/-- The body of the `while` loop of `mdadm_read` (lines 106-182). -/
def read_body (v : ReadVars) : ReadVars :=
  let v1 := { v with
              buf := v.buf.map (fun b : List Nat => b.set v.bufPos (v.readValues.getD v.readPtr 0))
              bufPos := v.bufPos + 1
              readPtr := v.readPtr + 1 }
  let v2 :=
    if v1.addr % JBOD_DISK_SIZE = JBOD_DISK_SIZE - 1 then
      let diskValue := v1.diskValue + 1
      let blockValue := 0
      let w1 := (jbod_client_operation v1.w (createOpCode JBOD_SEEK_TO_DISK diskValue 0 0) none).1
      let w2 := (jbod_client_operation w1 (createOpCode JBOD_SEEK_TO_BLOCK 0 0 blockValue) none).1
      let f := read_fetch w2 diskValue blockValue v1.readValues
      { v1 with diskValue := diskValue, blockValue := blockValue, w := f.1, readValues := f.2,
                readPtr := 0 }
    else if v1.addr % JBOD_BLOCK_SIZE = JBOD_BLOCK_SIZE - 1 then
      let blockValue := v1.blockValue + 1
      let s := jbod_op_array v1.w (createOpCode JBOD_SEEK_TO_BLOCK 0 0 blockValue) v1.readValues
      let f := read_fetch s.1 v1.diskValue blockValue s.2
      { v1 with blockValue := blockValue, w := f.1, readValues := f.2, readPtr := 0 }
    else v1
  { v2 with addr := (v2.addr + 1) % 2 ^ 32 }

/-- The `while (addr < endRead)` loop of `mdadm_read`; the comparison is made in
`uint32_t`, `endU` being `endRead` converted.  The first argument bounds the
number of passes. -/
def read_while (endU : Nat) : Nat → ReadVars → ReadVars
  | 0, v => v
  | n + 1, v => if v.addr < endU then read_while endU n (read_body v) else v

/-- What `mdadm_read` and `mdadm_write` hand back: the return value, the state
and the caller's buffer. -/
structure IoResult where
  ret : Int
  w : World
  buf : Option (List Nat)

/-- Function `mdadm_read`.  `buf` is `none` for a null pointer and otherwise the
caller's array; `init i` is the indeterminate initial content of cell `i` of the
local array `readValues`.  The loop makes at most `len` passes. -/
def mdadm_read (w : World) (init : Nat → Nat) (addr len : Nat) (buf : Option (List Nat)) :
    IoResult :=
  if requestIsInvalid w addr len buf.isNone then { ret := -1, w := w, buf := buf }
  else
    let diskValue := addr / JBOD_DISK_SIZE
    let blockValue := (addr % JBOD_DISK_SIZE) / JBOD_BLOCK_SIZE
    let readPtr := (addr % JBOD_DISK_SIZE) % JBOD_BLOCK_SIZE
    let w1 := (jbod_client_operation w (createOpCode JBOD_SEEK_TO_DISK diskValue 0 0) none).1
    let w2 := (jbod_client_operation w1 (createOpCode JBOD_SEEK_TO_BLOCK 0 0 blockValue) none).1
    let f := read_fetch w2 diskValue blockValue ((List.range JBOD_BLOCK_SIZE).map init)
    let v := read_while (toUInt32 (endRead addr len)) len
      { addr := addr, diskValue := diskValue, blockValue := blockValue, readValues := f.2,
        readPtr := readPtr, buf := buf, bufPos := 0, w := f.1 }
    { ret := toInt32 len, w := v.w, buf := v.buf }

/-- The local variables of `mdadm_write` that its loop changes, with the state;
see `ReadVars`.  `buf` is the caller's array, which the function only reads. -/
structure WriteVars where
  addr : Nat
  diskValue : Nat
  blockValue : Nat
  readValues : List Nat
  readPtr : Nat
  buf : List Nat
  bufPos : Nat
  w : World

/-- The statement `if (cache_enabled()) cache_update(diskValue, blockValue, readValues);`
of `mdadm_write` (lines 252-255, 298-301, 337-340). -/
def write_refresh (w : World) (diskValue blockValue : Nat) (readValues : List Nat) : World :=
  if cache_enabled w.cache then
    { w with cache := cache_update w.cache diskValue blockValue readValues }
  else w

/-- The first block fetch of `mdadm_write` (lines 217-234): on a miss, or with
the cache disabled, the block is read and the device is sent back to it. -/
def write_fetch_first (w : World) (diskValue blockValue : Nat) (readValues : List Nat) :
    World × List Nat :=
  let op_seek_block := createOpCode JBOD_SEEK_TO_BLOCK 0 0 blockValue
  let op_read_block := createOpCode JBOD_READ_BLOCK 0 0 0
  if cache_enabled w.cache then
    let r := cache_lookup w.cache diskValue blockValue (some readValues)
    let w1 := { w with cache := r.2.1 }
    let rv1 := r.2.2.getD readValues
    if r.1 = -1 then
      let d := jbod_op_array w1 op_read_block rv1
      let w2 := (jbod_client_operation d.1 op_seek_block none).1
      let c := cache_insert w2.cache diskValue blockValue (some d.2)
      ({ w2 with cache := c.2 }, d.2)
    else (w1, rv1)
  else
    let d := jbod_op_array w op_read_block readValues
    ((jbod_client_operation d.1 op_seek_block none).1, d.2)

/-- The block fetch of `mdadm_write` after the end of a disk (lines 266-289). -/
def write_fetch_disk (w : World) (diskValue blockValue : Nat) (readValues : List Nat) :
    World × List Nat :=
  let op_seek_block := createOpCode JBOD_SEEK_TO_BLOCK 0 0 0
  let op_read_block := createOpCode JBOD_READ_BLOCK 0 0 0
  if cache_enabled w.cache then
    let r := cache_lookup w.cache diskValue blockValue (some readValues)
    let w1 := { w with cache := r.2.1 }
    let rv1 := r.2.2.getD readValues
    if r.1 = -1 then
      let d := jbod_op_array w1 op_read_block rv1
      let c := cache_insert d.1.cache diskValue blockValue (some d.2)
      let w2 := { d.1 with cache := c.2 }
      ((jbod_client_operation w2 op_seek_block none).1, d.2)
    else (w1, rv1)
  else
    let d := jbod_op_array w op_read_block readValues
    ((jbod_client_operation d.1 op_seek_block none).1, d.2)

/-- The block fetch of `mdadm_write` after the end of a block (lines 310-329). -/
def write_fetch_block (w : World) (diskValue blockValue : Nat) (readValues : List Nat) :
    World × List Nat :=
  let op_seek_block := createOpCode JBOD_SEEK_TO_BLOCK 0 0 blockValue
  let op_read_block := createOpCode JBOD_READ_BLOCK 0 0 0
  if cache_enabled w.cache then
    let r := cache_lookup w.cache diskValue blockValue (some readValues)
    let w1 := { w with cache := r.2.1 }
    let rv1 := r.2.2.getD readValues
    if r.1 = -1 then
      let d := jbod_op_array w1 op_read_block rv1
      let k := jbod_op_array d.1 op_seek_block d.2
      let c := cache_insert k.1.cache diskValue blockValue (some k.2)
      jbod_op_array { k.1 with cache := c.2 } op_seek_block k.2
    else (w1, rv1)
  else
    let d := jbod_op_array w op_read_block readValues
    jbod_op_array d.1 op_seek_block d.2

/-- The body of the `while` loop of `mdadm_write` (lines 242-335). -/
def write_body (v : WriteVars) : WriteVars :=
  let op_write_block := createOpCode JBOD_WRITE_BLOCK 0 0 0
  let v1 := { v with
              readValues := v.readValues.set v.readPtr (v.buf.getD v.bufPos 0)
              bufPos := v.bufPos + 1
              readPtr := v.readPtr + 1 }
  let v2 :=
    if v1.addr % JBOD_DISK_SIZE = JBOD_DISK_SIZE - 1 then
      let d := jbod_op_array v1.w op_write_block v1.readValues
      let w1 := write_refresh d.1 v1.diskValue v1.blockValue d.2
      let diskValue := v1.diskValue + 1
      let blockValue := 0
      let w2 := (jbod_client_operation w1 (createOpCode JBOD_SEEK_TO_DISK diskValue 0 0) none).1
      let w3 := (jbod_client_operation w2 (createOpCode JBOD_SEEK_TO_BLOCK 0 0 0) none).1
      let f := write_fetch_disk w3 diskValue blockValue d.2
      { v1 with diskValue := diskValue, blockValue := blockValue, w := f.1, readValues := f.2,
                readPtr := 0 }
    else if v1.addr % JBOD_BLOCK_SIZE = JBOD_BLOCK_SIZE - 1 then
      let d := jbod_op_array v1.w op_write_block v1.readValues
      let w1 := write_refresh d.1 v1.diskValue v1.blockValue d.2
      let blockValue := v1.blockValue + 1
      let w2 := (jbod_client_operation w1 (createOpCode JBOD_SEEK_TO_BLOCK 0 0 blockValue) none).1
      let f := write_fetch_block w2 v1.diskValue blockValue d.2
      { v1 with blockValue := blockValue, w := f.1, readValues := f.2, readPtr := 0 }
    else v1
  { v2 with addr := (v2.addr + 1) % 2 ^ 32 }

/-- The `while (addr < endRead)` loop of `mdadm_write`, see `read_while`. -/
def write_while (endU : Nat) : Nat → WriteVars → WriteVars
  | 0, v => v
  | n + 1, v => if v.addr < endU then write_while endU n (write_body v) else v

/-- Function `mdadm_write`: the return value and the new state.  `buf` and `init`
are as in `mdadm_read`. -/
def mdadm_write (w : World) (init : Nat → Nat) (addr len : Nat) (buf : Option (List Nat)) :
    Int × World :=
  if requestIsInvalid w addr len buf.isNone then (-1, w)
  else
    let diskValue := addr / JBOD_DISK_SIZE
    let blockValue := (addr % JBOD_DISK_SIZE) / JBOD_BLOCK_SIZE
    let readPtr := (addr % JBOD_DISK_SIZE) % JBOD_BLOCK_SIZE
    let w1 := (jbod_client_operation w (createOpCode JBOD_SEEK_TO_DISK diskValue 0 0) none).1
    let w2 := (jbod_client_operation w1 (createOpCode JBOD_SEEK_TO_BLOCK 0 0 blockValue) none).1
    let f := write_fetch_first w2 diskValue blockValue ((List.range JBOD_BLOCK_SIZE).map init)
    let v := write_while (toUInt32 (endRead addr len)) len
      { addr := addr, diskValue := diskValue, blockValue := blockValue, readValues := f.2,
        readPtr := readPtr, buf := buf.getD [], bufPos := 0, w := f.1 }
    let w3 := write_refresh v.w v.diskValue v.blockValue v.readValues
    (toInt32 len, (jbod_op_array w3 (createOpCode JBOD_WRITE_BLOCK 0 0 0) v.readValues).1)

/-! ## Concrete inputs used below -/

/-- A block of `JBOD_BLOCK_SIZE` bytes, all equal to `v`. -/
def block_of (v : Nat) : List Nat := List.replicate JBOD_BLOCK_SIZE v

/-- Fresh memory from `malloc` that happens to be all zero bytes: every slot has
key (0, 0), `valid = false`, access time 0 and a block of zeros. -/
def mem_zero : Nat → cache_entry_t := fun _ =>
  { valid := false, disk_num := 0, block_num := 0, block := block_of 0, access_time := 0 }

/-- Memory from `malloc` holding leftovers: slot `i` has key (0, 0), `valid = false`,
access time `i` and a block of zeros. -/
def mem_stale : Nat → cache_entry_t := fun i =>
  { valid := false, disk_num := 0, block_num := 0, block := block_of 0, access_time := i }

/-- A cache of capacity 3 created at program start and filled by three inserts
with the keys (0, 0), (0, 1), (0, 2). -/
def calls_fill3 : List CacheCall :=
  [.create mem_zero 3, .insert 0 0 (some (block_of 10)), .insert 0 1 (some (block_of 11)),
   .insert 0 2 (some (block_of 12))]

/-- A cache of capacity 2 created at program start, with one insert of key (1, 1). -/
def calls_one_insert : List CacheCall :=
  [.create mem_zero 2, .insert 1 1 (some (block_of 10))]

/-- A cache of capacity 2 is created, filled and destroyed, then a cache of
capacity 3 is created on memory `mem_stale`. -/
def calls_second_cache : List CacheCall :=
  [.create mem_zero 2, .insert 0 1 (some (block_of 10)), .insert 0 2 (some (block_of 11)),
   .destroy, .create mem_stale 3]

/-- The validity flag, key and access time of every slot of the array, in order. -/
def slots (s : CacheState) : Option (List (Bool × Int × Int × Int)) :=
  s.cache.map (List.map (fun e => (e.valid, e.disk_num, e.block_num, e.access_time)))

/-- A device whose bytes differ from place to place. -/
def jbod_sample : Jbod :=
  { disk := 0, block := 0, data := fun d b o => (d * 7 + b * 3 + o) % 251 }

/-- A mounted controller at program start: no cache, nothing sent to the device yet. -/
def world_mounted : World :=
  { isMounted := true, cache := CacheState.init, jbod := jbod_sample, trace := [] }

/-- The controller at program start: not mounted, no cache. -/
def world_start : World :=
  { isMounted := false, cache := CacheState.init, jbod := jbod_sample, trace := [] }

/-! ## Predicates used in the statements -/

/-- The variables of `cache.c` describe an allocated cache: the array has
`cache_size` slots and every slot a block of `JBOD_BLOCK_SIZE` bytes. -/
def CacheWF (s : CacheState) : Prop :=
  ∃ arr, s.cache = some arr ∧ arr.length = s.cache_size.toNat ∧
    ∀ e ∈ arr, e.block.length = JBOD_BLOCK_SIZE

/-- Every slot of the array keyed by block `b` of disk `d` holds the bytes `D d b`. -/
def Coherent (s : CacheState) (D : Nat → Nat → Nat → Nat) (d b : Nat) : Prop :=
  ∀ arr, s.cache = some arr → ∀ e ∈ arr, e.disk_num = (d : Int) → e.block_num = (b : Int) →
    ∀ o, o < 256 → e.block.getD o 0 = D d b o

/-- The invariant of the loop of `mdadm_read` at its test, for a request
`[addr0, e)` on the state `w0` with the caller's array `out0`: the local
variables follow `addr`, the device bytes are those of `w0`, the array
`readValues` holds the block of `addr` while `addr < e`, the cache (if enabled)
agrees with the device on the blocks of the request, and the caller's array has
received the bytes of `[addr0, addr)`. -/
structure ReadInv (w0 : World) (out0 : List Nat) (addr0 e : Nat) (v : ReadVars) : Prop where
  mounted : v.w.isMounted = w0.isMounted
  data : v.w.jbod.data = w0.jbod.data
  size : v.w.cache.cache_size = w0.cache.cache_size
  lo : addr0 ≤ v.addr
  hi : v.addr ≤ e
  disk : v.diskValue = v.addr / 65536
  block : v.blockValue = v.addr % 65536 / 256
  ptr : v.readPtr = v.addr % 256
  pos : v.bufPos = v.addr - addr0
  len : v.readValues.length = 256
  cur : v.addr < e → v.w.jbod.disk = v.diskValue
  bytes : v.addr < e → ∀ o, o < 256 →
    v.readValues.getD o 0 = w0.jbod.data (v.addr / 65536) (v.addr % 65536 / 256) o
  wf : cache_enabled v.w.cache = true → CacheWF v.w.cache
  coh : cache_enabled v.w.cache = true → ∀ x, addr0 ≤ x → x < e →
    Coherent v.w.cache w0.jbod.data (x / 65536) (x % 65536 / 256)
  out : ∃ out, v.buf = some out ∧ out.length = out0.length ∧
    ∀ i, out.getD i 0 =
      if i < v.addr - addr0 then
        w0.jbod.data ((addr0 + i) / 65536) ((addr0 + i) % 65536 / 256) ((addr0 + i) % 256)
      else out0.getD i 0

/-- The device byte at `(d, k, o)` that a write of the bytes `src` to the linear
addresses `[addr0, a)` calls for, `D0` being the bytes before the write: the
byte of `src` for an address in the range, the old byte elsewhere. -/
def writeTarget (D0 : Nat → Nat → Nat → Nat) (src : List Nat) (addr0 a d k o : Nat) : Nat :=
  if d < 16 ∧ k < 256 ∧ o < 256 ∧ addr0 ≤ d * 65536 + k * 256 + o ∧ d * 65536 + k * 256 + o < a
  then src.getD (d * 65536 + k * 256 + o - addr0) 0
  else D0 d k o

/-- What each block fetch of `mdadm_write` guarantees, `w` being the state before
the fetch of block `b` of disk `d` and `f` the state and array after it. -/
def FetchSpec (w : World) (d b : Nat) (f : World × List Nat) : Prop :=
  f.1.isMounted = w.isMounted ∧
  f.1.jbod.data = w.jbod.data ∧
  f.1.jbod.disk = w.jbod.disk ∧
  f.1.jbod.block = b ∧
  f.1.cache.cache_size = w.cache.cache_size ∧
  f.2.length = 256 ∧
  (cache_enabled w.cache = true → CacheWF f.1.cache) ∧
  (∀ D d' b',
    (d' = d → b' = b → ∀ o, o < 256 → w.jbod.data w.jbod.disk w.jbod.block o = D d' b' o) →
    Coherent w.cache D d' b' → Coherent f.1.cache D d' b') ∧
  (¬ cache_enabled w.cache = true → ∀ o, o < 256 →
    f.2.getD o 0 = w.jbod.data w.jbod.disk w.jbod.block o)

/-- The invariant of the loop of `mdadm_write` at its test, for a request
`[addr0, e)` with source bytes `src` on the state `w0`: the local variables
follow `addr`, the device cursor is on the block being overlaid, the blocks
before it hold the source bytes on the device and agree with the cache, the
array `readValues` holds the source bytes overlaid so far on the current block;
with the cache disabled the array and the device also hold the old bytes
everywhere else (`frame`). -/
structure WriteInv (w0 : World) (src : List Nat) (addr0 e : Nat) (v : WriteVars) : Prop where
  mounted : v.w.isMounted = w0.isMounted
  size : v.w.cache.cache_size = w0.cache.cache_size
  lo : addr0 ≤ v.addr
  hi : v.addr ≤ e
  disk : v.diskValue = v.addr / 65536
  block : v.blockValue = v.addr % 65536 / 256
  ptr : v.readPtr = v.addr % 256
  pos : v.bufPos = v.addr - addr0
  bufc : v.buf = src
  len : v.readValues.length = 256
  curb : v.w.jbod.block = v.blockValue
  curd : v.addr < 0x100000 → v.w.jbod.disk = v.diskValue
  curd16 : v.addr = 0x100000 → addr0 < v.addr → v.w.jbod.disk = 15
  done : ∀ x, addr0 ≤ x → x / 256 < v.addr / 256 →
    v.w.jbod.data (x / 65536) (x % 65536 / 256) (x % 256) = src.getD (x - addr0) 0
  pend : ∀ x, addr0 ≤ x → x < v.addr → x / 256 = v.addr / 256 →
    v.readValues.getD (x % 256) 0 = src.getD (x - addr0) 0
  wf : cache_enabled v.w.cache = true → CacheWF v.w.cache
  coh : cache_enabled v.w.cache = true → ∀ x, addr0 ≤ x → x / 256 < v.addr / 256 →
    Coherent v.w.cache v.w.jbod.data (x / 65536) (x % 65536 / 256)
  frame : ¬ cache_enabled v.w.cache = true →
    (∀ o, o < 256 → v.readValues.getD o 0 =
      writeTarget w0.jbod.data src addr0 v.addr v.w.jbod.disk v.w.jbod.block o) ∧
    (∀ d k o, v.w.jbod.data d k o =
      if d = v.w.jbod.disk ∧ k = v.w.jbod.block then w0.jbod.data d k o
      else writeTarget w0.jbod.data src addr0 v.addr d k o)

/-- A mounted controller with a new cache of capacity 2 on zeroed memory. -/
def world_cached : World :=
  { isMounted := true, cache := (cache_create CacheState.init mem_zero 2).2,
    jbod := jbod_sample, trace := [] }


/-- The number of words of command kind `c` among the command words `trace`. -/
def countCmd (c : Nat) (trace : List Nat) : Nat :=
  (trace.filter (fun op => opCommand op = c)).length

/-- Memory from `malloc` holding leftovers: every slot has `valid = false`, key
(16, 0), access time 0 and a block of zeros. -/
def mem_disk16 : Nat → cache_entry_t := fun _ =>
  { valid := false, disk_num := 16, block_num := 0, block := block_of 0, access_time := 0 }

/-- A mounted controller with a new cache of capacity 3 on the memory `mem_disk16`. -/
def world_cached16 : World :=
  { isMounted := true, cache := (cache_create CacheState.init mem_disk16 3).2,
    jbod := jbod_sample, trace := [] }

/-- A cache of capacity 2 is created, filled and destroyed, then a cache of
capacity 3 is created on zeroed memory. -/
def calls_recreate : List CacheCall :=
  [.create mem_zero 2, .insert 0 1 (some (block_of 10)), .insert 0 2 (some (block_of 11)),
   .destroy, .create mem_zero 3]

/-- A cache of capacity 2 created at program start on zeroed memory, with one
insert of key (0, 0). -/
def calls_insert00 : List CacheCall :=
  [.create mem_zero 2, .insert 0 0 (some (block_of 10))]

/-- The first `n` bytes of the block of every slot of the array, in order. -/
def slot_bytes (s : CacheState) (n : Nat) : List (List Nat) :=
  (s.cache.getD []).map (fun e => e.block.take n)

/-- The calls of the cache interface that work on the existing cache:
`cache_insert`, `cache_update` and `cache_lookup`. -/
def CacheCall.isAccess : CacheCall → Bool
  | .insert _ _ _ => true
  | .update _ _ _ => true
  | .lookup _ _ _ => true
  | _ => false

/-- Both slots have `valid = true` and they carry the same `(disk_num, block_num)`. -/
def sameValidKey (e1 e2 : cache_entry_t) : Prop :=
  e1.valid = true ∧ e2.valid = true ∧ e1.disk_num = e2.disk_num ∧ e1.block_num = e2.block_num

/-- No two slots of the array with `valid = true` carry the same
`(disk_num, block_num)`; it holds when there is no array. -/
def ValidKeysDistinct (s : CacheState) : Prop :=
  (s.cache.getD []).Pairwise (fun e1 e2 => ¬ sameValidKey e1 e2)
set_option maxRecDepth 100000

/-! ## Properties of `cache.c` -/

theorem cache_insert_size (s : CacheState) (d b : Int) (buf : Option (List Nat)) :
    (cache_insert s d b buf).2.cache_size = s.cache_size ∧
    (cache_insert s d b buf).2.cacheExists = s.cacheExists := by
  unfold cache_insert
  split
  · dsimp only
    split_ifs <;> simp
  · simp

theorem cache_lookup_size (s : CacheState) (d b : Int) (buf : Option (List Nat)) :
    (cache_lookup s d b buf).2.1.cache_size = s.cache_size ∧
    (cache_lookup s d b buf).2.1.cacheExists = s.cacheExists := by
  unfold cache_lookup
  split
  · split_ifs
    · simp
    · split <;> simp
  · simp

theorem cache_update_size (s : CacheState) (d b : Int) (buf : List Nat) :
    (cache_update s d b buf).cache_size = s.cache_size ∧
    (cache_update s d b buf).cacheExists = s.cacheExists := by
  unfold cache_update
  split <;> simp

/-- In every reachable state the flag `cacheExists` is set exactly when
`cache_size` is at least 2. -/
theorem reachable_exists_iff (s : CacheState) (hs : Reachable s) :
    s.cacheExists = true ↔ 2 ≤ s.cache_size := by
  obtain ⟨calls, rfl⟩ := hs
  induction calls using List.reverseRecOn with
  | nil => simp [runCalls, CacheState.init]
  | append_singleton cs c ih =>
    simp only [runCalls, List.foldl_append, List.foldl_cons, List.foldl_nil] at ih ⊢
    generalize List.foldl (fun st c => c.run st) CacheState.init cs = t at ih ⊢
    cases c with
    | create mem n =>
      simp only [CacheCall.run, cache_create]
      split_ifs with h
      · exact ih
      · simp at h ⊢
        omega
    | destroy =>
      simp only [CacheCall.run, cache_destroy]
      split_ifs with h
      · exact ih
      · simp
    | lookup d b buf =>
      simp only [CacheCall.run]
      rw [(cache_lookup_size t d b buf).1, (cache_lookup_size t d b buf).2]; exact ih
    | update d b buf =>
      simp only [CacheCall.run]
      rw [(cache_update_size t d b buf).1, (cache_update_size t d b buf).2]; exact ih
    | insert d b buf =>
      simp only [CacheCall.run]
      rw [(cache_insert_size t d b buf).1, (cache_insert_size t d b buf).2]; exact ih

theorem cache_insert_isSome (s : CacheState) (d b : Int) (buf : Option (List Nat)) :
    (cache_insert s d b buf).2.cache.isSome = s.cache.isSome := by
  cases hc : s.cache with
  | none =>
    unfold cache_insert
    rw [hc]
    simp [hc]
  | some arr =>
    cases buf with
    | none =>
      unfold cache_insert
      rw [hc]
      simp [hc]
    | some data =>
      unfold cache_insert
      rw [hc]
      dsimp only
      split_ifs <;> simp [hc]

theorem cache_update_isSome (s : CacheState) (d b : Int) (buf : List Nat) :
    (cache_update s d b buf).cache.isSome = s.cache.isSome := by
  cases hc : s.cache with
  | none =>
    unfold cache_update
    rw [hc]
    simp [hc]
  | some arr =>
    unfold cache_update
    rw [hc]
    simp

theorem cache_lookup_cache (s : CacheState) (d b : Int) (buf : Option (List Nat)) :
    (cache_lookup s d b buf).2.1.cache = s.cache := by
  unfold cache_lookup
  split
  · split_ifs
    · rfl
    · split <;> rfl
  · rfl

/-- In every reachable state the pointer `cache` is non-null exactly when the
flag `cacheExists` is set. -/
theorem reachable_cache_isSome (s : CacheState) (hs : Reachable s) :
    s.cache.isSome = s.cacheExists := by
  obtain ⟨calls, rfl⟩ := hs
  induction calls using List.reverseRecOn with
  | nil => rfl
  | append_singleton cs c ih =>
    simp only [runCalls, List.foldl_append, List.foldl_cons, List.foldl_nil] at ih ⊢
    generalize List.foldl (fun st c => c.run st) CacheState.init cs = t at ih ⊢
    cases c with
    | create mem n =>
      simp only [CacheCall.run, cache_create]
      split_ifs with h
      · exact ih
      · rfl
    | destroy =>
      simp only [CacheCall.run, cache_destroy]
      split_ifs with h
      · exact ih
      · rfl
    | lookup d b buf =>
      simp only [CacheCall.run]
      rw [cache_lookup_cache, (cache_lookup_size t d b buf).2]; exact ih
    | update d b buf =>
      simp only [CacheCall.run]
      rw [cache_update_isSome, (cache_update_size t d b buf).2]; exact ih
    | insert d b buf =>
      simp only [CacheCall.run]
      rw [cache_insert_isSome, (cache_insert_size t d b buf).2]; exact ih

/-- C10: in every state a program can reach, `cache_create n` returns 1 exactly
when no cache exists and `2 ≤ n ≤ 4096`, and otherwise returns -1 and changes
nothing (so it fails for 0, 1, 4097, -5 and when called right after a successful
create); `cache_destroy` returns 1 exactly when a cache exists, after which none
exists, and otherwise returns -1 and changes nothing; create, destroy, create
with one capacity in range all succeed; and `cache_enabled` is true exactly when
a cache exists (the flag `cacheExists` is set, which is when `cache` is not null). -/
theorem cache_create_destroy_enabled (s : CacheState) (hs : Reachable s) :
    (∀ mem n, (cache_create s mem n).1 = 1 ↔ (s.cacheExists = false ∧ 2 ≤ n ∧ n ≤ 4096)) ∧
    (∀ mem n, (cache_create s mem n).1 = 1 ∨
      ((cache_create s mem n).1 = -1 ∧ (cache_create s mem n).2 = s)) ∧
    (∀ mem n, (cache_create s mem n).1 = 1 → (cache_create s mem n).2.cacheExists = true) ∧
    (∀ mem, (cache_create s mem 0).1 = -1 ∧ (cache_create s mem 1).1 = -1 ∧
      (cache_create s mem 4097).1 = -1 ∧ (cache_create s mem (-5)).1 = -1) ∧
    (∀ mem n mem' n', (cache_create s mem n).1 = 1 →
      (cache_create (cache_create s mem n).2 mem' n').1 = -1) ∧
    ((cache_destroy s).1 = 1 ↔ s.cacheExists = true) ∧
    ((cache_destroy s).1 = 1 ∨ ((cache_destroy s).1 = -1 ∧ (cache_destroy s).2 = s)) ∧
    ((cache_destroy s).1 = 1 → (cache_destroy s).2.cacheExists = false) ∧
    (∀ mem mem' n, s.cacheExists = false → 2 ≤ n → n ≤ 4096 →
      (cache_create s mem n).1 = 1 ∧
      (cache_destroy (cache_create s mem n).2).1 = 1 ∧
      (cache_destroy (cache_create s mem n).2).2.cacheExists = false ∧
      (cache_create (cache_destroy (cache_create s mem n).2).2 mem' n).1 = 1) ∧
    (cache_enabled s = true ↔ s.cacheExists = true) ∧
    (s.cache.isSome = true ↔ s.cacheExists = true) := by
  refine ⟨?_, ?_, ?_, ?_, ?_, ?_, ?_, ?_, ?_, ?_, ?_⟩
  · intro mem n
    unfold cache_create
    dsimp only
    split_ifs with h
    · simp at h ⊢
      intro h1 h2
      rcases h with h | h
      · omega
      · simp [h1] at h
    · simp at h ⊢
      exact ⟨h.2, by omega, by omega⟩
  · intro mem n
    unfold cache_create
    dsimp only
    split_ifs <;> simp
  · intro mem n
    unfold cache_create
    dsimp only
    split_ifs <;> simp
  · intro mem
    simp [cache_create]
  · intro mem n mem' n'
    unfold cache_create
    dsimp only
    split_ifs <;> simp_all
  · unfold cache_destroy
    split_ifs with h <;> simp_all
  · unfold cache_destroy
    split_ifs <;> simp
  · unfold cache_destroy
    split_ifs <;> simp
  · intro mem mem' n h0 h1 h2
    simp [cache_create, cache_destroy, h0, h1, h2]
  · rw [reachable_exists_iff s hs]
    simp [cache_enabled]
  · rw [reachable_cache_isSome s hs]

/-- C10 at program start: `cache_create 2` succeeds and `cache_enabled` agrees
with `cacheExists`. -/
theorem cache_create_destroy_enabled_witness :
    (cache_create CacheState.init (fun _ => default) 2).1 = 1 ∧
    (cache_enabled CacheState.init = true ↔ CacheState.init.cacheExists = true) :=
  have h := cache_create_destroy_enabled CacheState.init ⟨[], rfl⟩
  ⟨(h.1 (fun _ => default) 2).2 (by decide), h.2.2.2.2.2.2.2.2.2.1⟩

/-- C9: when a valid entry among the `cache_size` slots of the array carries the
key `(d, b)`, `cache_insert d b data` returns -1 for every `data` (absent or
present) and every variable of `cache.c` keeps its value. -/
theorem cache_insert_present_unchanged (s : CacheState) (arr : List cache_entry_t)
    (e : cache_entry_t) (d b : Int) (data : Option (List Nat))
    (hc : s.cache = some arr) (he : e ∈ scanned arr s.cache_size) (hv : e.valid = true)
    (hd : e.disk_num = d) (hb : e.block_num = b) :
    cache_insert s d b data = (-1, s) := by
  have hany : (scanned arr s.cache_size).any (blockAlreadyInCache d b) = true := by
    rw [List.any_eq_true]
    exact ⟨e, he, by simp [blockAlreadyInCache, hv, hd, hb]⟩
  unfold cache_insert
  rw [hc]
  cases data with
  | none => rfl
  | some buf =>
    dsimp only
    rw [hany]
    simp

/-! ## Properties of `mdadm.c` -/

theorem toInt32_small (n : Nat) (h : n < 2 ^ 31) : toInt32 n = (n : Int) := by
  unfold toInt32
  have : n % 2 ^ 32 = n := Nat.mod_eq_of_lt (by omega)
  rw [this]
  have h2 : n < 2147483648 := by omega
  simp [h2]

theorem opcode_seek_disk : ∀ d, d < 16 →
    opCommand (createOpCode JBOD_SEEK_TO_DISK d 0 0) = JBOD_SEEK_TO_DISK ∧
    opDisk (createOpCode JBOD_SEEK_TO_DISK d 0 0) = d := by decide

theorem opcode_seek_disk16 :
    opCommand (createOpCode JBOD_SEEK_TO_DISK 16 0 0) = JBOD_SEEK_TO_BLOCK ∧
    opBlock (createOpCode JBOD_SEEK_TO_DISK 16 0 0) = 0 := by decide

theorem opcode_seek_block : ∀ b, b < 256 →
    opCommand (createOpCode JBOD_SEEK_TO_BLOCK 0 0 b) = JBOD_SEEK_TO_BLOCK ∧
    opBlock (createOpCode JBOD_SEEK_TO_BLOCK 0 0 b) = b := by decide

theorem opcode_read_block : opCommand (createOpCode JBOD_READ_BLOCK 0 0 0) = JBOD_READ_BLOCK := by
  decide

theorem opcode_write_block : opCommand (createOpCode JBOD_WRITE_BLOCK 0 0 0) = JBOD_WRITE_BLOCK := by
  decide

theorem memcpy_length (dst src : List Nat) (n : Nat) : (memcpy dst src n).length = dst.length := by
  simp [memcpy]

theorem memcpy_getD (dst src : List Nat) (n i : Nat) (hi : i < dst.length) :
    (memcpy dst src n).getD i 0 = if i < n then src.getD i 0 else dst.getD i 0 := by
  unfold memcpy
  rw [List.getD_eq_getElem?_getD, List.getElem?_map, List.getElem?_range hi]
  rfl

theorem exec_seek_disk (j : Jbod) (d : Nat) (hd : d < 16) (buf : Option (List Nat)) :
    j.exec (createOpCode JBOD_SEEK_TO_DISK d 0 0) buf = ({ j with disk := d }, buf) := by
  have h := opcode_seek_disk d hd
  unfold Jbod.exec
  rw [h.1, h.2]
  simp

theorem exec_seek_disk16 (j : Jbod) (buf : Option (List Nat)) :
    j.exec (createOpCode JBOD_SEEK_TO_DISK 16 0 0) buf = ({ j with block := 0 }, buf) := by
  have h := opcode_seek_disk16
  unfold Jbod.exec
  rw [h.1, h.2]
  simp [JBOD_SEEK_TO_BLOCK, JBOD_SEEK_TO_DISK]

theorem exec_seek_block (j : Jbod) (b : Nat) (hb : b < 256) (buf : Option (List Nat)) :
    j.exec (createOpCode JBOD_SEEK_TO_BLOCK 0 0 b) buf = ({ j with block := b }, buf) := by
  have h := opcode_seek_block b hb
  unfold Jbod.exec
  rw [h.1, h.2]
  simp [JBOD_SEEK_TO_BLOCK, JBOD_SEEK_TO_DISK]

theorem exec_read_block (j : Jbod) (rv : List Nat) :
    j.exec (createOpCode JBOD_READ_BLOCK 0 0 0) (some rv) =
      ({ j with block := j.block + 1 },
        some (memcpy rv ((List.range JBOD_BLOCK_SIZE).map (j.data j.disk j.block)) JBOD_BLOCK_SIZE)) := by
  unfold Jbod.exec
  rw [opcode_read_block]
  simp [JBOD_SEEK_TO_BLOCK, JBOD_SEEK_TO_DISK, JBOD_READ_BLOCK]

theorem exec_write_block (j : Jbod) (rv : List Nat) :
    j.exec (createOpCode JBOD_WRITE_BLOCK 0 0 0) (some rv) =
      ({ j with
         block := j.block + 1
         data := fun d k o =>
           if d = j.disk ∧ k = j.block ∧ o < JBOD_BLOCK_SIZE then rv.getD o 0 else j.data d k o },
        some rv) := by
  unfold Jbod.exec
  rw [opcode_write_block]
  simp [JBOD_SEEK_TO_BLOCK, JBOD_SEEK_TO_DISK, JBOD_READ_BLOCK, JBOD_WRITE_BLOCK]

/-- What a block read leaves in the array: the bytes of the block under the cursor. -/
theorem read_block_getD (j : Jbod) (rv : List Nat) (o : Nat) (hl : rv.length = 256) (ho : o < 256) :
    (memcpy rv ((List.range JBOD_BLOCK_SIZE).map (j.data j.disk j.block)) JBOD_BLOCK_SIZE).getD o 0 =
      j.data j.disk j.block o := by
  rw [memcpy_getD _ _ _ _ (by omega)]
  simp [JBOD_BLOCK_SIZE, ho, List.getD_eq_getElem?_getD, List.getElem?_map, List.getElem?_range ho]

/-! ### What the cache functions do to the array -/

theorem scanned_of_length (arr : List cache_entry_t) (n : Int) (h : arr.length = n.toNat) :
    scanned arr n = arr := by
  unfold scanned
  rw [← h]
  exact List.take_length arr

theorem cache_lookup_spec (s : CacheState) (d b : Int) (out : List Nat) :
    (cache_lookup s d b (some out)).2.1.cache = s.cache ∧
    (cache_lookup s d b (some out)).2.1.cache_size = s.cache_size ∧
    (((cache_lookup s d b (some out)).1 = 1 ∧
        ∃ arr e, s.cache = some arr ∧ e ∈ arr ∧ e.disk_num = d ∧ e.block_num = b ∧
          (cache_lookup s d b (some out)).2.2 = some (memcpy out e.block JBOD_BLOCK_SIZE)) ∨
      ((cache_lookup s d b (some out)).1 = -1 ∧ (cache_lookup s d b (some out)).2.2 = some out)) := by
  unfold cache_lookup
  cases hc : s.cache with
  | none => simp
  | some arr =>
    dsimp only
    split_ifs with he
    · simp
    · cases hf : (scanned arr s.cache_size).find? (blockFound d b) with
      | none => simp
      | some e =>
        have hmem : e ∈ arr := List.mem_of_mem_take (List.mem_of_find?_eq_some hf)
        have hp := List.find?_some hf
        simp only [blockFound, Bool.and_eq_true, decide_eq_true_eq] at hp
        refine ⟨rfl, rfl, Or.inl ⟨rfl, arr, e, rfl, hmem, hp.1, hp.2, rfl⟩⟩

theorem store_entry_length (arr : List cache_entry_t) (idx : Nat) (c d b : Int) (data : List Nat) :
    (store_entry arr idx c d b data).length = arr.length := by
  simp [store_entry]

theorem store_entry_mem (arr : List cache_entry_t) (idx : Nat) (c d b : Int) (data : List Nat)
    (e : cache_entry_t) (he : e ∈ store_entry arr idx c d b data) :
    e ∈ arr ∨ (e.disk_num = d ∧ e.block_num = b ∧
      ∃ old ∈ arr, e.block = memcpy old.block data JBOD_BLOCK_SIZE) := by
  unfold store_entry at he
  rcases List.mem_or_eq_of_mem_set he with h | h
  · exact Or.inl h
  · by_cases hi : idx < arr.length
    · right
      subst h
      refine ⟨rfl, rfl, arr[idx], List.getElem_mem hi, ?_⟩
      simp [List.getD_eq_getElem?_getD, List.getElem?_eq_getElem hi]
    · left
      rw [List.set_eq_of_length_le (by omega)] at he
      exact he

theorem cache_insert_spec (s : CacheState) (d b : Int) (data : List Nat)
    (arr : List cache_entry_t) (hc : s.cache = some arr) :
    (cache_insert s d b (some data)).2.cache_size = s.cache_size ∧
    ∃ arr', (cache_insert s d b (some data)).2.cache = some arr' ∧ arr'.length = arr.length ∧
      ∀ e ∈ arr', e ∈ arr ∨ (e.disk_num = d ∧ e.block_num = b ∧
        ∃ old ∈ arr, e.block = memcpy old.block data JBOD_BLOCK_SIZE) := by
  unfold cache_insert
  rw [hc]
  dsimp only
  split_ifs
  · exact ⟨rfl, arr, hc, rfl, fun e he => Or.inl he⟩
  · exact ⟨rfl, arr, hc, rfl, fun e he => Or.inl he⟩
  · exact ⟨rfl, _, rfl, store_entry_length _ _ _ _ _ _, fun e he => store_entry_mem _ _ _ _ _ _ e he⟩
  · exact ⟨rfl, _, rfl, store_entry_length _ _ _ _ _ _, fun e he => store_entry_mem _ _ _ _ _ _ e he⟩
  · exact ⟨rfl, _, rfl, store_entry_length _ _ _ _ _ _, fun e he => store_entry_mem _ _ _ _ _ _ e he⟩

theorem cache_insert_none (s : CacheState) (d b : Int) (data : Option (List Nat))
    (hc : s.cache = none) : (cache_insert s d b data).2 = s := by
  unfold cache_insert
  rw [hc]

theorem update_loop_spec (d b : Int) (buf : List Nat) (es : List cache_entry_t) :
    ∀ clock : Int, (update_loop d b buf es clock).1.length = es.length ∧
      ∀ e' ∈ (update_loop d b buf es clock).1, ∃ e ∈ es,
        e'.disk_num = e.disk_num ∧ e'.block_num = e.block_num ∧
        ((e.disk_num = d ∧ e.block_num = b ∧ e'.block = memcpy e.block buf JBOD_BLOCK_SIZE) ∨
          (¬(e.disk_num = d ∧ e.block_num = b) ∧ e' = e)) := by
  induction es with
  | nil => intro clock; simp [update_loop]
  | cons x xs ih =>
    intro clock
    unfold update_loop
    split_ifs with hx
    · simp only [blockFound, Bool.and_eq_true, decide_eq_true_eq] at hx
      obtain ⟨hl, hm⟩ := ih (clock + 1)
      refine ⟨by simp [hl], ?_⟩
      intro e' he'
      simp only [List.mem_cons] at he'
      rcases he' with h | h
      · subst h
        exact ⟨x, List.mem_cons_self _ _, rfl, rfl, Or.inl ⟨hx.1, hx.2, rfl⟩⟩
      · obtain ⟨e, he, hh⟩ := hm e' h
        exact ⟨e, List.mem_cons_of_mem _ he, hh⟩
    · simp only [blockFound, Bool.and_eq_true, decide_eq_true_eq] at hx
      obtain ⟨hl, hm⟩ := ih clock
      refine ⟨by simp [hl], ?_⟩
      intro e' he'
      simp only [List.mem_cons] at he'
      rcases he' with h | h
      · subst h
        exact ⟨e', List.mem_cons_self _ _, rfl, rfl, Or.inr ⟨hx, rfl⟩⟩
      · obtain ⟨e, he, hh⟩ := hm e' h
        exact ⟨e, List.mem_cons_of_mem _ he, hh⟩

theorem cache_update_spec (s : CacheState) (d b : Int) (buf : List Nat)
    (arr : List cache_entry_t) (hc : s.cache = some arr) (hl : arr.length = s.cache_size.toNat) :
    (cache_update s d b buf).cache_size = s.cache_size ∧
    ∃ arr', (cache_update s d b buf).cache = some arr' ∧ arr'.length = arr.length ∧
      ∀ e' ∈ arr', ∃ e ∈ arr,
        e'.disk_num = e.disk_num ∧ e'.block_num = e.block_num ∧
        ((e.disk_num = d ∧ e.block_num = b ∧ e'.block = memcpy e.block buf JBOD_BLOCK_SIZE) ∨
          (¬(e.disk_num = d ∧ e.block_num = b) ∧ e' = e)) := by
  unfold cache_update
  rw [hc]
  dsimp only
  rw [scanned_of_length arr _ hl, ← hl, List.drop_length, List.append_nil]
  obtain ⟨h1, h2⟩ := update_loop_spec d b buf arr s.clock
  exact ⟨rfl, _, rfl, h1, h2⟩

/-! ### Well-formedness and coherence are kept by the cache functions -/

theorem cache_enabled_congr (s t : CacheState) (h : t.cache_size = s.cache_size) :
    cache_enabled t = cache_enabled s := by
  simp [cache_enabled, h]

theorem coherent_congr (s t : CacheState) (D D' : Nat → Nat → Nat → Nat) (d b : Nat)
    (hc : t.cache = s.cache) (hD : ∀ o, o < 256 → D' d b o = D d b o)
    (h : Coherent s D d b) : Coherent t D' d b := by
  intro arr harr e he h1 h2 o ho
  rw [hD o ho]
  exact h arr (hc ▸ harr) e he h1 h2 o ho

theorem cacheWF_congr (s t : CacheState) (hc : t.cache = s.cache)
    (hs : t.cache_size = s.cache_size) (h : CacheWF s) : CacheWF t := by
  obtain ⟨arr, h1, h2, h3⟩ := h
  exact ⟨arr, hc ▸ h1, hs ▸ h2, h3⟩

theorem cache_insert_wf (s : CacheState) (d b : Int) (data : List Nat) (h : CacheWF s) :
    CacheWF (cache_insert s d b (some data)).2 := by
  obtain ⟨arr, h1, h2, h3⟩ := h
  obtain ⟨hs, arr', ha, hl, hm⟩ := cache_insert_spec s d b data arr h1
  refine ⟨arr', ha, by rw [hl, hs, h2], ?_⟩
  intro e he
  rcases hm e he with h | ⟨_, _, old, hold, hb⟩
  · exact h3 e h
  · rw [hb, memcpy_length]
    exact h3 old hold

theorem cache_insert_coherent (s : CacheState) (d b : Int) (data : List Nat)
    (D : Nat → Nat → Nat → Nat) (d' b' : Nat) (hwf : CacheWF s) (h : Coherent s D d' b')
    (hk : (d' : Int) = d → (b' : Int) = b → ∀ o, o < 256 → data.getD o 0 = D d' b' o) :
    Coherent (cache_insert s d b (some data)).2 D d' b' := by
  obtain ⟨arr, h1, h2, h3⟩ := hwf
  obtain ⟨hs, arr', ha, hl, hm⟩ := cache_insert_spec s d b data arr h1
  intro arr'' harr e he hd hb o ho
  rw [ha] at harr
  cases harr
  rcases hm e he with hmem | ⟨hd', hb', old, hold, hblk⟩
  · exact h arr h1 e hmem hd hb o ho
  · rw [hblk, memcpy_getD _ _ _ _ (by rw [h3 old hold]; exact ho)]
    simp only [JBOD_BLOCK_SIZE, ho, if_true]
    exact hk (by rw [← hd, hd']) (by rw [← hb, hb']) o ho

theorem cache_update_wf (s : CacheState) (d b : Int) (buf : List Nat) (h : CacheWF s) :
    CacheWF (cache_update s d b buf) := by
  obtain ⟨arr, h1, h2, h3⟩ := h
  obtain ⟨hs, arr', ha, hl, hm⟩ := cache_update_spec s d b buf arr h1 h2
  refine ⟨arr', ha, by rw [hl, hs, h2], ?_⟩
  intro e' he'
  obtain ⟨e, he, _, _, hcase⟩ := hm e' he'
  rcases hcase with ⟨_, _, hb⟩ | ⟨_, heq⟩
  · rw [hb, memcpy_length]
    exact h3 e he
  · rw [heq]
    exact h3 e he

theorem cache_update_coherent (s : CacheState) (d b : Int) (buf : List Nat)
    (D : Nat → Nat → Nat → Nat) (d' b' : Nat) (hwf : CacheWF s)
    (h : ¬((d' : Int) = d ∧ (b' : Int) = b) → Coherent s D d' b')
    (hk : (d' : Int) = d → (b' : Int) = b → ∀ o, o < 256 → buf.getD o 0 = D d' b' o) :
    Coherent (cache_update s d b buf) D d' b' := by
  obtain ⟨arr, h1, h2, h3⟩ := hwf
  obtain ⟨hs, arr', ha, hl, hm⟩ := cache_update_spec s d b buf arr h1 h2
  intro arr'' harr e' he' hd hb o ho
  rw [ha] at harr
  cases harr
  obtain ⟨e, he, hd', hb', hcase⟩ := hm e' he'
  rcases hcase with ⟨hkd, hkb, hblk⟩ | ⟨hne, heq⟩
  · rw [hblk, memcpy_getD _ _ _ _ (by rw [h3 e he]; exact ho)]
    simp only [JBOD_BLOCK_SIZE, ho, if_true]
    exact hk (by rw [← hd, hd', hkd]) (by rw [← hb, hb', hkb]) o ho
  · subst heq
    refine h ?_ arr h1 e' he hd hb o ho
    intro hh
    exact hne ⟨by rw [hd]; exact hh.1, by rw [hb]; exact hh.2⟩

/-! ### The block fetches -/

@[simp] theorem jco_isMounted (w : World) (op : Nat) (buf : Option (List Nat)) :
    (jbod_client_operation w op buf).1.isMounted = w.isMounted := by
  unfold jbod_client_operation
  exact rfl

@[simp] theorem jco_cache (w : World) (op : Nat) (buf : Option (List Nat)) :
    (jbod_client_operation w op buf).1.cache = w.cache := by
  unfold jbod_client_operation
  exact rfl

@[simp] theorem jco_jbod (w : World) (op : Nat) (buf : Option (List Nat)) :
    (jbod_client_operation w op buf).1.jbod = (w.jbod.exec op buf).1 := by
  unfold jbod_client_operation
  exact rfl

@[simp] theorem jco_trace (w : World) (op : Nat) (buf : Option (List Nat)) :
    (jbod_client_operation w op buf).1.trace = w.trace ++ [op] := by
  unfold jbod_client_operation
  exact rfl

@[simp] theorem joa_isMounted (w : World) (op : Nat) (rv : List Nat) :
    (jbod_op_array w op rv).1.isMounted = w.isMounted := by
  unfold jbod_op_array jbod_client_operation
  exact rfl

@[simp] theorem joa_cache (w : World) (op : Nat) (rv : List Nat) :
    (jbod_op_array w op rv).1.cache = w.cache := by
  unfold jbod_op_array jbod_client_operation
  exact rfl

@[simp] theorem joa_jbod (w : World) (op : Nat) (rv : List Nat) :
    (jbod_op_array w op rv).1.jbod = (w.jbod.exec op (some rv)).1 := by
  unfold jbod_op_array jbod_client_operation
  exact rfl

@[simp] theorem joa_trace (w : World) (op : Nat) (rv : List Nat) :
    (jbod_op_array w op rv).1.trace = w.trace ++ [op] := by
  unfold jbod_op_array jbod_client_operation
  exact rfl

theorem joa_snd (w : World) (op : Nat) (rv : List Nat) :
    (jbod_op_array w op rv).2 = (w.jbod.exec op (some rv)).2.getD rv := by
  unfold jbod_op_array jbod_client_operation
  exact rfl

/-- The array after `READ_BLOCK`. -/
theorem joa_read_snd (w : World) (rv : List Nat) :
    (jbod_op_array w (createOpCode JBOD_READ_BLOCK 0 0 0) rv).2 =
      memcpy rv ((List.range JBOD_BLOCK_SIZE).map (w.jbod.data w.jbod.disk w.jbod.block))
        JBOD_BLOCK_SIZE := by
  rw [joa_snd, exec_read_block]
  rfl

/-- The array after a seek, which does not touch it. -/
theorem joa_seek_block_snd (w : World) (b : Nat) (hb : b < 256) (rv : List Nat) :
    (jbod_op_array w (createOpCode JBOD_SEEK_TO_BLOCK 0 0 b) rv).2 = rv := by
  rw [joa_snd, exec_seek_block _ _ hb]
  rfl

theorem read_fetch_disabled (w : World) (d b : Nat) (rv : List Nat)
    (h : ¬ cache_enabled w.cache = true) :
    read_fetch w d b rv = jbod_op_array w (createOpCode JBOD_READ_BLOCK 0 0 0) rv := by
  unfold read_fetch
  dsimp only
  rw [if_neg h]

theorem read_fetch_hit (w : World) (d b : Nat) (rv : List Nat)
    (h : cache_enabled w.cache = true) (hr : ¬ (cache_lookup w.cache d b (some rv)).1 = -1) :
    read_fetch w d b rv =
      ({ w with cache := (cache_lookup w.cache d b (some rv)).2.1 },
        (cache_lookup w.cache d b (some rv)).2.2.getD rv) := by
  unfold read_fetch
  dsimp only
  rw [if_pos h, if_neg hr]

theorem read_fetch_miss (w : World) (d b : Nat) (rv : List Nat)
    (h : cache_enabled w.cache = true) (hr : (cache_lookup w.cache d b (some rv)).1 = -1) :
    read_fetch w d b rv =
      ({ (jbod_op_array { w with cache := (cache_lookup w.cache d b (some rv)).2.1 }
            (createOpCode JBOD_READ_BLOCK 0 0 0)
            ((cache_lookup w.cache d b (some rv)).2.2.getD rv)).1 with
          cache := (cache_insert (cache_lookup w.cache d b (some rv)).2.1 d b
            (some (jbod_op_array { w with cache := (cache_lookup w.cache d b (some rv)).2.1 }
              (createOpCode JBOD_READ_BLOCK 0 0 0)
              ((cache_lookup w.cache d b (some rv)).2.2.getD rv)).2)).2 },
        (jbod_op_array { w with cache := (cache_lookup w.cache d b (some rv)).2.1 }
            (createOpCode JBOD_READ_BLOCK 0 0 0)
            ((cache_lookup w.cache d b (some rv)).2.2.getD rv)).2) := by
  unfold read_fetch
  dsimp only
  rw [if_pos h, if_pos hr]
  rfl

theorem read_fetch_spec (w : World) (d b : Nat) (rv : List Nat) (hl : rv.length = 256)
    (hwf : cache_enabled w.cache = true → CacheWF w.cache) :
    (read_fetch w d b rv).1.isMounted = w.isMounted ∧
    (read_fetch w d b rv).1.jbod.data = w.jbod.data ∧
    (read_fetch w d b rv).1.jbod.disk = w.jbod.disk ∧
    (read_fetch w d b rv).1.cache.cache_size = w.cache.cache_size ∧
    (read_fetch w d b rv).2.length = 256 ∧
    (cache_enabled w.cache = true → CacheWF (read_fetch w d b rv).1.cache) ∧
    (∀ D d' b',
      (d' = d → b' = b → ∀ o, o < 256 → w.jbod.data w.jbod.disk w.jbod.block o = D d' b' o) →
      Coherent w.cache D d' b' → Coherent (read_fetch w d b rv).1.cache D d' b') ∧
    (∀ D, (cache_enabled w.cache = true → Coherent w.cache D d b) →
      (∀ o, o < 256 → w.jbod.data w.jbod.disk w.jbod.block o = D d b o) →
      ∀ o, o < 256 → (read_fetch w d b rv).2.getD o 0 = D d b o) := by
  by_cases hen : cache_enabled w.cache = true
  · have wf := hwf hen
    obtain ⟨hc, hs, hcase⟩ := cache_lookup_spec w.cache d b rv
    have wf1 : CacheWF (cache_lookup w.cache d b (some rv)).2.1 := cacheWF_congr _ _ hc hs wf
    rcases hcase with ⟨h1, arr, e, harr, he, hed, heb, hbuf⟩ | ⟨h1, hbuf⟩
    · have hne : ¬ (cache_lookup w.cache d b (some rv)).1 = -1 := by rw [h1]; decide
      rw [read_fetch_hit w d b rv hen hne, hbuf]
      refine ⟨rfl, rfl, rfl, hs, by rw [Option.getD_some, memcpy_length, hl], fun _ => wf1, ?_, ?_⟩
      · intro D d' b' _ hcoh
        exact coherent_congr _ _ D D d' b' hc (fun _ _ => rfl) hcoh
      · intro D hcoh _ o ho
        rw [Option.getD_some, memcpy_getD _ _ _ _ (by omega)]
        simp only [JBOD_BLOCK_SIZE, ho, if_true]
        exact hcoh hen arr harr e he hed heb o ho
    · rw [read_fetch_miss w d b rv hen h1, hbuf]
      simp only [Option.getD_some, joa_read_snd, joa_cache, joa_isMounted, joa_jbod,
        exec_read_block]
      refine ⟨trivial, trivial, trivial, ?_, by rw [memcpy_length, hl], ?_, ?_, ?_⟩
      · obtain ⟨arr, h1', _, _⟩ := wf1
        rw [(cache_insert_spec _ d b _ arr h1').1, hs]
      · intro _
        exact cache_insert_wf _ _ _ _ wf1
      · intro D d' b' hk hcoh
        refine cache_insert_coherent _ _ _ _ D d' b' wf1
          (coherent_congr _ _ D D d' b' hc (fun _ _ => rfl) hcoh) ?_
        intro hd hb o ho
        rw [read_block_getD _ _ _ hl ho]
        exact hk (by exact_mod_cast hd) (by exact_mod_cast hb) o ho
      · intro D _ hD o ho
        rw [read_block_getD _ _ _ hl ho]
        exact hD o ho
  · rw [read_fetch_disabled w d b rv hen]
    simp only [joa_read_snd, joa_cache, joa_isMounted, joa_jbod, exec_read_block]
    refine ⟨trivial, trivial, trivial, trivial, by rw [memcpy_length, hl], fun h => absurd h hen, ?_, ?_⟩
    · intro D d' b' _ hcoh
      exact hcoh
    · intro D _ hD o ho
      rw [read_block_getD _ _ _ hl ho]
      exact hD o ho

/-! ### The loop of `mdadm_read` -/

theorem list_set_getD (l : List Nat) (i j v : Nat) (hi : i < l.length) :
    (l.set i v).getD j 0 = if j = i then v else l.getD j 0 := by
  simp only [List.getD_eq_getElem?_getD, List.getElem?_set]
  by_cases h : i = j
  · subst h
    simp [hi]
  · have h' : ¬ j = i := fun hh => h hh.symm
    simp [h, h']

/-- The two seeks that start a block: `SEEK_TO_DISK d` then `SEEK_TO_BLOCK b`.
With `d = 16` the disk id spills into the command field and the first word is a
`SEEK_TO_BLOCK 0`. -/
theorem seek_pair (w : World) (d b : Nat) (hd : d ≤ 16) (hb : b < 256) :
    (jbod_client_operation
      (jbod_client_operation w (createOpCode JBOD_SEEK_TO_DISK d 0 0) none).1
      (createOpCode JBOD_SEEK_TO_BLOCK 0 0 b) none).1.isMounted = w.isMounted ∧
    (jbod_client_operation
      (jbod_client_operation w (createOpCode JBOD_SEEK_TO_DISK d 0 0) none).1
      (createOpCode JBOD_SEEK_TO_BLOCK 0 0 b) none).1.cache = w.cache ∧
    (jbod_client_operation
      (jbod_client_operation w (createOpCode JBOD_SEEK_TO_DISK d 0 0) none).1
      (createOpCode JBOD_SEEK_TO_BLOCK 0 0 b) none).1.jbod.data = w.jbod.data ∧
    (jbod_client_operation
      (jbod_client_operation w (createOpCode JBOD_SEEK_TO_DISK d 0 0) none).1
      (createOpCode JBOD_SEEK_TO_BLOCK 0 0 b) none).1.jbod.block = b ∧
    (d < 16 → (jbod_client_operation
      (jbod_client_operation w (createOpCode JBOD_SEEK_TO_DISK d 0 0) none).1
      (createOpCode JBOD_SEEK_TO_BLOCK 0 0 b) none).1.jbod.disk = d) ∧
    (d = 16 → (jbod_client_operation
      (jbod_client_operation w (createOpCode JBOD_SEEK_TO_DISK d 0 0) none).1
      (createOpCode JBOD_SEEK_TO_BLOCK 0 0 b) none).1.jbod.disk = w.jbod.disk) := by
  simp only [jco_isMounted, jco_cache, jco_jbod, exec_seek_block _ _ hb]
  rcases Nat.lt_or_ge d 16 with h | h
  · rw [exec_seek_disk _ _ h]
    refine ⟨?_, ?_, ?_, ?_, ?_, ?_⟩ <;> first | trivial | rfl | (intro _; first | rfl | omega)
  · have h16 : d = 16 := by omega
    subst h16
    rw [exec_seek_disk16]
    refine ⟨?_, ?_, ?_, ?_, ?_, ?_⟩ <;> first | trivial | rfl | (intro _; first | rfl | omega)

theorem seek_block_array (w : World) (b : Nat) (hb : b < 256) (rv : List Nat) :
    (jbod_op_array w (createOpCode JBOD_SEEK_TO_BLOCK 0 0 b) rv).1.jbod =
      { w.jbod with block := b } ∧
    (jbod_op_array w (createOpCode JBOD_SEEK_TO_BLOCK 0 0 b) rv).2 = rv := by
  rw [joa_seek_block_snd _ _ hb, joa_jbod, exec_seek_block _ _ hb]
  exact ⟨rfl, rfl⟩

theorem read_body_inv (w0 : World) (out0 : List Nat) (addr0 e : Nat) (v : ReadVars)
    (h : ReadInv w0 out0 addr0 e v) (ha : v.addr < e) (he : e ≤ 0x100000)
    (hout : e - addr0 ≤ out0.length) : ReadInv w0 out0 addr0 e (read_body v) := by
  obtain ⟨out, hbuf, hlen, hget⟩ := h.out
  have hmod : (v.addr + 1) % 2 ^ 32 = v.addr + 1 := Nat.mod_eq_of_lt (by omega)
  have hout' : ∃ out', (v.buf.map (fun b : List Nat =>
        b.set v.bufPos (v.readValues.getD v.readPtr 0))) = some out' ∧
      out'.length = out0.length ∧
      ∀ i, out'.getD i 0 =
        if i < v.addr + 1 - addr0 then
          w0.jbod.data ((addr0 + i) / 65536) ((addr0 + i) % 65536 / 256) ((addr0 + i) % 256)
        else out0.getD i 0 := by
    refine ⟨out.set v.bufPos (v.readValues.getD v.readPtr 0), by rw [hbuf]; rfl,
      by simp [hlen], ?_⟩
    intro i
    have hlo := h.lo
    rw [list_set_getD _ _ _ _ (by rw [h.pos, hlen]; omega), h.pos, h.ptr,
      h.bytes ha _ (by omega)]
    by_cases hi : i = v.addr - addr0
    · have e1 : addr0 + i = v.addr := by omega
      rw [if_pos hi, if_pos (by omega), e1]
    · rw [if_neg hi, hget i]
      by_cases h2 : i < v.addr - addr0
      · rw [if_pos h2, if_pos (by omega)]
      · rw [if_neg h2, if_neg (by omega)]
  have hlo := h.lo
  have hdv := h.disk
  have hbv := h.block
  have hpos := h.pos
  have hptr := h.ptr
  unfold read_body
  dsimp only [JBOD_DISK_SIZE, JBOD_BLOCK_SIZE]
  split_ifs with hA hB
  · obtain ⟨sm, sc, sd, sb, sdk, _⟩ := seek_pair v.w (v.diskValue + 1) 0 (by omega) (by omega)
    obtain ⟨fm, fd, fk, fs, fl, fwf, fcoh, fbytes⟩ :=
      read_fetch_spec _ (v.diskValue + 1) 0 v.readValues h.len
        (fun hen => by rw [sc] at hen ⊢; exact h.wf hen)
    refine
      { mounted := ?_, data := ?_, size := ?_, lo := ?_, hi := ?_, disk := ?_, block := ?_,
        ptr := ?_, pos := ?_, len := ?_, cur := ?_, bytes := ?_, wf := ?_, coh := ?_, out := ?_ }
    · exact fm.trans (sm.trans h.mounted)
    · exact fd.trans (sd.trans h.data)
    · exact fs.trans ((congrArg CacheState.cache_size sc).trans h.size)
    · dsimp only; rw [hmod]; omega
    · dsimp only; rw [hmod]; omega
    · dsimp only; rw [hmod]; omega
    · dsimp only; rw [hmod]; omega
    · dsimp only; rw [hmod]; omega
    · dsimp only; rw [hmod]; omega
    · exact fl
    · intro hlt
      dsimp only at hlt ⊢
      rw [hmod] at hlt
      exact fk.trans (sdk (by omega))
    · intro hlt o ho
      dsimp only at hlt ⊢
      rw [hmod] at hlt ⊢
      have hk1 : (v.addr + 1) / 65536 = v.diskValue + 1 := by omega
      have hk2 : (v.addr + 1) % 65536 / 256 = 0 := by omega
      rw [hk1, hk2]
      refine fbytes w0.jbod.data ?_ ?_ o ho
      · intro hen
        rw [sc] at hen
        have := h.coh hen (v.addr + 1) (by omega) (by omega)
        rw [show (v.addr + 1) / 65536 = v.diskValue + 1 by omega,
          show (v.addr + 1) % 65536 / 256 = 0 by omega] at this
        rw [sc]; exact this
      · intro o' _
        rw [sd, sb, sdk (by omega), h.data]
    · intro hen
      exact fwf (by rw [← cache_enabled_congr _ _ fs]; exact hen)
    · intro hen x hx1 hx2
      have hen' : cache_enabled v.w.cache = true := by
        rw [← cache_enabled_congr _ _ (fs.trans (congrArg CacheState.cache_size sc))]
        exact hen
      refine fcoh w0.jbod.data _ _ ?_ (by rw [sc]; exact h.coh hen' x hx1 hx2)
      intro hd hb o' _
      rw [sd, sb, sdk (by omega), h.data, hd, hb]
    · dsimp only
      rw [hmod]
      exact hout'
  · obtain ⟨sj, s2⟩ := seek_block_array v.w (v.blockValue + 1) (by omega) v.readValues
    rw [s2]
    have sc : (jbod_op_array v.w (createOpCode JBOD_SEEK_TO_BLOCK 0 0 (v.blockValue + 1))
        v.readValues).1.cache = v.w.cache := joa_cache _ _ _
    have hcur := h.cur ha
    obtain ⟨fm, fd, fk, fs, fl, fwf, fcoh, fbytes⟩ :=
      read_fetch_spec (jbod_op_array v.w (createOpCode JBOD_SEEK_TO_BLOCK 0 0 (v.blockValue + 1))
        v.readValues).1 v.diskValue (v.blockValue + 1) v.readValues h.len
        (fun hen => by rw [sc] at hen ⊢; exact h.wf hen)
    refine
      { mounted := ?_, data := ?_, size := ?_, lo := ?_, hi := ?_, disk := ?_, block := ?_,
        ptr := ?_, pos := ?_, len := ?_, cur := ?_, bytes := ?_, wf := ?_, coh := ?_, out := ?_ }
    · exact fm.trans h.mounted
    · refine fd.trans ?_
      rw [sj]
      exact h.data
    · exact fs.trans h.size
    · dsimp only; rw [hmod]; omega
    · dsimp only; rw [hmod]; omega
    · dsimp only; rw [hmod]; omega
    · dsimp only; rw [hmod]; omega
    · dsimp only; rw [hmod]; omega
    · dsimp only; rw [hmod]; omega
    · exact fl
    · intro hlt
      dsimp only at hlt ⊢
      refine fk.trans ?_
      rw [sj]
      exact hcur
    · intro hlt o ho
      dsimp only at hlt ⊢
      rw [hmod] at hlt ⊢
      have hk1 : (v.addr + 1) / 65536 = v.diskValue := by omega
      have hk2 : (v.addr + 1) % 65536 / 256 = v.blockValue + 1 := by omega
      rw [hk1, hk2]
      refine fbytes w0.jbod.data ?_ ?_ o ho
      · intro hen
        have := h.coh hen (v.addr + 1) (by omega) (by omega)
        rw [hk1, hk2] at this
        exact this
      · intro o' _
        rw [sj]
        dsimp only
        rw [hcur, h.data]
    · intro hen
      exact fwf (by rw [← cache_enabled_congr _ _ fs]; exact hen)
    · intro hen x hx1 hx2
      have hen' : cache_enabled v.w.cache = true :=
        (cache_enabled_congr _ _ fs).symm.trans hen
      refine fcoh w0.jbod.data _ _ ?_ (h.coh hen' x hx1 hx2)
      intro hd hb o' _
      rw [sj]
      dsimp only
      rw [hcur, h.data, hd, hb]
    · dsimp only
      rw [hmod]
      exact hout'
  · refine
      { mounted := h.mounted, data := h.data, size := h.size, lo := ?_, hi := ?_, disk := ?_,
        block := ?_, ptr := ?_, pos := ?_, len := h.len, cur := ?_, bytes := ?_, wf := h.wf,
        coh := h.coh, out := ?_ }
    · dsimp only; rw [hmod]; omega
    · dsimp only; rw [hmod]; omega
    · dsimp only; rw [hmod]; omega
    · dsimp only; rw [hmod]; omega
    · dsimp only; rw [hmod]; omega
    · dsimp only; rw [hmod]; omega
    · intro _
      exact h.cur ha
    · intro hlt o ho
      dsimp only at hlt ⊢
      rw [hmod]
      have hk1 : (v.addr + 1) / 65536 = v.addr / 65536 := by omega
      have hk2 : (v.addr + 1) % 65536 / 256 = v.addr % 65536 / 256 := by omega
      rw [hk1, hk2]
      exact h.bytes ha o ho
    · dsimp only
      rw [hmod]
      exact hout'

theorem read_body_addr (v : ReadVars) : (read_body v).addr = (v.addr + 1) % 2 ^ 32 := by
  unfold read_body
  dsimp only
  split_ifs <;> rfl

theorem read_while_inv (w0 : World) (out0 : List Nat) (addr0 e : Nat) (he : e ≤ 0x100000)
    (hout : e - addr0 ≤ out0.length) :
    ∀ (n : Nat) (v : ReadVars), ReadInv w0 out0 addr0 e v → e - v.addr ≤ n →
      ReadInv w0 out0 addr0 e (read_while e n v) ∧ (read_while e n v).addr = e := by
  intro n
  induction n with
  | zero =>
    intro v h hn
    have := h.hi
    exact ⟨h, by unfold read_while; omega⟩
  | succ k ih =>
    intro v h hn
    unfold read_while
    split_ifs with hlt
    · have h' := read_body_inv w0 out0 addr0 e v h hlt he hout
      refine ih (read_body v) h' ?_
      have : (read_body v).addr = v.addr + 1 := by
        rw [read_body_addr]
        exact Nat.mod_eq_of_lt (by omega)
      omega
    · have := h.hi
      exact ⟨h, by omega⟩

theorem request_valid (w : World) (addr len : Nat) (b : Bool) (hm : w.isMounted = true)
    (hr : addr + len ≤ 0x100000) (hl : len ≤ 1024) (hb : b = false) :
    requestIsInvalid w addr len b = false ∧ toUInt32 (endRead addr len) = addr + len ∧
      toInt32 len = (len : Int) := by
  have h1 : endRead addr len = ((addr + len : Nat) : Int) := by
    unfold endRead
    rw [Nat.mod_eq_of_lt (by omega), toInt32_small _ (by omega)]
  refine ⟨?_, ?_, toInt32_small _ (by omega)⟩
  · unfold requestIsInvalid
    rw [h1, hm, hb]
    have h2 : ¬ ((addr + len : Nat) : Int) > 1048576 := by omega
    have h3 : ¬ len > 1024 := by omega
    simp [h3]
    omega
  · rw [h1]
    unfold toUInt32
    omega

/-- What `mdadm_read` does on a valid request, with the cache enabled or not:
it returns `len`, the first `len` cells of the caller's array receive the device
bytes of `[addr, addr + len)` and the other cells keep theirs; the device bytes
stay, and a cache that agreed with the device on the blocks of the request still
does.  The cache, when enabled, is assumed well formed and to agree with the
device on the blocks of the request. -/
theorem mdadm_read_spec (w : World) (init : Nat → Nat) (addr len : Nat) (out : List Nat)
    (hm : w.isMounted = true) (hr : addr + len ≤ 0x100000) (hl : len ≤ 1024)
    (hout : len ≤ out.length)
    (hwf : cache_enabled w.cache = true → CacheWF w.cache)
    (hcoh : cache_enabled w.cache = true → ∀ x, addr ≤ x → x < addr + len →
      Coherent w.cache w.jbod.data (x / 65536) (x % 65536 / 256)) :
    (mdadm_read w init addr len (some out)).ret = (len : Int) ∧
    (∃ out', (mdadm_read w init addr len (some out)).buf = some out' ∧
      out'.length = out.length ∧
      ∀ i, out'.getD i 0 =
        if i < len then
          w.jbod.data ((addr + i) / 65536) ((addr + i) % 65536 / 256) ((addr + i) % 256)
        else out.getD i 0) ∧
    (mdadm_read w init addr len (some out)).w.isMounted = true ∧
    (mdadm_read w init addr len (some out)).w.jbod.data = w.jbod.data ∧
    (mdadm_read w init addr len (some out)).w.cache.cache_size = w.cache.cache_size ∧
    (cache_enabled w.cache = true → CacheWF (mdadm_read w init addr len (some out)).w.cache) ∧
    (cache_enabled w.cache = true → ∀ x, addr ≤ x → x < addr + len →
      Coherent (mdadm_read w init addr len (some out)).w.cache w.jbod.data
        (x / 65536) (x % 65536 / 256)) := by
  obtain ⟨hv, hend, hret⟩ := request_valid w addr len (some out).isNone hm hr hl rfl
  have hrl : ((List.range JBOD_BLOCK_SIZE).map init).length = 256 := by simp [JBOD_BLOCK_SIZE]
  obtain ⟨sm, sc, sd, sb, sdk, _⟩ :=
    seek_pair w (addr / JBOD_DISK_SIZE) (addr % JBOD_DISK_SIZE / JBOD_BLOCK_SIZE)
      (by simp only [JBOD_DISK_SIZE]; omega) (by simp only [JBOD_DISK_SIZE, JBOD_BLOCK_SIZE]; omega)
  obtain ⟨fm, fd, fk, fs, fl, fwf, fcoh, fbytes⟩ :=
    read_fetch_spec _ (addr / JBOD_DISK_SIZE) (addr % JBOD_DISK_SIZE / JBOD_BLOCK_SIZE)
      ((List.range JBOD_BLOCK_SIZE).map init) hrl
      (fun hen => by rw [sc] at hen ⊢; exact hwf hen)
  have hinit : ReadInv w out addr (addr + len)
      { addr := addr, diskValue := addr / JBOD_DISK_SIZE,
        blockValue := addr % JBOD_DISK_SIZE / JBOD_BLOCK_SIZE,
        readValues := (read_fetch
          (jbod_client_operation
            (jbod_client_operation w (createOpCode JBOD_SEEK_TO_DISK (addr / JBOD_DISK_SIZE) 0 0)
              none).1
            (createOpCode JBOD_SEEK_TO_BLOCK 0 0 (addr % JBOD_DISK_SIZE / JBOD_BLOCK_SIZE)) none).1
          (addr / JBOD_DISK_SIZE) (addr % JBOD_DISK_SIZE / JBOD_BLOCK_SIZE)
          ((List.range JBOD_BLOCK_SIZE).map init)).2,
        readPtr := addr % JBOD_DISK_SIZE % JBOD_BLOCK_SIZE, buf := some out, bufPos := 0,
        w := (read_fetch
          (jbod_client_operation
            (jbod_client_operation w (createOpCode JBOD_SEEK_TO_DISK (addr / JBOD_DISK_SIZE) 0 0)
              none).1
            (createOpCode JBOD_SEEK_TO_BLOCK 0 0 (addr % JBOD_DISK_SIZE / JBOD_BLOCK_SIZE)) none).1
          (addr / JBOD_DISK_SIZE) (addr % JBOD_DISK_SIZE / JBOD_BLOCK_SIZE)
          ((List.range JBOD_BLOCK_SIZE).map init)).1 } := by
    refine
      { mounted := fm.trans sm, data := fd.trans sd,
        size := fs.trans (congrArg CacheState.cache_size sc), lo := Nat.le_refl _,
        hi := Nat.le_add_right _ _, disk := rfl, block := rfl, ptr := ?_, pos := ?_, len := fl,
        cur := ?_, bytes := ?_, wf := ?_, coh := ?_, out := ?_ }
    · simp only [JBOD_DISK_SIZE, JBOD_BLOCK_SIZE]; omega
    · simp
    · intro hlt
      dsimp only at hlt ⊢
      exact fk.trans (sdk (by simp only [JBOD_DISK_SIZE]; omega))
    · intro hlt o ho
      dsimp only at hlt ⊢
      refine fbytes w.jbod.data ?_ ?_ o ho
      · intro hen
        rw [sc] at hen ⊢
        exact hcoh hen addr (Nat.le_refl _) hlt
      · intro o' _
        rw [sd, sb, sdk (by simp only [JBOD_DISK_SIZE]; omega)]
    · intro hen
      exact fwf ((cache_enabled_congr _ _ fs).symm.trans hen)
    · intro hen x hx1 hx2
      have hen' : cache_enabled w.cache = true := by
        have := (cache_enabled_congr _ _ fs).symm.trans hen
        rw [sc] at this
        exact this
      refine fcoh w.jbod.data _ _ ?_ (by rw [sc]; exact hcoh hen' x hx1 hx2)
      intro hd hb o' _
      rw [sd, sb, sdk (by simp only [JBOD_DISK_SIZE]; omega), hd, hb]
    · exact ⟨out, rfl, rfl, fun i => by simp⟩
  obtain ⟨hfin, hadd⟩ := read_while_inv w out addr (addr + len) hr (by omega) len _ hinit
    (by dsimp only; omega)
  unfold mdadm_read
  rw [if_neg (by rw [hv]; decide)]
  dsimp only
  rw [hend, hret]
  refine ⟨rfl, ?_, hfin.mounted.trans hm, hfin.data, hfin.size, ?_, ?_⟩
  · obtain ⟨o', h1, h2, h3⟩ := hfin.out
    refine ⟨o', h1, h2, ?_⟩
    intro i
    rw [h3 i, hadd, Nat.add_sub_cancel_left]
  · intro hen
    exact hfin.wf ((cache_enabled_congr _ _ hfin.size).trans hen)
  · intro hen
    exact hfin.coh ((cache_enabled_congr _ _ hfin.size).trans hen)

/-- C3: on a mounted controller with the cache disabled, for every request with
`addr + len ≤ 0x100000` and `len ≤ 1024` and a caller's array of at least `len`
cells, `mdadm_read` returns `len` and cell `i < len` of the array receives the
byte the device holds at disk `(addr + i) / 65536`, block
`(addr + i) % 65536 / 256`, offset `(addr + i) % 256`; the cells from `len` on
and the device bytes keep their values. -/
theorem mdadm_read_returns_device_bytes (w : World) (init : Nat → Nat) (addr len : Nat)
    (out : List Nat) (hm : w.isMounted = true) (hc : cache_enabled w.cache = false)
    (hr : addr + len ≤ 0x100000) (hl : len ≤ 1024) (hout : len ≤ out.length) :
    (mdadm_read w init addr len (some out)).ret = (len : Int) ∧
    (∃ out', (mdadm_read w init addr len (some out)).buf = some out' ∧
      out'.length = out.length ∧
      ∀ i, out'.getD i 0 =
        if i < len then
          w.jbod.data ((addr + i) / 65536) ((addr + i) % 65536 / 256) ((addr + i) % 256)
        else out.getD i 0) ∧
    (mdadm_read w init addr len (some out)).w.jbod.data = w.jbod.data := by
  have h := mdadm_read_spec w init addr len out hm hr hl hout
    (fun hen => by rw [hc] at hen; cases hen) (fun hen => by rw [hc] at hen; cases hen)
  exact ⟨h.1, h.2.1, h.2.2.2.1⟩

/-- C3 on a read of four bytes across the end of disk 0. -/
theorem mdadm_read_returns_device_bytes_witness :
    (mdadm_read world_mounted (fun _ => 0) 65534 4 (some [0, 0, 0, 0])).ret = ((4 : Nat) : Int) ∧
    (∃ out', (mdadm_read world_mounted (fun _ => 0) 65534 4 (some [0, 0, 0, 0])).buf = some out' ∧
      out'.length = [0, 0, 0, 0].length ∧
      ∀ i, out'.getD i 0 =
        if i < 4 then
          world_mounted.jbod.data ((65534 + i) / 65536) ((65534 + i) % 65536 / 256)
            ((65534 + i) % 256)
        else [0, 0, 0, 0].getD i 0) ∧
    (mdadm_read world_mounted (fun _ => 0) 65534 4 (some [0, 0, 0, 0])).w.jbod.data =
      world_mounted.jbod.data :=
  mdadm_read_returns_device_bytes world_mounted (fun _ => 0) 65534 4 [0, 0, 0, 0] rfl rfl
    (by decide) (by decide) (by decide)

/-! ### The pieces of `mdadm_write` -/

theorem joa_write (w : World) (rv : List Nat) :
    (jbod_op_array w (createOpCode JBOD_WRITE_BLOCK 0 0 0) rv).1.jbod =
      { w.jbod with
        block := w.jbod.block + 1
        data := fun d k o =>
          if d = w.jbod.disk ∧ k = w.jbod.block ∧ o < JBOD_BLOCK_SIZE then rv.getD o 0
          else w.jbod.data d k o } ∧
    (jbod_op_array w (createOpCode JBOD_WRITE_BLOCK 0 0 0) rv).2 = rv := by
  rw [joa_snd, joa_jbod, exec_write_block]
  exact ⟨rfl, rfl⟩

theorem write_refresh_spec (w : World) (d b : Nat) (rv : List Nat)
    (hwf : cache_enabled w.cache = true → CacheWF w.cache) :
    (write_refresh w d b rv).isMounted = w.isMounted ∧
    (write_refresh w d b rv).jbod = w.jbod ∧
    (write_refresh w d b rv).cache.cache_size = w.cache.cache_size ∧
    (cache_enabled w.cache = true → CacheWF (write_refresh w d b rv).cache) ∧
    (∀ D d' b', cache_enabled w.cache = true →
      (¬(d' = d ∧ b' = b) → Coherent w.cache D d' b') →
      (d' = d → b' = b → ∀ o, o < 256 → rv.getD o 0 = D d' b' o) →
      Coherent (write_refresh w d b rv).cache D d' b') := by
  unfold write_refresh
  by_cases hen : cache_enabled w.cache = true
  · rw [if_pos hen]
    have wf := hwf hen
    obtain ⟨arr, h1, h2, _⟩ := hwf hen
    refine ⟨rfl, rfl, (cache_update_spec _ _ _ _ arr h1 h2).1, fun _ => cache_update_wf _ _ _ _ wf,
      ?_⟩
    intro D d' b' _ hne hk
    refine cache_update_coherent _ _ _ _ D d' b' wf ?_ ?_
    · intro hh
      exact hne (fun h' => hh ⟨by exact_mod_cast congrArg Nat.cast h'.1,
        by exact_mod_cast congrArg Nat.cast h'.2⟩)
    · intro hd hb
      exact hk (by exact_mod_cast hd) (by exact_mod_cast hb)
  · rw [if_neg hen]
    exact ⟨rfl, rfl, rfl, fun h => absurd h hen, fun _ _ _ h => absurd h hen⟩

theorem write_fetch_first_spec (w : World) (d b : Nat) (rv : List Nat) (hl : rv.length = 256)
    (hb : b < 256) (hcb : w.jbod.block = b)
    (hwf : cache_enabled w.cache = true → CacheWF w.cache) :
    (write_fetch_first w d b rv).1.isMounted = w.isMounted ∧
    (write_fetch_first w d b rv).1.jbod.data = w.jbod.data ∧
    (write_fetch_first w d b rv).1.jbod.disk = w.jbod.disk ∧
    (write_fetch_first w d b rv).1.jbod.block = b ∧
    (write_fetch_first w d b rv).1.cache.cache_size = w.cache.cache_size ∧
    (write_fetch_first w d b rv).2.length = 256 ∧
    (cache_enabled w.cache = true → CacheWF (write_fetch_first w d b rv).1.cache) ∧
    (∀ D d' b',
      (d' = d → b' = b → ∀ o, o < 256 → w.jbod.data w.jbod.disk w.jbod.block o = D d' b' o) →
      Coherent w.cache D d' b' → Coherent (write_fetch_first w d b rv).1.cache D d' b') ∧
    (¬ cache_enabled w.cache = true → ∀ o, o < 256 →
      (write_fetch_first w d b rv).2.getD o 0 = w.jbod.data w.jbod.disk w.jbod.block o) := by
  unfold write_fetch_first
  dsimp only
  by_cases hen : cache_enabled w.cache = true
  · rw [if_pos hen]
    have wf := hwf hen
    obtain ⟨hc, hs, hcase⟩ := cache_lookup_spec w.cache d b rv
    have wf1 : CacheWF (cache_lookup w.cache d b (some rv)).2.1 := cacheWF_congr _ _ hc hs wf
    rcases hcase with ⟨h1, arr, e, harr, he, hed, heb, hbuf⟩ | ⟨h1, hbuf⟩
    · have hne : ¬ (cache_lookup w.cache d b (some rv)).1 = -1 := by rw [h1]; decide
      rw [if_neg hne, hbuf]
      refine ⟨rfl, rfl, rfl, hcb, hs, by rw [Option.getD_some, memcpy_length, hl], fun _ => wf1,
        ?_, fun h => absurd hen h⟩
      intro D d' b' _ hcoh
      exact coherent_congr _ _ D D d' b' hc (fun _ _ => rfl) hcoh
    · rw [if_pos h1, hbuf]
      simp only [Option.getD_some, joa_read_snd, joa_cache, joa_isMounted, joa_jbod,
        jco_isMounted, jco_cache, jco_jbod, exec_read_block, exec_seek_block _ _ hb]
      refine ⟨trivial, trivial, trivial, trivial, ?_, by rw [memcpy_length, hl], ?_, ?_,
        fun h => absurd hen h⟩
      · obtain ⟨arr, h1', _, _⟩ := wf1
        rw [(cache_insert_spec _ d b _ arr h1').1, hs]
      · intro _
        exact cache_insert_wf _ _ _ _ wf1
      · intro D d' b' hk hcoh
        refine cache_insert_coherent _ _ _ _ D d' b' wf1
          (coherent_congr _ _ D D d' b' hc (fun _ _ => rfl) hcoh) ?_
        intro hd hb' o ho
        rw [read_block_getD _ _ _ hl ho]
        exact hk (by exact_mod_cast hd) (by exact_mod_cast hb') o ho
  · rw [if_neg hen]
    simp only [joa_read_snd, joa_cache, joa_isMounted, joa_jbod, jco_isMounted, jco_cache,
      jco_jbod, exec_read_block, exec_seek_block _ _ hb]
    refine ⟨trivial, trivial, trivial, trivial, trivial, by rw [memcpy_length, hl],
      fun h => absurd h hen, ?_, ?_⟩
    · intro D d' b' _ hcoh
      exact hcoh
    · intro _ o ho
      exact read_block_getD _ _ _ hl ho

theorem exec_seek_block0 (j : Jbod) (buf : Option (List Nat)) :
    j.exec (createOpCode JBOD_SEEK_TO_BLOCK 0 0 0) buf = ({ j with block := 0 }, buf) :=
  exec_seek_block j 0 (by omega) buf

theorem write_fetch_disk_spec (w : World) (d b : Nat) (rv : List Nat) (hl : rv.length = 256)
    (hb : b = 0) (hcb : w.jbod.block = b)
    (hwf : cache_enabled w.cache = true → CacheWF w.cache) :
    (write_fetch_disk w d b rv).1.isMounted = w.isMounted ∧
    (write_fetch_disk w d b rv).1.jbod.data = w.jbod.data ∧
    (write_fetch_disk w d b rv).1.jbod.disk = w.jbod.disk ∧
    (write_fetch_disk w d b rv).1.jbod.block = b ∧
    (write_fetch_disk w d b rv).1.cache.cache_size = w.cache.cache_size ∧
    (write_fetch_disk w d b rv).2.length = 256 ∧
    (cache_enabled w.cache = true → CacheWF (write_fetch_disk w d b rv).1.cache) ∧
    (∀ D d' b',
      (d' = d → b' = b → ∀ o, o < 256 → w.jbod.data w.jbod.disk w.jbod.block o = D d' b' o) →
      Coherent w.cache D d' b' → Coherent (write_fetch_disk w d b rv).1.cache D d' b') ∧
    (¬ cache_enabled w.cache = true → ∀ o, o < 256 →
      (write_fetch_disk w d b rv).2.getD o 0 = w.jbod.data w.jbod.disk w.jbod.block o) := by
  unfold write_fetch_disk
  dsimp only
  by_cases hen : cache_enabled w.cache = true
  · rw [if_pos hen]
    have wf := hwf hen
    obtain ⟨hc, hs, hcase⟩ := cache_lookup_spec w.cache d b rv
    have wf1 : CacheWF (cache_lookup w.cache d b (some rv)).2.1 := cacheWF_congr _ _ hc hs wf
    rcases hcase with ⟨h1, arr, e, harr, he, hed, heb, hbuf⟩ | ⟨h1, hbuf⟩
    · have hne : ¬ (cache_lookup w.cache d b (some rv)).1 = -1 := by rw [h1]; decide
      rw [if_neg hne, hbuf]
      refine ⟨rfl, rfl, rfl, hcb, hs, by rw [Option.getD_some, memcpy_length, hl], fun _ => wf1,
        ?_, fun h => absurd hen h⟩
      intro D d' b' _ hcoh
      exact coherent_congr _ _ D D d' b' hc (fun _ _ => rfl) hcoh
    · rw [if_pos h1, hbuf]
      simp only [Option.getD_some, joa_read_snd, joa_cache, joa_isMounted, joa_jbod,
        jco_isMounted, jco_cache, jco_jbod, exec_read_block, exec_seek_block0]
      refine ⟨trivial, trivial, trivial, hb.symm, ?_, by rw [memcpy_length, hl], ?_, ?_,
        fun h => absurd hen h⟩
      · obtain ⟨arr, h1', _, _⟩ := wf1
        rw [(cache_insert_spec _ d b _ arr h1').1, hs]
      · intro _
        exact cache_insert_wf _ _ _ _ wf1
      · intro D d' b' hk hcoh
        refine cache_insert_coherent _ _ _ _ D d' b' wf1
          (coherent_congr _ _ D D d' b' hc (fun _ _ => rfl) hcoh) ?_
        intro hd hb' o ho
        rw [read_block_getD _ _ _ hl ho]
        exact hk (by exact_mod_cast hd) (by exact_mod_cast hb') o ho
  · rw [if_neg hen]
    simp only [joa_read_snd, joa_cache, joa_isMounted, joa_jbod, jco_isMounted, jco_cache,
      jco_jbod, exec_read_block, exec_seek_block0]
    refine ⟨trivial, trivial, trivial, hb.symm, trivial, by rw [memcpy_length, hl],
      fun h => absurd h hen, ?_, ?_⟩
    · intro D d' b' _ hcoh
      exact hcoh
    · intro _ o ho
      exact read_block_getD _ _ _ hl ho

theorem write_fetch_block_spec (w : World) (d b : Nat) (rv : List Nat) (hl : rv.length = 256)
    (hb : b < 256) (hcb : w.jbod.block = b)
    (hwf : cache_enabled w.cache = true → CacheWF w.cache) :
    (write_fetch_block w d b rv).1.isMounted = w.isMounted ∧
    (write_fetch_block w d b rv).1.jbod.data = w.jbod.data ∧
    (write_fetch_block w d b rv).1.jbod.disk = w.jbod.disk ∧
    (write_fetch_block w d b rv).1.jbod.block = b ∧
    (write_fetch_block w d b rv).1.cache.cache_size = w.cache.cache_size ∧
    (write_fetch_block w d b rv).2.length = 256 ∧
    (cache_enabled w.cache = true → CacheWF (write_fetch_block w d b rv).1.cache) ∧
    (∀ D d' b',
      (d' = d → b' = b → ∀ o, o < 256 → w.jbod.data w.jbod.disk w.jbod.block o = D d' b' o) →
      Coherent w.cache D d' b' → Coherent (write_fetch_block w d b rv).1.cache D d' b') ∧
    (¬ cache_enabled w.cache = true → ∀ o, o < 256 →
      (write_fetch_block w d b rv).2.getD o 0 = w.jbod.data w.jbod.disk w.jbod.block o) := by
  unfold write_fetch_block
  dsimp only
  by_cases hen : cache_enabled w.cache = true
  · rw [if_pos hen]
    have wf := hwf hen
    obtain ⟨hc, hs, hcase⟩ := cache_lookup_spec w.cache d b rv
    have wf1 : CacheWF (cache_lookup w.cache d b (some rv)).2.1 := cacheWF_congr _ _ hc hs wf
    rcases hcase with ⟨h1, arr, e, harr, he, hed, heb, hbuf⟩ | ⟨h1, hbuf⟩
    · have hne : ¬ (cache_lookup w.cache d b (some rv)).1 = -1 := by rw [h1]; decide
      rw [if_neg hne, hbuf]
      refine ⟨rfl, rfl, rfl, hcb, hs, by rw [Option.getD_some, memcpy_length, hl], fun _ => wf1,
        ?_, fun h => absurd hen h⟩
      intro D d' b' _ hcoh
      exact coherent_congr _ _ D D d' b' hc (fun _ _ => rfl) hcoh
    · rw [if_pos h1, hbuf]
      simp only [Option.getD_some, joa_read_snd, joa_cache, joa_isMounted, joa_jbod,
        jco_isMounted, jco_cache, jco_jbod, exec_read_block, exec_seek_block _ _ hb, joa_seek_block_snd _ _ hb]
      refine ⟨trivial, trivial, trivial, trivial, ?_, by rw [memcpy_length, hl], ?_, ?_,
        fun h => absurd hen h⟩
      · obtain ⟨arr, h1', _, _⟩ := wf1
        rw [(cache_insert_spec _ d b _ arr h1').1, hs]
      · intro _
        exact cache_insert_wf _ _ _ _ wf1
      · intro D d' b' hk hcoh
        refine cache_insert_coherent _ _ _ _ D d' b' wf1
          (coherent_congr _ _ D D d' b' hc (fun _ _ => rfl) hcoh) ?_
        intro hd hb' o ho
        rw [read_block_getD _ _ _ hl ho]
        exact hk (by exact_mod_cast hd) (by exact_mod_cast hb') o ho
  · rw [if_neg hen]
    simp only [joa_read_snd, joa_cache, joa_isMounted, joa_jbod, jco_isMounted, jco_cache,
      jco_jbod, exec_read_block, exec_seek_block _ _ hb, joa_seek_block_snd _ _ hb]
    refine ⟨trivial, trivial, trivial, trivial, trivial, by rw [memcpy_length, hl],
      fun h => absurd h hen, ?_, ?_⟩
    · intro D d' b' _ hcoh
      exact hcoh
    · intro _ o ho
      exact read_block_getD _ _ _ hl ho

/-! ### The loop of `mdadm_write` -/

theorem writeTarget_step_ne (D0 : Nat → Nat → Nat → Nat) (src : List Nat) (addr0 a d k o : Nat)
    (h : ¬(d = a / 65536 ∧ k = a % 65536 / 256 ∧ o = a % 256)) :
    writeTarget D0 src addr0 (a + 1) d k o = writeTarget D0 src addr0 a d k o := by
  unfold writeTarget
  by_cases hc : d < 16 ∧ k < 256 ∧ o < 256 ∧ addr0 ≤ d * 65536 + k * 256 + o ∧
      d * 65536 + k * 256 + o < a
  · rw [if_pos hc, if_pos ⟨hc.1, hc.2.1, hc.2.2.1, hc.2.2.2.1, by omega⟩]
  · rw [if_neg hc, if_neg]
    intro hc'
    apply hc
    refine ⟨hc'.1, hc'.2.1, hc'.2.2.1, hc'.2.2.2.1, ?_⟩
    by_contra hlt
    apply h
    omega

theorem writeTarget_step_eq (D0 : Nat → Nat → Nat → Nat) (src : List Nat) (addr0 a : Nat)
    (ha : a < 0x100000) (hlo : addr0 ≤ a) :
    writeTarget D0 src addr0 (a + 1) (a / 65536) (a % 65536 / 256) (a % 256) =
      src.getD (a - addr0) 0 := by
  unfold writeTarget
  have e1 : a / 65536 * 65536 + a % 65536 / 256 * 256 + a % 256 = a := by omega
  rw [if_pos ⟨by omega, by omega, by omega, by omega, by omega⟩, e1]

theorem writeTarget_out (D0 : Nat → Nat → Nat → Nat) (src : List Nat) (addr0 a d k o : Nat)
    (h : ¬(d < 16 ∧ k < 256 ∧ o < 256 ∧ addr0 ≤ d * 65536 + k * 256 + o ∧
      d * 65536 + k * 256 + o < a)) :
    writeTarget D0 src addr0 a d k o = D0 d k o := by
  unfold writeTarget
  rw [if_neg h]

theorem writeTarget_in (D0 : Nat → Nat → Nat → Nat) (src : List Nat) (addr0 a x : Nat)
    (hx : x < 0x100000) (hlo : addr0 ≤ x) (hhi : x < a) :
    writeTarget D0 src addr0 a (x / 65536) (x % 65536 / 256) (x % 256) =
      src.getD (x - addr0) 0 := by
  unfold writeTarget
  have e1 : x / 65536 * 65536 + x % 65536 / 256 * 256 + x % 256 = x := by omega
  rw [if_pos ⟨by omega, by omega, by omega, by omega, by omega⟩, e1]

theorem mem_same_block (x a : Nat) (h : x / 256 = a / 256) :
    x / 65536 = a / 65536 ∧ x % 65536 / 256 = a % 65536 / 256 := by omega

theorem mem_other_block (x a : Nat) (h : x / 256 ≠ a / 256) :
    ¬(x / 65536 = a / 65536 ∧ x % 65536 / 256 = a % 65536 / 256) := by omega

theorem lin_eq_block (a d k o : Nat) (hk : k < 256) (ho : o < 256)
    (h : d * 65536 + k * 256 + o = a) : d = a / 65536 ∧ k = a % 65536 / 256 ∧ o = a % 256 := by
  omega

theorem arith_next_block_out (a addr0 e d k o cd : Nat) (ha : a < e) (he : e ≤ 1048576)
    (hlen : e - addr0 ≤ 1024) (hlo : addr0 ≤ a) (hc : a % 256 = 255)
    (hcd : a + 1 < 1048576 → cd = (a + 1) / 65536) (hcd16 : a + 1 = 1048576 → cd = 15)
    (hd : d = cd) (hk : k = (a + 1) % 65536 / 256) (ho : o < 256)
    (h1 : addr0 ≤ d * 65536 + k * 256 + o) (h2 : d * 65536 + k * 256 + o < a + 1) : False := by
  rcases Nat.lt_or_ge (a + 1) 1048576 with hlt | hge
  · have := hcd hlt
    omega
  · have := hcd16 (by omega)
    omega

theorem arith_next_cursor_ne (a e cd : Nat) (ha : a < e) (he : e ≤ 1048576)
    (hc : a % 256 = 255)
    (hcd : a + 1 < 1048576 → cd = (a + 1) / 65536) (hcd16 : a + 1 = 1048576 → cd = 15) :
    ¬(cd = a / 65536 ∧ (a + 1) % 65536 / 256 = a % 65536 / 256) := by
  rcases Nat.lt_or_ge (a + 1) 1048576 with hlt | hge
  · have := hcd hlt
    omega
  · have := hcd16 (by omega)
    omega

/-- The device bytes of the request after the overlaid block has been written. -/
theorem cross_done (D Df : Nat → Nat → Nat → Nat) (rv rv1 src : List Nat) (addr0 a : Nat)
    (hdata : ∀ d k o, Df d k o =
      if d = a / 65536 ∧ k = a % 65536 / 256 ∧ o < 256 then rv1.getD o 0 else D d k o)
    (hrv1 : ∀ o, rv1.getD o 0 =
      if o = a % 256 then src.getD (a - addr0) 0 else rv.getD o 0)
    (hdone : ∀ x, addr0 ≤ x → x / 256 < a / 256 →
      D (x / 65536) (x % 65536 / 256) (x % 256) = src.getD (x - addr0) 0)
    (hpend : ∀ x, addr0 ≤ x → x < a → x / 256 = a / 256 →
      rv.getD (x % 256) 0 = src.getD (x - addr0) 0)
    (hc : a % 256 = 255) :
    ∀ x, addr0 ≤ x → x / 256 < (a + 1) / 256 →
      Df (x / 65536) (x % 65536 / 256) (x % 256) = src.getD (x - addr0) 0 := by
  intro x hx1 hx2
  rw [hdata]
  by_cases hxb : x / 256 = a / 256
  · obtain ⟨e1, e2⟩ := mem_same_block x a hxb
    have e3 : x % 256 < 256 := Nat.mod_lt _ (by omega)
    rw [if_pos ⟨e1, e2, e3⟩, hrv1]
    by_cases hxa : x = a
    · subst hxa
      rw [if_pos rfl]
    · have e4 : ¬ x % 256 = a % 256 := by omega
      have e5 : x < a := by omega
      rw [if_neg e4]
      exact hpend x hx1 e5 hxb
  · have e6 : x / 256 < a / 256 := by omega
    rw [if_neg (fun hh => mem_other_block x a hxb ⟨hh.1, hh.2.1⟩)]
    exact hdone x hx1 e6

/-- The device bytes outside the request after the overlaid block has been
written, cache disabled. -/
theorem cross_frame (D0 D Df : Nat → Nat → Nat → Nat) (rv rv1 src : List Nat)
    (addr0 a e cd : Nat)
    (hdata : ∀ d k o, Df d k o =
      if d = a / 65536 ∧ k = a % 65536 / 256 ∧ o < 256 then rv1.getD o 0 else D d k o)
    (hrv1 : ∀ o, rv1.getD o 0 =
      if o = a % 256 then src.getD (a - addr0) 0 else rv.getD o 0)
    (fr1 : ∀ o, o < 256 → rv.getD o 0 =
      writeTarget D0 src addr0 a (a / 65536) (a % 65536 / 256) o)
    (fr2 : ∀ d k o, D d k o =
      if d = a / 65536 ∧ k = a % 65536 / 256 then D0 d k o
      else writeTarget D0 src addr0 a d k o)
    (ha : a < e) (he : e ≤ 1048576) (hlen : e - addr0 ≤ 1024) (hlo : addr0 ≤ a)
    (hc : a % 256 = 255)
    (hcd : a + 1 < 1048576 → cd = (a + 1) / 65536) (hcd16 : a + 1 = 1048576 → cd = 15) :
    ∀ d k o, Df d k o =
      if d = cd ∧ k = (a + 1) % 65536 / 256 then D0 d k o
      else writeTarget D0 src addr0 (a + 1) d k o := by
  have hne := arith_next_cursor_ne a e cd ha he hc hcd hcd16
  have ha20 : a < 1048576 := by omega
  intro d k o
  rw [hdata]
  by_cases hcur : d = a / 65536 ∧ k = a % 65536 / 256
  · have hn2 : ¬(d = cd ∧ k = (a + 1) % 65536 / 256) := by
      intro hh
      exact hne ⟨hh.1.symm.trans hcur.1, hh.2.symm.trans hcur.2⟩
    rw [if_neg hn2]
    by_cases ho : o < 256
    · rw [if_pos ⟨hcur.1, hcur.2, ho⟩, hrv1, hcur.1, hcur.2]
      by_cases hoa : o = a % 256
      · rw [if_pos hoa, hoa, writeTarget_step_eq _ _ _ _ ha20 hlo]
      · rw [if_neg hoa, fr1 o ho, writeTarget_step_ne]
        intro hh
        exact hoa hh.2.2
    · rw [if_neg (fun hh => ho hh.2.2), fr2, if_pos hcur, writeTarget_out]
      intro hh
      exact ho hh.2.2.1
  · rw [if_neg (fun hh => hcur ⟨hh.1, hh.2.1⟩), fr2, if_neg hcur]
    by_cases hnew : d = cd ∧ k = (a + 1) % 65536 / 256
    · rw [if_pos hnew, writeTarget_out]
      intro hh
      exact arith_next_block_out a addr0 e d k o cd ha he hlen hlo hc hcd hcd16 hnew.1 hnew.2
        hh.2.2.1 hh.2.2.2.1 (Nat.lt_succ_of_lt hh.2.2.2.2)
    · rw [if_neg hnew, writeTarget_step_ne]
      intro hh
      exact hcur ⟨hh.1, hh.2.1⟩

/-- One pass of the loop of `mdadm_write` that ends a block: the overlaid block
`rv1` has been written and the cache refreshed, the device has been sent to the
next block (state `wS`) and that block fetched (`f`). -/
theorem write_cross (w0 : World) (src : List Nat) (addr0 e : Nat) (v : WriteVars)
    (h : WriteInv w0 src addr0 e v) (ha : v.addr < e) (he : e ≤ 0x100000)
    (hlen : e - addr0 ≤ 1024) (hc : v.addr % 256 = 255)
    (rv1 : List Nat) (hrv1 : rv1 = v.readValues.set v.readPtr (v.buf.getD v.bufPos 0))
    (a' dv' bv' p' : Nat) (ha' : a' = v.addr + 1) (hdv' : dv' = a' / 65536)
    (hbv' : bv' = a' % 65536 / 256) (hp' : p' = v.bufPos + 1)
    (wS : World) (f : World × List Nat)
    (hSm : wS.isMounted = v.w.isMounted)
    (hSc : wS.cache = (write_refresh (jbod_op_array v.w (createOpCode JBOD_WRITE_BLOCK 0 0 0)
      rv1).1 v.diskValue v.blockValue rv1).cache)
    (hSd : ∀ d k o, wS.jbod.data d k o =
      if d = v.addr / 65536 ∧ k = v.addr % 65536 / 256 ∧ o < 256 then rv1.getD o 0
      else v.w.jbod.data d k o)
    (hSb : wS.jbod.block = bv')
    (hSk : v.addr + 1 < 0x100000 → wS.jbod.disk = (v.addr + 1) / 65536)
    (hSk16 : v.addr + 1 = 0x100000 → wS.jbod.disk = 15)
    (hf : FetchSpec wS dv' bv' f) :
    WriteInv w0 src addr0 e
      { addr := a', diskValue := dv', blockValue := bv', readValues := f.2, readPtr := 0,
        buf := v.buf, bufPos := p', w := f.1 } := by
  subst ha' hdv' hbv' hp'
  have hlo := h.lo
  have hdv := h.disk
  have hbv := h.block
  have hpos := h.pos
  have ha20 : v.addr < 0x100000 := Nat.lt_of_lt_of_le ha he
  have hdk : v.w.jbod.disk = v.addr / 65536 := (h.curd ha20).trans hdv
  have hbk : v.w.jbod.block = v.addr % 65536 / 256 := h.curb.trans hbv
  have hrv1get : ∀ o, rv1.getD o 0 =
      if o = v.addr % 256 then src.getD (v.addr - addr0) 0 else v.readValues.getD o 0 := by
    intro o
    have hpl : v.readPtr < v.readValues.length := by rw [h.ptr, h.len]; omega
    rw [hrv1, list_set_getD _ _ _ _ hpl, h.ptr, h.bufc, h.pos]
  obtain ⟨_, _, ws, wwf, wcoh⟩ :=
    write_refresh_spec (jbod_op_array v.w (createOpCode JBOD_WRITE_BLOCK 0 0 0) rv1).1
      v.diskValue v.blockValue rv1 (fun hen => by rw [joa_cache] at hen ⊢; exact h.wf hen)
  obtain ⟨fm, fd, fk, fb, fs, fl, fwf, fcoh, fbytes⟩ := hf
  have hdata : ∀ d k o, f.1.jbod.data d k o =
      if d = v.addr / 65536 ∧ k = v.addr % 65536 / 256 ∧ o < 256 then rv1.getD o 0
      else v.w.jbod.data d k o := by
    intro d k o
    rw [fd, hSd]
  have hsz : f.1.cache.cache_size = v.w.cache.cache_size := by
    rw [fs, hSc, ws, joa_cache]
  have hszS : wS.cache.cache_size = v.w.cache.cache_size := by
    rw [hSc, ws, joa_cache]
  have henf : cache_enabled f.1.cache = cache_enabled v.w.cache := cache_enabled_congr _ _ hsz
  have henS : cache_enabled wS.cache = cache_enabled v.w.cache := cache_enabled_congr _ _ hszS
  have hfin : v.addr + 1 ≤ e := ha
  have hfl : addr0 ≤ v.addr + 1 := Nat.le_succ_of_le hlo
  have hptr0 : 0 = (v.addr + 1) % 256 := by omega
  have hposn : v.bufPos + 1 = v.addr + 1 - addr0 := by omega
  have hpend : ∀ x, addr0 ≤ x → x < v.addr + 1 → x / 256 = (v.addr + 1) / 256 →
      f.2.getD (x % 256) 0 = src.getD (x - addr0) 0 := by
    intro x _ hx2 hx3
    exfalso
    omega
  have hdone := cross_done v.w.jbod.data f.1.jbod.data v.readValues rv1 src addr0 v.addr
    hdata hrv1get h.done h.pend hc
  have hcoh : cache_enabled f.1.cache = true → ∀ x, addr0 ≤ x → x / 256 < (v.addr + 1) / 256 →
      Coherent f.1.cache f.1.jbod.data (x / 65536) (x % 65536 / 256) := by
    intro hen x hx1 hx2
    have hen_v : cache_enabled v.w.cache = true := by rw [← henf]; exact hen
    have hxle : x / 256 ≤ v.addr / 256 := by omega
    have step1 : Coherent (write_refresh (jbod_op_array v.w (createOpCode JBOD_WRITE_BLOCK 0 0 0)
        rv1).1 v.diskValue v.blockValue rv1).cache f.1.jbod.data (x / 65536)
        (x % 65536 / 256) := by
      refine wcoh f.1.jbod.data _ _ (by rw [joa_cache]; exact hen_v) ?_ ?_
      · intro hne
        rw [hdv, hbv] at hne
        have hxlt : x / 256 < v.addr / 256 := by
          rcases Nat.lt_or_eq_of_le hxle with h1 | h1
          · exact h1
          · exact absurd (mem_same_block x v.addr h1) hne
        have hc1 := h.coh hen_v x hx1 hxlt
        refine coherent_congr v.w.cache _ _ _ _ _
          (congrArg CacheState.cache (joa_cache _ _ _)) ?_ hc1
        intro o _
        rw [hdata, if_neg (fun hh => hne ⟨hh.1, hh.2.1⟩)]
      · intro e1 e2 o ho
        rw [hdv] at e1
        rw [hbv] at e2
        rw [hdata, if_pos ⟨e1, e2, ho⟩]
    refine fcoh f.1.jbod.data _ _ ?_ (by rw [hSc]; exact step1)
    intro e1 e2
    exfalso
    omega
  have hframe : ¬ cache_enabled f.1.cache = true →
      (∀ o, o < 256 → f.2.getD o 0 =
        writeTarget w0.jbod.data src addr0 (v.addr + 1) f.1.jbod.disk f.1.jbod.block o) ∧
      (∀ d k o, f.1.jbod.data d k o =
        if d = f.1.jbod.disk ∧ k = f.1.jbod.block then w0.jbod.data d k o
        else writeTarget w0.jbod.data src addr0 (v.addr + 1) d k o) := by
    intro hdis
    have hdis_v : ¬ cache_enabled v.w.cache = true := by rw [← henf]; exact hdis
    have hdis_S : ¬ cache_enabled wS.cache = true := by rw [henS]; exact hdis_v
    obtain ⟨fr1, fr2⟩ := h.frame hdis_v
    rw [hdk, hbk] at fr1
    rw [hdk, hbk] at fr2
    have hfr := cross_frame w0.jbod.data v.w.jbod.data f.1.jbod.data v.readValues rv1 src
      addr0 v.addr e wS.jbod.disk hdata hrv1get fr1 fr2 ha he hlen hlo hc hSk hSk16
    rw [fk, fb]
    refine ⟨?_, hfr⟩
    intro o ho
    rw [fbytes hdis_S o ho, hSb, ← fd, hfr, if_pos ⟨rfl, rfl⟩, writeTarget_out]
    intro hh
    exact arith_next_block_out v.addr addr0 e _ _ o wS.jbod.disk ha he hlen hlo hc hSk hSk16
      rfl rfl hh.2.2.1 hh.2.2.2.1 hh.2.2.2.2
  exact
    { mounted := fm.trans (hSm.trans h.mounted), size := hsz.trans h.size, lo := hfl, hi := hfin,
      disk := rfl, block := rfl, ptr := hptr0, pos := hposn, bufc := h.bufc, len := fl,
      curb := fb, curd := fun hlt => fk.trans (hSk hlt),
      curd16 := fun h16 _ => fk.trans (hSk16 h16), done := hdone, pend := hpend,
      wf := fun hen => fwf (by rw [henS, ← henf]; exact hen), coh := hcoh, frame := hframe }

/-- The device bytes outside the request after one more byte has been overlaid
inside a block, cache disabled. -/
theorem nocross_frame (D0 D : Nat → Nat → Nat → Nat) (rv rv1 src : List Nat) (addr0 a : Nat)
    (hrv1 : ∀ o, rv1.getD o 0 =
      if o = a % 256 then src.getD (a - addr0) 0 else rv.getD o 0)
    (fr1 : ∀ o, o < 256 → rv.getD o 0 =
      writeTarget D0 src addr0 a (a / 65536) (a % 65536 / 256) o)
    (fr2 : ∀ d k o, D d k o =
      if d = a / 65536 ∧ k = a % 65536 / 256 then D0 d k o
      else writeTarget D0 src addr0 a d k o)
    (ha : a < 1048576) (hlo : addr0 ≤ a) :
    (∀ o, o < 256 → rv1.getD o 0 =
      writeTarget D0 src addr0 (a + 1) (a / 65536) (a % 65536 / 256) o) ∧
    (∀ d k o, D d k o =
      if d = a / 65536 ∧ k = a % 65536 / 256 then D0 d k o
      else writeTarget D0 src addr0 (a + 1) d k o) := by
  constructor
  · intro o ho
    rw [hrv1]
    by_cases hoa : o = a % 256
    · rw [if_pos hoa, hoa, writeTarget_step_eq _ _ _ _ ha hlo]
    · rw [if_neg hoa, fr1 o ho, writeTarget_step_ne]
      intro hh
      exact hoa hh.2.2
  · intro d k o
    rw [fr2]
    by_cases hcur : d = a / 65536 ∧ k = a % 65536 / 256
    · rw [if_pos hcur, if_pos hcur]
    · rw [if_neg hcur, if_neg hcur, writeTarget_step_ne]
      intro hh
      exact hcur ⟨hh.1, hh.2.1⟩

/-- One pass of the loop of `mdadm_write` that stays inside a block. -/
theorem write_nocross (w0 : World) (src : List Nat) (addr0 e : Nat) (v : WriteVars)
    (h : WriteInv w0 src addr0 e v) (ha : v.addr < e) (he : e ≤ 0x100000)
    (hc : ¬ v.addr % 256 = 255)
    (rv1 : List Nat) (hrv1 : rv1 = v.readValues.set v.readPtr (v.buf.getD v.bufPos 0))
    (a' : Nat) (ha' : a' = v.addr + 1) :
    WriteInv w0 src addr0 e
      { addr := a', diskValue := v.diskValue, blockValue := v.blockValue, readValues := rv1,
        readPtr := v.readPtr + 1, buf := v.buf, bufPos := v.bufPos + 1, w := v.w } := by
  subst ha'
  have hlo := h.lo
  have hdv := h.disk
  have hbv := h.block
  have hpos := h.pos
  have hptr := h.ptr
  have ha20 : v.addr < 0x100000 := Nat.lt_of_lt_of_le ha he
  have hdk : v.w.jbod.disk = v.addr / 65536 := (h.curd ha20).trans hdv
  have hbk : v.w.jbod.block = v.addr % 65536 / 256 := h.curb.trans hbv
  have hpl : v.readPtr < v.readValues.length := by rw [h.ptr, h.len]; omega
  have hrv1get : ∀ o, rv1.getD o 0 =
      if o = v.addr % 256 then src.getD (v.addr - addr0) 0 else v.readValues.getD o 0 := by
    intro o
    rw [hrv1, list_set_getD _ _ _ _ hpl, h.ptr, h.bufc, h.pos]
  have hsame : (v.addr + 1) / 256 = v.addr / 256 := by omega
  have hl1 : rv1.length = 256 := by rw [hrv1, List.length_set]; exact h.len
  have e1 : v.diskValue = (v.addr + 1) / 65536 := by omega
  have e2 : v.blockValue = (v.addr + 1) % 65536 / 256 := by omega
  have e3 : v.readPtr + 1 = (v.addr + 1) % 256 := by omega
  have e4 : v.bufPos + 1 = v.addr + 1 - addr0 := by omega
  have hcd16 : v.addr + 1 = 0x100000 → addr0 < v.addr + 1 → v.w.jbod.disk = 15 := by
    intro h16 _
    exfalso
    omega
  have hpend : ∀ x, addr0 ≤ x → x < v.addr + 1 → x / 256 = (v.addr + 1) / 256 →
      rv1.getD (x % 256) 0 = src.getD (x - addr0) 0 := by
    intro x hx1 hx2 hx3
    rw [hsame] at hx3
    rw [hrv1get]
    by_cases hxa : x = v.addr
    · subst hxa
      rw [if_pos rfl]
    · have e5 : ¬ x % 256 = v.addr % 256 := by omega
      have e6 : x < v.addr := by omega
      rw [if_neg e5]
      exact h.pend x hx1 e6 hx3
  have hframe : ¬ cache_enabled v.w.cache = true →
      (∀ o, o < 256 → rv1.getD o 0 =
        writeTarget w0.jbod.data src addr0 (v.addr + 1) v.w.jbod.disk v.w.jbod.block o) ∧
      (∀ d k o, v.w.jbod.data d k o =
        if d = v.w.jbod.disk ∧ k = v.w.jbod.block then w0.jbod.data d k o
        else writeTarget w0.jbod.data src addr0 (v.addr + 1) d k o) := by
    intro hdis
    obtain ⟨fr1, fr2⟩ := h.frame hdis
    rw [hdk, hbk] at fr1 fr2 ⊢
    exact nocross_frame w0.jbod.data v.w.jbod.data v.readValues rv1 src addr0 v.addr hrv1get
      fr1 fr2 ha20 hlo
  exact
    { mounted := h.mounted, size := h.size, lo := Nat.le_succ_of_le hlo, hi := ha,
      disk := e1, block := e2, ptr := e3, pos := e4, bufc := h.bufc, len := hl1,
      curb := h.curb, curd := fun _ => h.curd ha20,
      curd16 := hcd16,
      done := fun x hx1 hx2 => h.done x hx1 (by rw [← hsame]; exact hx2), pend := hpend,
      wf := h.wf, coh := fun hen x hx1 hx2 => h.coh hen x hx1 (by rw [← hsame]; exact hx2),
      frame := hframe }

/-- The state after a block has been written and the cache refreshed. -/
theorem write_flush_facts (w : World) (dv bv : Nat) (rv1 : List Nat) :
    (write_refresh (jbod_op_array w (createOpCode JBOD_WRITE_BLOCK 0 0 0) rv1).1 dv bv
      rv1).isMounted = w.isMounted ∧
    (write_refresh (jbod_op_array w (createOpCode JBOD_WRITE_BLOCK 0 0 0) rv1).1 dv bv
      rv1).jbod.disk = w.jbod.disk ∧
    (write_refresh (jbod_op_array w (createOpCode JBOD_WRITE_BLOCK 0 0 0) rv1).1 dv bv
      rv1).jbod.block = w.jbod.block + 1 ∧
    (∀ d k o, (write_refresh (jbod_op_array w (createOpCode JBOD_WRITE_BLOCK 0 0 0) rv1).1 dv bv
      rv1).jbod.data d k o =
        if d = w.jbod.disk ∧ k = w.jbod.block ∧ o < 256 then rv1.getD o 0
        else w.jbod.data d k o) := by
  have hj : (write_refresh (jbod_op_array w (createOpCode JBOD_WRITE_BLOCK 0 0 0) rv1).1 dv bv
      rv1).jbod = (jbod_op_array w (createOpCode JBOD_WRITE_BLOCK 0 0 0) rv1).1.jbod := by
    unfold write_refresh
    split_ifs
    · exact rfl
    · exact rfl
  have hm : (write_refresh (jbod_op_array w (createOpCode JBOD_WRITE_BLOCK 0 0 0) rv1).1 dv bv
      rv1).isMounted = (jbod_op_array w (createOpCode JBOD_WRITE_BLOCK 0 0 0) rv1).1.isMounted := by
    unfold write_refresh
    split_ifs
    · exact rfl
    · exact rfl
  rw [hj, hm, (joa_write w rv1).1, joa_isMounted]
  exact ⟨rfl, rfl, rfl, fun _ _ _ => rfl⟩

theorem write_body_inv (w0 : World) (src : List Nat) (addr0 e : Nat) (v : WriteVars)
    (h : WriteInv w0 src addr0 e v) (ha : v.addr < e) (he : e ≤ 0x100000)
    (hlen : e - addr0 ≤ 1024) : WriteInv w0 src addr0 e (write_body v) := by
  have hlo := h.lo
  have hdv := h.disk
  have hbv := h.block
  have ha20 : v.addr < 0x100000 := Nat.lt_of_lt_of_le ha he
  have hmod : (v.addr + 1) % 2 ^ 32 = v.addr + 1 := Nat.mod_eq_of_lt (by omega)
  have hdk : v.w.jbod.disk = v.addr / 65536 := (h.curd ha20).trans hdv
  have hbk : v.w.jbod.block = v.addr % 65536 / 256 := h.curb.trans hbv
  have hl1 : (v.readValues.set v.readPtr (v.buf.getD v.bufPos 0)).length = 256 := by
    rw [List.length_set]; exact h.len
  obtain ⟨m1, k1, _, d1⟩ := write_flush_facts v.w v.diskValue v.blockValue
    (v.readValues.set v.readPtr (v.buf.getD v.bufPos 0))
  obtain ⟨_, _, ws, wwf, _⟩ :=
    write_refresh_spec (jbod_op_array v.w (createOpCode JBOD_WRITE_BLOCK 0 0 0)
      (v.readValues.set v.readPtr (v.buf.getD v.bufPos 0))).1
      v.diskValue v.blockValue (v.readValues.set v.readPtr (v.buf.getD v.bufPos 0))
      (fun hen => by rw [joa_cache] at hen ⊢; exact h.wf hen)
  have hwf1 := fun hen => wwf ((cache_enabled_congr _ _ ws).symm.trans hen)
  have hd1 : ∀ d k o, (write_refresh (jbod_op_array v.w (createOpCode JBOD_WRITE_BLOCK 0 0 0)
      (v.readValues.set v.readPtr (v.buf.getD v.bufPos 0))).1 v.diskValue v.blockValue
      (v.readValues.set v.readPtr (v.buf.getD v.bufPos 0))).jbod.data d k o =
      if d = v.addr / 65536 ∧ k = v.addr % 65536 / 256 ∧ o < 256 then
        (v.readValues.set v.readPtr (v.buf.getD v.bufPos 0)).getD o 0
      else v.w.jbod.data d k o := by
    intro d k o
    rw [d1, hdk, hbk]
  unfold write_body
  dsimp only [JBOD_DISK_SIZE, JBOD_BLOCK_SIZE]
  rw [(joa_write v.w (v.readValues.set v.readPtr (v.buf.getD v.bufPos 0))).2]
  split_ifs with hA hB
  · obtain ⟨sm, sc, sd, sb, sdk, sdk16⟩ :=
      seek_pair (write_refresh (jbod_op_array v.w (createOpCode JBOD_WRITE_BLOCK 0 0 0)
        (v.readValues.set v.readPtr (v.buf.getD v.bufPos 0))).1 v.diskValue v.blockValue
        (v.readValues.set v.readPtr (v.buf.getD v.bufPos 0))) (v.diskValue + 1) 0
        (by omega) (by omega)
    have hc : v.addr % 256 = 255 := by omega
    have e1 : v.diskValue + 1 = (v.addr + 1) % 2 ^ 32 / 65536 := by rw [hmod]; omega
    have e2 : 0 = (v.addr + 1) % 2 ^ 32 % 65536 / 256 := by rw [hmod]; omega
    refine write_cross w0 src addr0 e v h ha he hlen hc _ rfl _ _ _ _ hmod e1 e2 rfl _ _
      (sm.trans m1) sc ?_ sb ?_ ?_ ?_
    · intro d k o
      rw [sd, hd1]
    · intro hlt
      rw [sdk (by omega)]
      omega
    · intro h16
      rw [sdk16 (by omega), k1, hdk]
      omega
    · exact write_fetch_disk_spec _ (v.diskValue + 1) 0 _ hl1 rfl sb
        (fun hen => by rw [sc] at hen ⊢; exact hwf1 hen)
  · have hb1 : v.blockValue + 1 < 256 := by omega
    have hc : v.addr % 256 = 255 := by omega
    have e1 : v.diskValue = (v.addr + 1) % 2 ^ 32 / 65536 := by rw [hmod]; omega
    have e2 : v.blockValue + 1 = (v.addr + 1) % 2 ^ 32 % 65536 / 256 := by rw [hmod]; omega
    have sj : (jbod_client_operation (write_refresh (jbod_op_array v.w
        (createOpCode JBOD_WRITE_BLOCK 0 0 0)
        (v.readValues.set v.readPtr (v.buf.getD v.bufPos 0))).1 v.diskValue v.blockValue
        (v.readValues.set v.readPtr (v.buf.getD v.bufPos 0)))
        (createOpCode JBOD_SEEK_TO_BLOCK 0 0 (v.blockValue + 1)) none).1.jbod =
        { (write_refresh (jbod_op_array v.w (createOpCode JBOD_WRITE_BLOCK 0 0 0)
            (v.readValues.set v.readPtr (v.buf.getD v.bufPos 0))).1 v.diskValue v.blockValue
            (v.readValues.set v.readPtr (v.buf.getD v.bufPos 0))).jbod with
          block := v.blockValue + 1 } := by
      rw [jco_jbod, exec_seek_block _ _ hb1]
    refine write_cross w0 src addr0 e v h ha he hlen hc _ rfl _ _ _ _ hmod e1 e2 rfl
      (jbod_client_operation (write_refresh (jbod_op_array v.w
        (createOpCode JBOD_WRITE_BLOCK 0 0 0)
        (v.readValues.set v.readPtr (v.buf.getD v.bufPos 0))).1 v.diskValue v.blockValue
        (v.readValues.set v.readPtr (v.buf.getD v.bufPos 0)))
        (createOpCode JBOD_SEEK_TO_BLOCK 0 0 (v.blockValue + 1)) none).1 _
      ((jco_isMounted _ _ _).trans m1) (jco_cache _ _ _) ?_ ?_ ?_ ?_ ?_
    · intro d k o
      rw [sj]
      exact hd1 d k o
    · rw [sj]
    · intro _
      rw [sj]
      dsimp only
      rw [k1, hdk]
      omega
    · intro h16
      exfalso
      omega
    · exact write_fetch_block_spec _ v.diskValue (v.blockValue + 1) _ hl1 hb1 (by rw [sj])
        (fun hen => by rw [jco_cache] at hen ⊢; exact hwf1 hen)
  · exact write_nocross w0 src addr0 e v h ha he (by omega) _ rfl _ hmod

theorem write_body_addr (v : WriteVars) : (write_body v).addr = (v.addr + 1) % 2 ^ 32 := by
  unfold write_body
  dsimp only
  split_ifs <;> rfl

theorem write_while_inv (w0 : World) (src : List Nat) (addr0 e : Nat) (he : e ≤ 0x100000)
    (hlen : e - addr0 ≤ 1024) :
    ∀ (n : Nat) (v : WriteVars), WriteInv w0 src addr0 e v → e - v.addr ≤ n →
      WriteInv w0 src addr0 e (write_while e n v) ∧ (write_while e n v).addr = e := by
  intro n
  induction n with
  | zero =>
    intro v h hn
    have := h.hi
    exact ⟨h, by unfold write_while; omega⟩
  | succ k ih =>
    intro v h hn
    unfold write_while
    split_ifs with hlt
    · have h' := write_body_inv w0 src addr0 e v h hlt he hlen
      refine ih (write_body v) h' ?_
      have : (write_body v).addr = v.addr + 1 := by
        rw [write_body_addr]
        exact Nat.mod_eq_of_lt (by omega)
      omega
    · have := h.hi
      exact ⟨h, by omega⟩

theorem writeTarget_empty (D0 : Nat → Nat → Nat → Nat) (src : List Nat) (a d k o : Nat) :
    writeTarget D0 src a a d k o = D0 d k o := by
  apply writeTarget_out
  intro hh
  omega

theorem final_cursor_ne (x addr0 e cd cb : Nat) (hx1 : addr0 ≤ x) (hx2 : x < e)
    (he : e ≤ 1048576) (hlen : e - addr0 ≤ 1024) (hcb : cb = e % 65536 / 256)
    (hcd : e < 1048576 → cd = e / 65536) (hcd16 : e = 1048576 → cd = 15)
    (hxb : x / 256 ≠ e / 256) : ¬(x / 65536 = cd ∧ x % 65536 / 256 = cb) := by
  rcases Nat.lt_or_ge e 1048576 with hlt | hge
  · have := hcd hlt
    omega
  · have := hcd16 (by omega)
    omega

theorem final_cursor_eq (x e cd cb : Nat) (hx2 : x < e) (he : e ≤ 1048576)
    (hcb : cb = e % 65536 / 256) (hcd : e < 1048576 → cd = e / 65536)
    (hxb : x / 256 = e / 256) : x / 65536 = cd ∧ x % 65536 / 256 = cb ∧ e < 1048576 := by
  have h1 : e < 1048576 := by omega
  have := hcd h1
  omega

/-- The device bytes after the last block has been written, cache disabled. -/
theorem final_frame (D0 D Df : Nat → Nat → Nat → Nat) (rv src : List Nat)
    (addr0 e cd cb : Nat)
    (hdata : ∀ d k o, Df d k o =
      if d = cd ∧ k = cb ∧ o < 256 then rv.getD o 0 else D d k o)
    (fr1 : ∀ o, o < 256 → rv.getD o 0 = writeTarget D0 src addr0 e cd cb o)
    (fr2 : ∀ d k o, D d k o =
      if d = cd ∧ k = cb then D0 d k o else writeTarget D0 src addr0 e d k o) :
    ∀ d k o, Df d k o = writeTarget D0 src addr0 e d k o := by
  intro d k o
  rw [hdata]
  by_cases hcur : d = cd ∧ k = cb
  · by_cases ho : o < 256
    · rw [if_pos ⟨hcur.1, hcur.2, ho⟩, fr1 o ho, hcur.1, hcur.2]
    · rw [if_neg (fun hh => ho hh.2.2), fr2, if_pos hcur, writeTarget_out]
      intro hh
      exact ho hh.2.2.1
  · rw [if_neg (fun hh => hcur ⟨hh.1, hh.2.1⟩), fr2, if_neg hcur]

/-- The device bytes of the request after the last block has been written. -/
theorem final_done (D Df : Nat → Nat → Nat → Nat) (rv src : List Nat) (addr0 e cd cb : Nat)
    (hdata : ∀ d k o, Df d k o =
      if d = cd ∧ k = cb ∧ o < 256 then rv.getD o 0 else D d k o)
    (hdone : ∀ x, addr0 ≤ x → x / 256 < e / 256 →
      D (x / 65536) (x % 65536 / 256) (x % 256) = src.getD (x - addr0) 0)
    (hpend : ∀ x, addr0 ≤ x → x < e → x / 256 = e / 256 →
      rv.getD (x % 256) 0 = src.getD (x - addr0) 0)
    (he : e ≤ 1048576) (hlen : e - addr0 ≤ 1024) (hcb : cb = e % 65536 / 256)
    (hcd : e < 1048576 → cd = e / 65536) (hcd16 : e = 1048576 → addr0 < e → cd = 15) :
    ∀ x, addr0 ≤ x → x < e →
      Df (x / 65536) (x % 65536 / 256) (x % 256) = src.getD (x - addr0) 0 := by
  intro x hx1 hx2
  rw [hdata]
  by_cases hxb : x / 256 = e / 256
  · obtain ⟨e1, e2, _⟩ := final_cursor_eq x e cd cb hx2 he hcb hcd hxb
    have e3 : x % 256 < 256 := Nat.mod_lt _ (by omega)
    rw [if_pos ⟨e1, e2, e3⟩]
    exact hpend x hx1 hx2 hxb
  · have hne := final_cursor_ne x addr0 e cd cb hx1 hx2 he hlen hcb hcd
      (fun h16 => hcd16 h16 (by omega)) hxb
    have hlt : x / 256 < e / 256 := by omega
    rw [if_neg (fun hh => hne ⟨hh.1, hh.2.1⟩)]
    exact hdone x hx1 hlt

/-- The end of `mdadm_write` (lines 337-343): the cache is refreshed with the
last block and the block is written. -/
theorem write_final (w0 : World) (src : List Nat) (addr0 e : Nat) (v : WriteVars)
    (h : WriteInv w0 src addr0 e v) (hv : v.addr = e) (he : e ≤ 0x100000)
    (hlen : e - addr0 ≤ 1024) :
    (jbod_op_array (write_refresh v.w v.diskValue v.blockValue v.readValues)
      (createOpCode JBOD_WRITE_BLOCK 0 0 0) v.readValues).1.isMounted = w0.isMounted ∧
    (jbod_op_array (write_refresh v.w v.diskValue v.blockValue v.readValues)
      (createOpCode JBOD_WRITE_BLOCK 0 0 0) v.readValues).1.cache.cache_size =
        w0.cache.cache_size ∧
    (cache_enabled w0.cache = true →
      CacheWF (jbod_op_array (write_refresh v.w v.diskValue v.blockValue v.readValues)
        (createOpCode JBOD_WRITE_BLOCK 0 0 0) v.readValues).1.cache) ∧
    (∀ x, addr0 ≤ x → x < e →
      (jbod_op_array (write_refresh v.w v.diskValue v.blockValue v.readValues)
        (createOpCode JBOD_WRITE_BLOCK 0 0 0) v.readValues).1.jbod.data
        (x / 65536) (x % 65536 / 256) (x % 256) = src.getD (x - addr0) 0) ∧
    (cache_enabled w0.cache = true → ∀ x, addr0 ≤ x → x < e →
      Coherent (jbod_op_array (write_refresh v.w v.diskValue v.blockValue v.readValues)
        (createOpCode JBOD_WRITE_BLOCK 0 0 0) v.readValues).1.cache
        (jbod_op_array (write_refresh v.w v.diskValue v.blockValue v.readValues)
          (createOpCode JBOD_WRITE_BLOCK 0 0 0) v.readValues).1.jbod.data
        (x / 65536) (x % 65536 / 256)) ∧
    (¬ cache_enabled w0.cache = true → ∀ d k o,
      (jbod_op_array (write_refresh v.w v.diskValue v.blockValue v.readValues)
        (createOpCode JBOD_WRITE_BLOCK 0 0 0) v.readValues).1.jbod.data d k o =
        writeTarget w0.jbod.data src addr0 e d k o) := by
  obtain ⟨rm, rj, rs, rwf, rcoh⟩ :=
    write_refresh_spec v.w v.diskValue v.blockValue v.readValues h.wf
  obtain ⟨jw, _⟩ := joa_write (write_refresh v.w v.diskValue v.blockValue v.readValues)
    v.readValues
  have hdv : v.diskValue = e / 65536 := by rw [← hv]; exact h.disk
  have hbv : v.blockValue = e % 65536 / 256 := by rw [← hv]; exact h.block
  have hcb : v.w.jbod.block = e % 65536 / 256 := h.curb.trans hbv
  have hcd : e < 1048576 → v.w.jbod.disk = e / 65536 := by
    intro hlt
    rw [← hv] at hlt
    exact (h.curd hlt).trans hdv
  have hcd16 : e = 1048576 → addr0 < e → v.w.jbod.disk = 15 := by
    intro h1 h2
    rw [← hv] at h1 h2
    exact h.curd16 h1 h2
  have hdone := h.done
  have hpend := h.pend
  rw [hv] at hdone hpend
  have hen0 : cache_enabled v.w.cache = cache_enabled w0.cache := cache_enabled_congr _ _ h.size
  have hdata : ∀ d k o,
      (jbod_op_array (write_refresh v.w v.diskValue v.blockValue v.readValues)
        (createOpCode JBOD_WRITE_BLOCK 0 0 0) v.readValues).1.jbod.data d k o =
      if d = v.w.jbod.disk ∧ k = v.w.jbod.block ∧ o < 256 then v.readValues.getD o 0
      else v.w.jbod.data d k o := by
    intro d k o
    rw [jw, rj]
    exact rfl
  refine ⟨?_, ?_, ?_, ?_, ?_, ?_⟩
  · rw [joa_isMounted, rm]
    exact h.mounted
  · rw [joa_cache, rs]
    exact h.size
  · intro hen
    rw [joa_cache]
    exact rwf (hen0.trans hen)
  · exact final_done v.w.jbod.data _ v.readValues src addr0 e _ _ hdata hdone hpend he hlen
      hcb hcd hcd16
  · intro hen x hx1 hx2
    have hen_v : cache_enabled v.w.cache = true := hen0.trans hen
    rw [joa_cache]
    refine rcoh _ _ _ hen_v ?_ ?_
    · intro hne
      rw [hdv, hbv] at hne
      have hxb : x / 256 ≠ e / 256 := fun hh => hne (mem_same_block x e hh)
      have hlt : x / 256 < e / 256 := by omega
      have hc1 := h.coh hen_v x hx1 (by rw [hv]; exact hlt)
      have hnc := final_cursor_ne x addr0 e _ _ hx1 hx2 he hlen hcb hcd
        (fun h16 => hcd16 h16 (by omega)) hxb
      refine coherent_congr v.w.cache v.w.cache _ _ _ _ rfl ?_ hc1
      intro o _
      rw [hdata, if_neg (fun hh => hnc ⟨hh.1, hh.2.1⟩)]
    · intro e1 e2 o ho
      rw [hdv] at e1
      rw [hbv] at e2
      have hlt : e < 1048576 := by omega
      rw [hdata, if_pos ⟨e1.trans (hcd hlt).symm, e2.trans hcb.symm, ho⟩]
  · intro hdis
    have hdis_v : ¬ cache_enabled v.w.cache = true := by rw [hen0]; exact hdis
    obtain ⟨fr1, fr2⟩ := h.frame hdis_v
    rw [hv] at fr1 fr2
    exact final_frame w0.jbod.data v.w.jbod.data _ v.readValues src addr0 e _ _ hdata fr1 fr2

/-- What `mdadm_write` does on a valid request, with the cache enabled or not:
it returns `len`; the device then holds the source bytes on `[addr, addr + len)`;
an enabled cache stays well formed and agrees with the device on every block of
the request; with the cache disabled every device byte is the one `writeTarget`
describes, so the bytes outside the request are unchanged. -/
theorem mdadm_write_spec (w : World) (init : Nat → Nat) (addr len : Nat) (src : List Nat)
    (hm : w.isMounted = true) (hr : addr + len ≤ 0x100000) (hl : len ≤ 1024)
    (hwf : cache_enabled w.cache = true → CacheWF w.cache) :
    (mdadm_write w init addr len (some src)).1 = (len : Int) ∧
    (mdadm_write w init addr len (some src)).2.isMounted = true ∧
    (mdadm_write w init addr len (some src)).2.cache.cache_size = w.cache.cache_size ∧
    (cache_enabled w.cache = true → CacheWF (mdadm_write w init addr len (some src)).2.cache) ∧
    (∀ x, addr ≤ x → x < addr + len →
      (mdadm_write w init addr len (some src)).2.jbod.data
        (x / 65536) (x % 65536 / 256) (x % 256) = src.getD (x - addr) 0) ∧
    (cache_enabled w.cache = true → ∀ x, addr ≤ x → x < addr + len →
      Coherent (mdadm_write w init addr len (some src)).2.cache
        (mdadm_write w init addr len (some src)).2.jbod.data (x / 65536) (x % 65536 / 256)) ∧
    (¬ cache_enabled w.cache = true → ∀ d k o,
      (mdadm_write w init addr len (some src)).2.jbod.data d k o =
        writeTarget w.jbod.data src addr (addr + len) d k o) := by
  obtain ⟨hv, hend, hret⟩ := request_valid w addr len (some src).isNone hm hr hl rfl
  have hrl : ((List.range JBOD_BLOCK_SIZE).map init).length = 256 := by simp [JBOD_BLOCK_SIZE]
  have hdlt : addr / JBOD_DISK_SIZE ≤ 16 := by simp only [JBOD_DISK_SIZE]; omega
  have hblt : addr % JBOD_DISK_SIZE / JBOD_BLOCK_SIZE < 256 := by
    simp only [JBOD_DISK_SIZE, JBOD_BLOCK_SIZE]; omega
  obtain ⟨sm, sc, sd, sb, sdk, _⟩ :=
    seek_pair w (addr / JBOD_DISK_SIZE) (addr % JBOD_DISK_SIZE / JBOD_BLOCK_SIZE) hdlt hblt
  obtain ⟨fm, fd, fk, fb, fs, fl, fwf, fcoh, fbytes⟩ :=
    write_fetch_first_spec _ (addr / JBOD_DISK_SIZE) (addr % JBOD_DISK_SIZE / JBOD_BLOCK_SIZE)
      ((List.range JBOD_BLOCK_SIZE).map init) hrl hblt sb
      (fun hen => by rw [sc] at hen ⊢; exact hwf hen)
  have hsz := fs.trans (congrArg CacheState.cache_size sc)
  have hinit : WriteInv w src addr (addr + len)
      { addr := addr, diskValue := addr / JBOD_DISK_SIZE,
        blockValue := addr % JBOD_DISK_SIZE / JBOD_BLOCK_SIZE,
        readValues := (write_fetch_first
          (jbod_client_operation
            (jbod_client_operation w (createOpCode JBOD_SEEK_TO_DISK (addr / JBOD_DISK_SIZE) 0 0)
              none).1
            (createOpCode JBOD_SEEK_TO_BLOCK 0 0 (addr % JBOD_DISK_SIZE / JBOD_BLOCK_SIZE)) none).1
          (addr / JBOD_DISK_SIZE) (addr % JBOD_DISK_SIZE / JBOD_BLOCK_SIZE)
          ((List.range JBOD_BLOCK_SIZE).map init)).2,
        readPtr := addr % JBOD_DISK_SIZE % JBOD_BLOCK_SIZE, buf := (some src).getD [],
        bufPos := 0,
        w := (write_fetch_first
          (jbod_client_operation
            (jbod_client_operation w (createOpCode JBOD_SEEK_TO_DISK (addr / JBOD_DISK_SIZE) 0 0)
              none).1
            (createOpCode JBOD_SEEK_TO_BLOCK 0 0 (addr % JBOD_DISK_SIZE / JBOD_BLOCK_SIZE)) none).1
          (addr / JBOD_DISK_SIZE) (addr % JBOD_DISK_SIZE / JBOD_BLOCK_SIZE)
          ((List.range JBOD_BLOCK_SIZE).map init)).1 } := by
    have hptr : addr % JBOD_DISK_SIZE % JBOD_BLOCK_SIZE = addr % 256 := by
      simp only [JBOD_DISK_SIZE, JBOD_BLOCK_SIZE]; omega
    have hpos : 0 = addr - addr := by omega
    refine
      { mounted := fm.trans sm, size := hsz, lo := Nat.le_refl _, hi := Nat.le_add_right _ _,
        disk := rfl, block := rfl, ptr := hptr, pos := hpos, bufc := rfl, len := fl, curb := fb,
        curd := ?_, curd16 := ?_, done := ?_, pend := ?_, wf := ?_, coh := ?_, frame := ?_ }
    · intro hlt
      dsimp only at hlt
      exact fk.trans (sdk (by simp only [JBOD_DISK_SIZE]; omega))
    · intro _ hlt
      exact absurd hlt (Nat.lt_irrefl _)
    · intro x hx1 hx2
      dsimp only at hx2
      exfalso
      omega
    · intro x hx1 hx2 _
      dsimp only at hx2
      exfalso
      omega
    · intro hen
      exact fwf (by rw [sc]; exact (cache_enabled_congr _ _ hsz).symm.trans hen)
    · intro _ x hx1 hx2
      dsimp only at hx2
      exfalso
      omega
    · intro hdis
      have hdisS : ¬ cache_enabled (jbod_client_operation
          (jbod_client_operation w (createOpCode JBOD_SEEK_TO_DISK (addr / JBOD_DISK_SIZE) 0 0)
            none).1
          (createOpCode JBOD_SEEK_TO_BLOCK 0 0 (addr % JBOD_DISK_SIZE / JBOD_BLOCK_SIZE))
          none).1.cache = true := by
        rw [sc, ← cache_enabled_congr _ _ hsz]
        exact hdis
      constructor
      · intro o ho
        rw [fbytes hdisS o ho, writeTarget_empty, fk, fb, sb, sd]
      · intro d k o
        rw [fd, sd, writeTarget_empty, ite_self]
  obtain ⟨hfin, hadd⟩ := write_while_inv w src addr (addr + len) hr (by omega) len _ hinit
    (by dsimp only; omega)
  obtain ⟨r1, r2, r3, r4, r5, r6⟩ := write_final w src addr (addr + len) _ hfin hadd hr (by omega)
  unfold mdadm_write
  rw [if_neg (by rw [hv]; decide)]
  dsimp only
  rw [hend, hret]
  exact ⟨rfl, r1.trans hm, r2, r3, r4, r5, r6⟩

/-- C4: on a mounted controller with the cache disabled, for every request with
`addr + len ≤ 0x100000` and `len ≤ 1024` and a present source array `src`,
`mdadm_write` returns `len`; afterwards the device holds `src[i]` at the linear
address `addr + i` for every `i < len`, and every device byte at a place
`(d, k, o)` that is not a linear address of `[addr, addr + len)` is the byte it
was before. -/
theorem mdadm_write_frame (w : World) (init : Nat → Nat) (addr len : Nat) (src : List Nat)
    (hm : w.isMounted = true) (hc : cache_enabled w.cache = false)
    (hr : addr + len ≤ 0x100000) (hl : len ≤ 1024) :
    (mdadm_write w init addr len (some src)).1 = (len : Int) ∧
    (∀ i, i < len →
      (mdadm_write w init addr len (some src)).2.jbod.data
        ((addr + i) / 65536) ((addr + i) % 65536 / 256) ((addr + i) % 256) = src.getD i 0) ∧
    (∀ d k o, ¬(d < 16 ∧ k < 256 ∧ o < 256 ∧ addr ≤ d * 65536 + k * 256 + o ∧
        d * 65536 + k * 256 + o < addr + len) →
      (mdadm_write w init addr len (some src)).2.jbod.data d k o = w.jbod.data d k o) := by
  have hdis : ¬ cache_enabled w.cache = true := by rw [hc]; decide
  obtain ⟨r1, _, _, _, r5, _, r7⟩ := mdadm_write_spec w init addr len src hm hr hl
    (fun hen => absurd hen hdis)
  refine ⟨r1, ?_, ?_⟩
  · intro i hi
    have := r5 (addr + i) (Nat.le_add_right _ _) (by omega)
    rw [Nat.add_sub_cancel_left] at this
    exact this
  · intro d k o hout
    rw [r7 hdis d k o, writeTarget_out _ _ _ _ _ _ _ hout]

/-- C4 on a write of two bytes across the end of disk 0. -/
theorem mdadm_write_frame_witness :
    (mdadm_write world_mounted (fun _ => 0) 65535 2 (some [77, 88])).1 = ((2 : Nat) : Int) ∧
    (∀ i, i < 2 →
      (mdadm_write world_mounted (fun _ => 0) 65535 2 (some [77, 88])).2.jbod.data
        ((65535 + i) / 65536) ((65535 + i) % 65536 / 256) ((65535 + i) % 256) =
          [77, 88].getD i 0) ∧
    (∀ d k o, ¬(d < 16 ∧ k < 256 ∧ o < 256 ∧ 65535 ≤ d * 65536 + k * 256 + o ∧
        d * 65536 + k * 256 + o < 65535 + 2) →
      (mdadm_write world_mounted (fun _ => 0) 65535 2 (some [77, 88])).2.jbod.data d k o =
        world_mounted.jbod.data d k o) :=
  mdadm_write_frame world_mounted (fun _ => 0) 65535 2 [77, 88] rfl rfl (by decide) (by decide)

/-- C5: on a mounted controller, with the cache enabled (and well formed) or
disabled, for every request with `addr + len ≤ 0x100000` and `len ≤ 1024` and
every source array `src`, `mdadm_write` returns `len` and the `mdadm_read` of the
same range that follows returns `len` and delivers `src[i]` in cell `i` of the
caller's array for every `i < len`. -/
theorem mdadm_read_after_write (w : World) (init init' : Nat → Nat) (addr len : Nat)
    (src out : List Nat) (hm : w.isMounted = true) (hr : addr + len ≤ 0x100000)
    (hl : len ≤ 1024) (hout : len ≤ out.length)
    (hwf : cache_enabled w.cache = true → CacheWF w.cache) :
    (mdadm_write w init addr len (some src)).1 = (len : Int) ∧
    (mdadm_read (mdadm_write w init addr len (some src)).2 init' addr len (some out)).ret =
      (len : Int) ∧
    ∃ out', (mdadm_read (mdadm_write w init addr len (some src)).2 init' addr len
        (some out)).buf = some out' ∧
      out'.length = out.length ∧
      ∀ i, i < len → out'.getD i 0 = src.getD i 0 := by
  obtain ⟨r1, r2, r3, r4, r5, r6, _⟩ := mdadm_write_spec w init addr len src hm hr hl hwf
  have hen : cache_enabled (mdadm_write w init addr len (some src)).2.cache =
      cache_enabled w.cache := cache_enabled_congr _ _ r3
  obtain ⟨q1, ⟨out', q2, q3, q4⟩, _⟩ :=
    mdadm_read_spec (mdadm_write w init addr len (some src)).2 init' addr len out r2 hr hl hout
      (fun h => r4 (hen.symm.trans h)) (fun h => r6 (hen.symm.trans h))
  refine ⟨r1, q1, out', q2, q3, ?_⟩
  intro i hi
  rw [q4 i, if_pos hi, r5 (addr + i) (Nat.le_add_right _ _) (by omega), Nat.add_sub_cancel_left]

theorem world_cached_wf : cache_enabled world_cached.cache = true → CacheWF world_cached.cache :=
  fun _ => ⟨[mem_zero 0, mem_zero 1], rfl, rfl, by
    intro e he
    simp only [List.mem_cons, List.mem_singleton, List.not_mem_nil, or_false] at he
    rcases he with h | h <;> rw [h] <;> simp [mem_zero, block_of, JBOD_BLOCK_SIZE]⟩

/-- C5 on the two bytes across the end of disk 0, at address 65535: with a cache
of capacity 2 enabled, and with the cache disabled. -/
theorem mdadm_read_after_write_witness :
    cache_enabled world_cached.cache = true ∧ cache_enabled world_mounted.cache = false ∧
    ((mdadm_write world_cached (fun _ => 0) 65535 2 (some [77, 88])).1 = ((2 : Nat) : Int) ∧
      (mdadm_read (mdadm_write world_cached (fun _ => 0) 65535 2 (some [77, 88])).2 (fun _ => 0)
        65535 2 (some [0, 0])).ret = ((2 : Nat) : Int) ∧
      ∃ out', (mdadm_read (mdadm_write world_cached (fun _ => 0) 65535 2 (some [77, 88])).2
          (fun _ => 0) 65535 2 (some [0, 0])).buf = some out' ∧
        out'.length = [0, 0].length ∧
        ∀ i, i < 2 → out'.getD i 0 = [77, 88].getD i 0) ∧
    ((mdadm_write world_mounted (fun _ => 0) 65535 2 (some [77, 88])).1 = ((2 : Nat) : Int) ∧
      (mdadm_read (mdadm_write world_mounted (fun _ => 0) 65535 2 (some [77, 88])).2 (fun _ => 0)
        65535 2 (some [0, 0])).ret = ((2 : Nat) : Int) ∧
      ∃ out', (mdadm_read (mdadm_write world_mounted (fun _ => 0) 65535 2 (some [77, 88])).2
          (fun _ => 0) 65535 2 (some [0, 0])).buf = some out' ∧
        out'.length = [0, 0].length ∧
        ∀ i, i < 2 → out'.getD i 0 = [77, 88].getD i 0) :=
  ⟨by decide, by decide, mdadm_read_after_write world_cached (fun _ => 0) (fun _ => 0) 65535 2 [77, 88] [0, 0] rfl
      (by decide) (by decide) (by decide) world_cached_wf,
    mdadm_read_after_write world_mounted (fun _ => 0) (fun _ => 0) 65535 2 [77, 88] [0, 0] rfl
      (by decide) (by decide) (by decide) (fun h => absurd h (by decide))⟩
/-! ### The command word and the mount flag -/

theorem createOpCode_high : ∀ c, c < 64 → ∀ d, d < 16 →
    (c <<< 26) % 2 ^ 32 ||| (d <<< 22) % 2 ^ 32 = 2 ^ 22 * (c * 16 + d) := by decide

theorem createOpCode_sum (c d b : Nat) (hc : c < 64) (hd : d < 16) (hb : b < 256) :
    createOpCode c d 0 b = c * 2 ^ 26 + d * 2 ^ 22 + b := by
  have hb22 : b < 2 ^ 22 := by omega
  unfold createOpCode
  simp only [Nat.zero_shiftLeft, Nat.zero_mod, Nat.zero_or, Nat.or_zero]
  rw [createOpCode_high c hc d hd, ← Nat.mul_add_lt_is_or hb22]
  omega

/-- C14: for `command < 64`, `diskId < 16` and `blockId < 256` the word
`createOpCode command diskId 0 blockId` is `command * 2^26 + diskId * 2^22 + blockId`
and fits 32 bits; shifting right by 26 gives the command kind, shifting right by
22 and masking with `0xF` the disk id, masking with `0xFF` the block id, and the
bits 21-8 (shift right by 8, mask `0x3FFF`) are zero. -/
theorem createOpCode_packs_fields (command diskId blockId : Nat)
    (hc : command < 64) (hd : diskId < 16) (hb : blockId < 256) :
    createOpCode command diskId 0 blockId = command * 2 ^ 26 + diskId * 2 ^ 22 + blockId ∧
    createOpCode command diskId 0 blockId < 2 ^ 32 ∧
    createOpCode command diskId 0 blockId >>> 26 = command ∧
    (createOpCode command diskId 0 blockId >>> 22) &&& 0xF = diskId ∧
    (createOpCode command diskId 0 blockId >>> 8) &&& 0x3FFF = 0 ∧
    createOpCode command diskId 0 blockId &&& 0xFF = blockId ∧
    opCommand (createOpCode command diskId 0 blockId) = command ∧
    opDisk (createOpCode command diskId 0 blockId) = diskId ∧
    opBlock (createOpCode command diskId 0 blockId) = blockId := by
  have hs := createOpCode_sum command diskId blockId hc hd hb
  have h1 : createOpCode command diskId 0 blockId >>> 26 = command := by
    rw [hs, Nat.shiftRight_eq_div_pow]; omega
  have h2 : (createOpCode command diskId 0 blockId >>> 22) &&& 0xF = diskId := by
    rw [hs, Nat.shiftRight_eq_div_pow]
    have : (0xF : Nat) = 2 ^ 4 - 1 := by norm_num
    rw [this, Nat.and_pow_two_sub_one_eq_mod]; omega
  have h3 : (createOpCode command diskId 0 blockId >>> 8) &&& 0x3FFF = 0 := by
    rw [hs, Nat.shiftRight_eq_div_pow]
    have : (0x3FFF : Nat) = 2 ^ 14 - 1 := by norm_num
    rw [this, Nat.and_pow_two_sub_one_eq_mod]; omega
  have h4 : createOpCode command diskId 0 blockId &&& 0xFF = blockId := by
    rw [hs]
    have : (0xFF : Nat) = 2 ^ 8 - 1 := by norm_num
    rw [this, Nat.and_pow_two_sub_one_eq_mod]; omega
  exact ⟨hs, by rw [hs]; omega, h1, h2, h3, h4, h1, h2, h4⟩

/-- C14 on the word of a seek to block 255 with disk field 15. -/
theorem createOpCode_packs_fields_witness :
    createOpCode JBOD_SEEK_TO_BLOCK 15 0 255 = 3 * 2 ^ 26 + 15 * 2 ^ 22 + 255 ∧
    opCommand (createOpCode JBOD_SEEK_TO_BLOCK 15 0 255) = 3 ∧
    opDisk (createOpCode JBOD_SEEK_TO_BLOCK 15 0 255) = 15 ∧
    opBlock (createOpCode JBOD_SEEK_TO_BLOCK 15 0 255) = 255 :=
  have h := createOpCode_packs_fields 3 15 255 (by decide) (by decide) (by decide)
  ⟨h.1, h.2.2.2.2.2.2.1, h.2.2.2.2.2.2.2.1, h.2.2.2.2.2.2.2.2⟩

/-- C13: `mdadm_mount` returns 1 exactly when the controller is unmounted; it then
hands exactly one word, the `MOUNT` command, to the device and sets the flag, and
changes nothing else; `mdadm_unmount` returns 1 exactly when the controller is
mounted, hands over exactly the `UNMOUNT` command and clears the flag; a call
that does not return 1 returns -1 and leaves the whole state, with the list of
issued commands and the flag, as it was. -/
theorem mdadm_mount_unmount_spec (w : World) :
    ((mdadm_mount w).1 = 1 ↔ w.isMounted = false) ∧
    ((mdadm_mount w).1 = 1 →
      (mdadm_mount w).2.trace = w.trace ++ [createOpCode JBOD_MOUNT 0 0 0] ∧
      (mdadm_mount w).2.isMounted = true ∧ (mdadm_mount w).2.cache = w.cache ∧
      (mdadm_mount w).2.jbod = w.jbod) ∧
    ((mdadm_mount w).1 ≠ 1 → mdadm_mount w = (-1, w)) ∧
    ((mdadm_unmount w).1 = 1 ↔ w.isMounted = true) ∧
    ((mdadm_unmount w).1 = 1 →
      (mdadm_unmount w).2.trace = w.trace ++ [createOpCode JBOD_UNMOUNT 0 0 0] ∧
      (mdadm_unmount w).2.isMounted = false ∧ (mdadm_unmount w).2.cache = w.cache ∧
      (mdadm_unmount w).2.jbod = w.jbod) ∧
    ((mdadm_unmount w).1 ≠ 1 → mdadm_unmount w = (-1, w)) ∧
    opCommand (createOpCode JBOD_MOUNT 0 0 0) = JBOD_MOUNT ∧
    opCommand (createOpCode JBOD_UNMOUNT 0 0 0) = JBOD_UNMOUNT := by
  have hm : (w.jbod.exec (createOpCode JBOD_MOUNT 0 0 0) none).1 = w.jbod := by
    unfold Jbod.exec; exact rfl
  have hu : (w.jbod.exec (createOpCode JBOD_UNMOUNT 0 0 0) none).1 = w.jbod := by
    unfold Jbod.exec; exact rfl
  refine ⟨?_, ?_, ?_, ?_, ?_, ?_, by decide, by decide⟩
  · unfold mdadm_mount
    cases h : w.isMounted <;> simp
  · unfold mdadm_mount jbod_client_operation
    cases h : w.isMounted <;> simp [hm]
  · unfold mdadm_mount
    cases h : w.isMounted <;> simp
  · unfold mdadm_unmount
    cases h : w.isMounted <;> simp
  · unfold mdadm_unmount jbod_client_operation
    cases h : w.isMounted <;> simp [hu]
  · unfold mdadm_unmount
    cases h : w.isMounted <;> simp

/-- C13 from program start: mount succeeds and issues the `MOUNT` word, a second
mount fails and issues nothing, unmount then succeeds with the `UNMOUNT` word. -/
theorem mdadm_mount_unmount_spec_witness :
    (mdadm_mount world_start).1 = 1 ∧
    (mdadm_mount world_start).2.trace = [createOpCode JBOD_MOUNT 0 0 0] ∧
    mdadm_mount (mdadm_mount world_start).2 = (-1, (mdadm_mount world_start).2) ∧
    (mdadm_unmount (mdadm_mount world_start).2).1 = 1 ∧
    (mdadm_unmount (mdadm_mount world_start).2).2.trace =
      [createOpCode JBOD_MOUNT 0 0 0] ++ [createOpCode JBOD_UNMOUNT 0 0 0] :=
  have h0 := mdadm_mount_unmount_spec world_start
  have h1 := mdadm_mount_unmount_spec (mdadm_mount world_start).2
  have r0 : (mdadm_mount world_start).1 = 1 := h0.1.2 rfl
  have m1 : (mdadm_mount world_start).2.isMounted = true := (h0.2.1 r0).2.1
  have t1 : (mdadm_mount world_start).2.trace = [createOpCode JBOD_MOUNT 0 0 0] := (h0.2.1 r0).1
  have r1 : (mdadm_unmount (mdadm_mount world_start).2).1 = 1 := h1.2.2.2.1.2 m1
  ⟨r0, t1,
    h1.2.2.1 (fun h => by rw [h1.1.1 h] at m1; exact Bool.noConfusion m1),
    r1, by rw [(h1.2.2.2.2.1 r1).1, t1]⟩

/-! ### What `cache_update` changes -/

theorem update_loop_getElem? (d b : Int) (buf : List Nat) (es : List cache_entry_t) :
    ∀ (clock : Int) (i : Nat),
      (update_loop d b buf es clock).1[i]? =
        (es[i]?).map (fun e =>
          if blockFound d b e then
            { e with
              access_time := clock + (((es.take (i + 1)).countP (blockFound d b) : Nat) : Int)
              block := memcpy e.block buf JBOD_BLOCK_SIZE }
          else e) := by
  induction es with
  | nil => intro clock i; simp [update_loop]
  | cons x xs ih =>
    intro clock i
    unfold update_loop
    by_cases hx : blockFound d b x = true
    · rw [if_pos hx]
      cases i with
      | zero => simp [hx]
      | succ j =>
        simp only [List.getElem?_cons_succ, List.take_succ_cons, List.countP_cons_of_pos _ _ hx]
        rw [ih (clock + 1) j]
        cases xs[j]? with
        | none => rfl
        | some e =>
          simp only [Option.map_some']
          split_ifs
          · congr 2
            push_cast
            omega
          · rfl
    · rw [if_neg hx]
      cases i with
      | zero => simp [hx]
      | succ j =>
        simp only [List.getElem?_cons_succ, List.take_succ_cons, List.countP_cons_of_neg _ _ hx]
        rw [ih clock j]

theorem update_loop_clock (d b : Int) (buf : List Nat) (es : List cache_entry_t) :
    ∀ clock : Int,
      (update_loop d b buf es clock).2 = clock + ((es.countP (blockFound d b) : Nat) : Int) := by
  induction es with
  | nil => intro clock; simp [update_loop]
  | cons x xs ih =>
    intro clock
    unfold update_loop
    by_cases hx : blockFound d b x = true
    · rw [if_pos hx, List.countP_cons_of_pos _ _ hx]
      dsimp only
      rw [ih (clock + 1)]
      push_cast
      omega
    · rw [if_neg hx, List.countP_cons_of_neg _ _ hx]
      dsimp only
      rw [ih clock]

theorem update_loop_none (d b : Int) (buf : List Nat) (es : List cache_entry_t)
    (h : ∀ e ∈ es, blockFound d b e = false) :
    ∀ clock : Int, update_loop d b buf es clock = (es, clock) := by
  induction es with
  | nil => intro clock; rfl
  | cons x xs ih =>
    intro clock
    unfold update_loop
    rw [if_neg (by rw [h x (List.mem_cons_self _ _)]; exact Bool.false_ne_true)]
    dsimp only
    rw [ih (fun e he => h e (List.mem_cons_of_mem _ he)) clock]

theorem memcpy_full (dst src : List Nat) (h1 : dst.length = JBOD_BLOCK_SIZE)
    (h2 : src.length = JBOD_BLOCK_SIZE) : memcpy dst src JBOD_BLOCK_SIZE = src := by
  apply List.ext_getElem
  · rw [memcpy_length, h1, h2]
  · intro i hi1 hi2
    have hi : i < dst.length := by rw [memcpy_length] at hi1; exact hi1
    have h := memcpy_getD dst src JBOD_BLOCK_SIZE i hi
    rw [if_pos (by omega)] at h
    rw [List.getD_eq_getElem?_getD, List.getD_eq_getElem?_getD,
      List.getElem?_eq_getElem hi1, List.getElem?_eq_getElem hi2] at h
    exact h

theorem countP_take_facts (p : cache_entry_t → Bool) (l : List cache_entry_t) (i : Nat)
    (e : cache_entry_t) (h : l[i]? = some e) (hp : p e = true) :
    1 ≤ (l.take (i + 1)).countP p ∧ (l.take (i + 1)).countP p ≤ l.countP p ∧
    ((∀ j e2, l[j]? = some e2 → p e2 = true → j = i) →
      (l.take (i + 1)).countP p = 1 ∧ l.countP p = 1) := by
  have ht : l.take (i + 1) = l.take i ++ [e] := by
    rw [List.take_succ, h]; rfl
  have hc : (l.take (i + 1)).countP p = (l.take i).countP p + 1 := by
    rw [ht, List.countP_append]
    simp [hp]
  refine ⟨by omega, List.Sublist.countP_le p (List.take_sublist _ _), ?_⟩
  intro hu
  have h0 : (l.take i).countP p = 0 := by
    rw [List.countP_eq_zero]
    intro a ha hpa
    obtain ⟨n, hn⟩ := List.mem_iff_getElem?.mp ha
    rw [List.getElem?_take] at hn
    split_ifs at hn with hlt
    have := hu n a hn hpa
    omega
  have h1 : (l.drop (i + 1)).countP p = 0 := by
    rw [List.countP_eq_zero]
    intro a ha hpa
    obtain ⟨n, hn⟩ := List.mem_iff_getElem?.mp ha
    rw [List.getElem?_drop] at hn
    have := hu _ a hn hpa
    omega
  have hsplit : l.countP p = (l.take (i + 1)).countP p + (l.drop (i + 1)).countP p := by
    rw [← List.countP_append, List.take_append_drop]
  omega

theorem cache_update_exact (s : CacheState) (d b : Int) (buf : List Nat)
    (arr : List cache_entry_t) (hc : s.cache = some arr) (hl : arr.length = s.cache_size.toNat) :
    cache_update s d b buf =
      { s with
        cache := some (update_loop d b buf arr s.clock).1
        clock := s.clock + ((arr.countP (blockFound d b) : Nat) : Int) } := by
  unfold cache_update
  rw [hc]
  dsimp only
  rw [scanned_of_length arr _ hl, ← hl, List.drop_length, List.append_nil, update_loop_clock]

theorem cache_insert_buf_none (s : CacheState) (d b : Int) : cache_insert s d b none = (-1, s) := by
  unfold cache_insert
  cases s.cache <;> rfl

/-- In every reachable state the array has `cache_size` slots. -/
theorem reachable_length (s : CacheState) (hs : Reachable s) :
    ∀ arr, s.cache = some arr → arr.length = s.cache_size.toNat := by
  obtain ⟨calls, rfl⟩ := hs
  induction calls using List.reverseRecOn with
  | nil => intro arr h; simp [runCalls, CacheState.init] at h
  | append_singleton cs c ih =>
    simp only [runCalls, List.foldl_append, List.foldl_cons, List.foldl_nil] at ih ⊢
    generalize List.foldl (fun st c => c.run st) CacheState.init cs = t at ih ⊢
    cases c with
    | create mem n =>
      simp only [CacheCall.run, cache_create]
      split_ifs with h
      · exact ih
      · intro arr harr
        simp only [Option.some.injEq] at harr
        subst harr
        simp
    | destroy =>
      simp only [CacheCall.run, cache_destroy]
      split_ifs
      · exact ih
      · intro arr harr
        simp at harr
    | lookup d b buf =>
      simp only [CacheCall.run]
      rw [cache_lookup_cache, (cache_lookup_size t d b buf).1]
      exact ih
    | update d b buf =>
      simp only [CacheCall.run]
      intro arr2 h2
      cases hc : t.cache with
      | none =>
        have := cache_update_isSome t d b buf
        rw [h2, hc] at this
        simp at this
      | some arr =>
        obtain ⟨hsz, arr3, h3, hl3, _⟩ := cache_update_spec t d b buf arr hc (ih arr hc)
        rw [h3] at h2
        simp only [Option.some.injEq] at h2
        subst h2
        rw [hl3, hsz]
        exact ih arr hc
    | insert d b buf =>
      simp only [CacheCall.run]
      cases buf with
      | none => rw [cache_insert_buf_none]; exact ih
      | some data =>
        intro arr2 h2
        cases hc : t.cache with
        | none =>
          rw [cache_insert_none t d b _ hc] at h2
          rw [hc] at h2
          simp at h2
        | some arr =>
          obtain ⟨hsz, arr3, h3, hl3, _⟩ := cache_insert_spec t d b data arr hc
          rw [h3] at h2
          simp only [Option.some.injEq] at h2
          subst h2
          rw [hl3, hsz]
          exact ih arr hc

/-- What `cache_update` does in every state a program can reach: `cache_update d b data` rewrites
exactly the slots that carry the key `(d, b)`, whether their `valid` flag is set
or not.  Such a slot gets the bytes of `data` (all of them when both blocks have
`JBOD_BLOCK_SIZE` bytes) and, as access time, the clock as advanced for it: the
old clock plus the number of slots with that key up to and including it, which
is above the old clock and at most the new one, and is the new clock, old clock
plus one, when no other slot carries the key; its `disk_num`, `block_num` and
`valid` stay.  A slot with another key is left as it was.  Of the variables of
`cache.c` only the array and `clock` can change, and when no slot carries
`(d, b)` the state, `clock` included, is unchanged. -/
theorem cache_update_touches_keyed_slots (s : CacheState) (hs : Reachable s) (d b : Int)
    (data : List Nat) :
    (∀ arr, s.cache = some arr →
      ∃ arr2, (cache_update s d b data).cache = some arr2 ∧ arr2.length = arr.length ∧
        (∀ (i : Nat) (e : cache_entry_t), arr[i]? = some e → e.disk_num = d → e.block_num = b →
          ∃ e2, arr2[i]? = some e2 ∧
            e2.block = memcpy e.block data JBOD_BLOCK_SIZE ∧
            (e.block.length = JBOD_BLOCK_SIZE → data.length = JBOD_BLOCK_SIZE →
              e2.block = data) ∧
            e2.access_time =
              s.clock + (((arr.take (i + 1)).countP (blockFound d b) : Nat) : Int) ∧
            s.clock < e2.access_time ∧ e2.access_time ≤ (cache_update s d b data).clock ∧
            ((∀ (j : Nat) (e3 : cache_entry_t), arr[j]? = some e3 → e3.disk_num = d → e3.block_num = b → j = i) →
              e2.access_time = s.clock + 1 ∧ (cache_update s d b data).clock = s.clock + 1) ∧
            e2.disk_num = e.disk_num ∧ e2.block_num = e.block_num ∧ e2.valid = e.valid) ∧
        (∀ (i : Nat) (e : cache_entry_t), arr[i]? = some e → ¬(e.disk_num = d ∧ e.block_num = b) →
          arr2[i]? = some e)) ∧
    cache_update s d b data =
      { s with
        cache := (cache_update s d b data).cache
        clock := (cache_update s d b data).clock } ∧
    ((∀ arr, s.cache = some arr → ∀ e ∈ arr, ¬(e.disk_num = d ∧ e.block_num = b)) →
      cache_update s d b data = s) := by
  have hfound : ∀ e : cache_entry_t,
      blockFound d b e = true ↔ (e.disk_num = d ∧ e.block_num = b) := by
    intro e
    simp [blockFound]
  refine ⟨?_, ?_, ?_⟩
  · intro arr hc
    have hl := reachable_length s hs arr hc
    have hex := cache_update_exact s d b data arr hc hl
    refine ⟨(update_loop d b data arr s.clock).1, by rw [hex], ?_, ?_, ?_⟩
    · exact (update_loop_spec d b data arr s.clock).1
    · intro i e hi hd hb
      have hp : blockFound d b e = true := (hfound e).2 ⟨hd, hb⟩
      have hcnt := countP_take_facts (blockFound d b) arr i e hi hp
      have hclk : (cache_update s d b data).clock =
          s.clock + ((arr.countP (blockFound d b) : Nat) : Int) := by rw [hex]
      refine ⟨{ e with
          access_time := s.clock + (((arr.take (i + 1)).countP (blockFound d b) : Nat) : Int)
          block := memcpy e.block data JBOD_BLOCK_SIZE }, ?_, rfl, ?_, rfl, ?_, ?_, ?_, rfl, rfl, rfl⟩
      · rw [update_loop_getElem?, hi, Option.map_some', if_pos hp]
      · intro h1 h2
        exact memcpy_full _ _ h1 h2
      · dsimp only
        have := hcnt.1
        omega
      · dsimp only
        rw [hclk]
        have := hcnt.2.1
        omega
      · intro hu
        have h1 := hcnt.2.2 (fun j e3 hj hp3 => hu j e3 hj ((hfound e3).1 hp3).1 ((hfound e3).1 hp3).2)
        dsimp only
        rw [hclk, h1.1, h1.2]
        simp
    · intro i e hi hn
      have hp : ¬ blockFound d b e = true := fun h => hn ((hfound e).1 h)
      rw [update_loop_getElem?, hi, Option.map_some', if_neg hp]
  · unfold cache_update
    cases s.cache <;> rfl
  · intro hno
    cases hc : s.cache with
    | none =>
      unfold cache_update
      rw [hc]
    | some arr =>
      have hl := reachable_length s hs arr hc
      rw [cache_update_exact s d b data arr hc hl]
      have hnone : ∀ e ∈ arr, blockFound d b e = false := by
        intro e he
        have := hno arr hc e he
        rw [← hfound e] at this
        simpa using this
      have hz : arr.countP (blockFound d b) = 0 := by
        rw [List.countP_eq_zero]
        intro e he
        rw [hnone e he]
        exact Bool.false_ne_true
      rw [update_loop_none d b data arr hnone, hz, ← hc]
      simp

/-- On the cache of capacity 3 holding the keys (0, 0), (0, 1), (0, 2): an
update of key (0, 1) changes only the array and the clock, an update of the
absent key (9, 9) changes nothing. -/
theorem cache_update_touches_keyed_slots_fill3 :
    Reachable (runCalls calls_fill3 CacheState.init) ∧
    cache_update (runCalls calls_fill3 CacheState.init) 0 1 (block_of 7) =
      { runCalls calls_fill3 CacheState.init with
        cache := (cache_update (runCalls calls_fill3 CacheState.init) 0 1 (block_of 7)).cache
        clock := (cache_update (runCalls calls_fill3 CacheState.init) 0 1 (block_of 7)).clock } ∧
    cache_update (runCalls calls_fill3 CacheState.init) 9 9 (block_of 7) =
      runCalls calls_fill3 CacheState.init :=
  ⟨⟨calls_fill3, rfl⟩,
    (cache_update_touches_keyed_slots _ ⟨calls_fill3, rfl⟩ 0 1 (block_of 7)).2.1,
    (cache_update_touches_keyed_slots _ ⟨calls_fill3, rfl⟩ 9 9 (block_of 7)).2.2 (by
      intro arr harr
      have hA : (runCalls calls_fill3 CacheState.init).cache.getD [] = arr := by rw [harr]; rfl
      subst hA
      decide)⟩

/-! ### No two valid slots share a key -/

theorem validKeysDistinct_iff (arr : List cache_entry_t) :
    arr.Pairwise (fun e1 e2 => ¬ sameValidKey e1 e2) ↔
      ∀ (i j : Nat) (e1 e2 : cache_entry_t), i ≠ j → arr[i]? = some e1 → arr[j]? = some e2 →
        ¬ sameValidKey e1 e2 := by
  rw [List.pairwise_iff_getElem]
  constructor
  · intro h i j e1 e2 hij h1 h2 hk
    obtain ⟨hi, rfl⟩ := List.getElem?_eq_some.mp h1
    obtain ⟨hj, rfl⟩ := List.getElem?_eq_some.mp h2
    rcases Nat.lt_or_gt_of_ne hij with hlt | hgt
    · exact h i j hi hj hlt hk
    · exact h j i hj hi hgt ⟨hk.2.1, hk.1, hk.2.2.1.symm, hk.2.2.2.symm⟩
  · intro h i j hi hj hij
    exact h i j _ _ (by omega) (List.getElem?_eq_getElem hi) (List.getElem?_eq_getElem hj)

/-- Function `cache_insert` keeps the keys of the valid slots distinct when the
array has `cache_size` slots: its duplicate scan has seen every valid slot. -/
theorem cache_insert_keeps_distinct (s : CacheState) (d b : Int) (buf : Option (List Nat))
    (hl : ∀ arr, s.cache = some arr → arr.length = s.cache_size.toNat)
    (hv : ValidKeysDistinct s) : ValidKeysDistinct (cache_insert s d b buf).2 := by
  cases buf with
  | none => rw [cache_insert_buf_none]; exact hv
  | some data =>
    cases hc : s.cache with
    | none => rw [cache_insert_none s d b _ hc]; exact hv
    | some arr =>
      have hlen := hl arr hc
      have hstore : ∀ idx clk,
          (scanned arr s.cache_size).any (blockAlreadyInCache d b) = false →
          (store_entry arr idx clk d b data).Pairwise (fun e1 e2 => ¬ sameValidKey e1 e2) := by
        intro idx clk hany
        rw [scanned_of_length arr _ hlen] at hany
        have hfree : ∀ (j : Nat) (e : cache_entry_t), arr[j]? = some e → e.valid = true →
            ¬(e.disk_num = d ∧ e.block_num = b) := by
          intro j e hj hval hk
          have hmem : e ∈ arr := List.mem_iff_getElem?.mpr ⟨j, hj⟩
          have := List.any_eq_false.mp hany e hmem
          simp [blockAlreadyInCache, hval, hk.1, hk.2] at this
        have hold : arr.Pairwise (fun e1 e2 => ¬ sameValidKey e1 e2) := by
          have := hv
          unfold ValidKeysDistinct at this
          rw [hc] at this
          exact this
        rw [validKeysDistinct_iff] at hold ⊢
        intro i j e1 e2 hij h1 h2 hk
        unfold store_entry at h1 h2
        rw [List.getElem?_set] at h1 h2
        by_cases hi : idx = i
        · rw [if_pos hi] at h1
          rw [if_neg (by omega)] at h2
          split_ifs at h1
          simp only [Option.some.injEq] at h1
          subst h1
          exact hfree j e2 h2 hk.2.1 ⟨hk.2.2.1.symm, hk.2.2.2.symm⟩
        · rw [if_neg hi] at h1
          by_cases hj : idx = j
          · rw [if_pos hj] at h2
            split_ifs at h2
            simp only [Option.some.injEq] at h2
            subst h2
            exact hfree i e1 h1 hk.1 ⟨hk.2.2.1, hk.2.2.2⟩
          · rw [if_neg hj] at h2
            exact hold i j e1 e2 hij h1 h2 hk
      unfold ValidKeysDistinct cache_insert
      rw [hc]
      dsimp only
      split_ifs with h1 h2 h3 h4
      · rw [hc]; unfold ValidKeysDistinct at hv; rw [hc] at hv; exact hv
      · rw [hc]; unfold ValidKeysDistinct at hv; rw [hc] at hv; exact hv
      · exact hstore _ _ (by simpa using h2)
      · exact hstore _ _ (by simpa using h2)
      · exact hstore _ _ (by simpa using h2)

theorem update_loop_keeps_keys (d b : Int) (buf : List Nat) (arr : List cache_entry_t)
    (clock : Int) (i : Nat) (e2 : cache_entry_t)
    (h : (update_loop d b buf arr clock).1[i]? = some e2) :
    ∃ e, arr[i]? = some e ∧ e2.valid = e.valid ∧ e2.disk_num = e.disk_num ∧
      e2.block_num = e.block_num := by
  rw [update_loop_getElem?] at h
  cases he : arr[i]? with
  | none => rw [he] at h; simp at h
  | some e =>
    rw [he, Option.map_some', Option.some.injEq] at h
    refine ⟨e, rfl, ?_⟩
    subst h
    split_ifs <;> exact ⟨rfl, rfl, rfl⟩

theorem cache_update_keeps_distinct (s : CacheState) (d b : Int) (buf : List Nat)
    (hl : ∀ arr, s.cache = some arr → arr.length = s.cache_size.toNat)
    (hv : ValidKeysDistinct s) : ValidKeysDistinct (cache_update s d b buf) := by
  cases hc : s.cache with
  | none =>
    have : cache_update s d b buf = s := by
      unfold cache_update
      rw [hc]
    rw [this]
    exact hv
  | some arr =>
    rw [cache_update_exact s d b buf arr hc (hl arr hc)]
    unfold ValidKeysDistinct at hv ⊢
    rw [hc] at hv
    simp only [Option.getD_some] at hv ⊢
    rw [validKeysDistinct_iff] at hv ⊢
    intro i j e1 e2 hij h1 h2 hk
    obtain ⟨a1, ha1, hv1, hd1, hb1⟩ := update_loop_keeps_keys d b buf arr s.clock i e1 h1
    obtain ⟨a2, ha2, hv2, hd2, hb2⟩ := update_loop_keeps_keys d b buf arr s.clock j e2 h2
    refine hv i j a1 a2 hij ha1 ha2 ⟨?_, ?_, ?_, ?_⟩
    · rw [← hv1]; exact hk.1
    · rw [← hv2]; exact hk.2.1
    · rw [← hd1, ← hd2]; exact hk.2.2.1
    · rw [← hb1, ← hb2]; exact hk.2.2.2

theorem cache_lookup_keeps_distinct (s : CacheState) (d b : Int) (buf : Option (List Nat))
    (hv : ValidKeysDistinct s) : ValidKeysDistinct (cache_lookup s d b buf).2.1 := by
  unfold ValidKeysDistinct at hv ⊢
  rw [cache_lookup_cache]
  exact hv

theorem cache_call_keeps_length (c : CacheCall) (hc : c.isAccess = true) (s : CacheState)
    (hl : ∀ arr, s.cache = some arr → arr.length = s.cache_size.toNat) :
    ∀ arr, (c.run s).cache = some arr → arr.length = (c.run s).cache_size.toNat := by
  cases c with
  | create mem n => simp [CacheCall.isAccess] at hc
  | destroy => simp [CacheCall.isAccess] at hc
  | lookup d b buf =>
    simp only [CacheCall.run]
    rw [cache_lookup_cache, (cache_lookup_size s d b buf).1]
    exact hl
  | update d b buf =>
    simp only [CacheCall.run]
    intro arr2 h2
    cases hs : s.cache with
    | none =>
      have := cache_update_isSome s d b buf
      rw [h2, hs] at this
      simp at this
    | some arr =>
      obtain ⟨hsz, arr3, h3, hl3, _⟩ := cache_update_spec s d b buf arr hs (hl arr hs)
      rw [h3] at h2
      simp only [Option.some.injEq] at h2
      subst h2
      rw [hl3, hsz]
      exact hl arr hs
  | insert d b buf =>
    simp only [CacheCall.run]
    cases buf with
    | none => rw [cache_insert_buf_none]; exact hl
    | some data =>
      intro arr2 h2
      cases hs : s.cache with
      | none =>
        rw [cache_insert_none s d b _ hs] at h2
        rw [hs] at h2
        simp at h2
      | some arr =>
        obtain ⟨hsz, arr3, h3, hl3, _⟩ := cache_insert_spec s d b data arr hs
        rw [h3] at h2
        simp only [Option.some.injEq] at h2
        subst h2
        rw [hl3, hsz]
        exact hl arr hs

theorem cache_call_keeps_distinct (c : CacheCall) (hc : c.isAccess = true) (s : CacheState)
    (hl : ∀ arr, s.cache = some arr → arr.length = s.cache_size.toNat)
    (hv : ValidKeysDistinct s) : ValidKeysDistinct (c.run s) := by
  cases c with
  | create mem n => simp [CacheCall.isAccess] at hc
  | destroy => simp [CacheCall.isAccess] at hc
  | lookup d b buf => exact cache_lookup_keeps_distinct s d b buf hv
  | update d b buf => exact cache_update_keeps_distinct s d b buf hl hv
  | insert d b buf => exact cache_insert_keeps_distinct s d b buf hl hv

theorem runCalls_keeps_distinct (calls : List CacheCall) :
    ∀ s : CacheState, (∀ c ∈ calls, c.isAccess = true) →
      (∀ arr, s.cache = some arr → arr.length = s.cache_size.toNat) →
      ValidKeysDistinct s → ValidKeysDistinct (runCalls calls s) := by
  induction calls with
  | nil => intro s _ _ hv; exact hv
  | cons c cs ih =>
    intro s hc hl hv
    have hc1 : c.isAccess = true := hc c (List.mem_cons_self _ _)
    exact ih (c.run s) (fun x hx => hc x (List.mem_cons_of_mem _ hx))
      (cache_call_keeps_length c hc1 s hl) (cache_call_keeps_distinct c hc1 s hl hv)

/-- C16: on a cache that `cache_create` has just made (from any state, with
any capacity it accepts) in memory whose slots all have `valid = false`, every
sequence of `cache_insert`, `cache_update` and `cache_lookup` calls, with any
arguments, leaves an array in which no two slots with `valid = true` carry the
same `(disk_num, block_num)`. -/
theorem cache_valid_keys_stay_distinct (s : CacheState) (mem : Nat → cache_entry_t) (n : Int)
    (calls : List CacheCall)
    (hcreate : (cache_create s mem n).1 = 1)
    (hinvalid : ∀ i, i < n.toNat → (mem i).valid = false)
    (hcalls : ∀ c ∈ calls, c.isAccess = true) :
    ValidKeysDistinct (runCalls calls (cache_create s mem n).2) := by
  have hnew : (cache_create s mem n).2 =
      { s with
        cache_size := n
        cache := some ((List.range n.toNat).map mem)
        unfilledCurrentCacheIndex := 0
        cacheExists := true } := by
    unfold cache_create at hcreate ⊢
    dsimp only at hcreate ⊢
    split_ifs at hcreate ⊢ with h
    · simp at hcreate
    · rfl
  apply runCalls_keeps_distinct calls _ hcalls
  · intro arr harr
    rw [hnew] at harr ⊢
    simp only [Option.some.injEq] at harr
    subst harr
    simp
  · rw [hnew]
    unfold ValidKeysDistinct
    simp only [Option.getD_some]
    rw [validKeysDistinct_iff]
    intro i j e1 e2 _ h1 _ hk
    obtain ⟨hi, rfl⟩ := List.getElem?_eq_some.mp h1
    have hlt : i < n.toNat := by simpa using hi
    have := hk.1
    rw [List.getElem_map, List.getElem_range, hinvalid i hlt] at this
    exact Bool.false_ne_true this

/-- C16 on a new cache of capacity 2 in zeroed memory: after two inserts of the
same key, an update, a lookup and an insert of another key, no two valid slots
share a key. -/
theorem cache_valid_keys_stay_distinct_witness :
    ValidKeysDistinct (runCalls
      [.insert 0 0 (some (block_of 1)), .insert 0 0 (some (block_of 2)),
       .update 0 0 (block_of 3), .lookup 0 0 (some (block_of 0)), .insert 0 1 (some (block_of 4))]
      (cache_create CacheState.init mem_zero 2).2) :=
  cache_valid_keys_stay_distinct CacheState.init mem_zero 2 _ (by rfl) (fun _ _ => rfl) (by decide)
/-! ## The code on concrete inputs -/

/-- C9 on a cache of capacity 2 that holds key (1, 1): inserting (1, 1) again
returns -1 and changes nothing. -/
theorem cache_insert_present_unchanged_witness :
    cache_insert (runCalls calls_one_insert CacheState.init) 1 1 (some (block_of 5)) =
      (-1, runCalls calls_one_insert CacheState.init) :=
  cache_insert_present_unchanged (runCalls calls_one_insert CacheState.init)
    [{ valid := true, disk_num := 1, block_num := 1, block := block_of 10, access_time := 1 },
     mem_zero 1]
    { valid := true, disk_num := 1, block_num := 1, block := block_of 10, access_time := 1 }
    1 1 (some (block_of 5)) (by rfl) (by decide) rfl rfl rfl

/-- C1, the code at capacity 3: after three inserts with distinct keys on a new
cache the cache is full and the slots hold access times 1, 2, 3; the fourth
insert returns 1 and overwrites the second slot (access time 2), while the slot
with the smallest access time, the first, keeps key (0, 0). -/
theorem cache_insert_evicts_second_slot :
    (runCalls calls_fill3 CacheState.init).cacheIsFull = true ∧
    slots (runCalls calls_fill3 CacheState.init) =
      some [(true, 0, 0, 1), (true, 0, 1, 2), (true, 0, 2, 3)] ∧
    (cache_insert (runCalls calls_fill3 CacheState.init) 0 3 (some (block_of 13))).1 = 1 ∧
    slots (cache_insert (runCalls calls_fill3 CacheState.init) 0 3 (some (block_of 13))).2 =
      some [(true, 0, 0, 1), (true, 0, 3, 4), (true, 0, 2, 3)] := by
  refine ⟨by rfl, by rfl, by rfl, by rfl⟩

/-- C7, the code on a second cache: the cache of capacity 3 is created after a
full cache was destroyed; `cache_insert 0 0` of a block of sevens returns 1 and
stores it in the second slot, and the `cache_lookup 0 0` that follows returns 1
with the block of zeros of the first slot, whose `valid` flag is false. -/
theorem cache_lookup_after_insert_other_block :
    slots (runCalls calls_second_cache CacheState.init) =
      some [(false, 0, 0, 0), (false, 0, 0, 1), (false, 0, 0, 2)] ∧
    (cache_insert (runCalls calls_second_cache CacheState.init) 0 0 (some (block_of 7))).1 = 1 ∧
    slots (cache_insert (runCalls calls_second_cache CacheState.init) 0 0 (some (block_of 7))).2 =
      some [(false, 0, 0, 0), (true, 0, 0, 3), (false, 0, 0, 2)] ∧
    (cache_lookup (cache_insert (runCalls calls_second_cache CacheState.init) 0 0
      (some (block_of 7))).2 0 0 (some (block_of 9))).1 = 1 ∧
    (cache_lookup (cache_insert (runCalls calls_second_cache CacheState.init) 0 0
      (some (block_of 7))).2 0 0 (some (block_of 9))).2.2 = some (block_of 0) ∧
    block_of 0 ≠ block_of 7 := by
  refine ⟨by rfl, by rfl, by rfl, by rfl, by rfl, by decide⟩

/-- C8, the code on a key never inserted: on a new cache of capacity 2 whose
memory is all zero, after one insert of key (1, 1), `cache_lookup 0 0` returns 1,
adds one to `num_hits` and overwrites the caller's buffer with the block of the
second slot, whose `valid` flag is false. -/
theorem cache_lookup_hits_invalid_slot :
    slots (runCalls calls_one_insert CacheState.init) =
      some [(true, 1, 1, 1), (false, 0, 0, 0)] ∧
    (cache_lookup (runCalls calls_one_insert CacheState.init) 0 0 (some (block_of 9))).1 = 1 ∧
    (cache_lookup (runCalls calls_one_insert CacheState.init) 0 0 (some (block_of 9))).2.1.num_hits =
      (runCalls calls_one_insert CacheState.init).num_hits + 1 ∧
    (cache_lookup (runCalls calls_one_insert CacheState.init) 0 0 (some (block_of 9))).2.2 =
      some (block_of 0) := by
  refine ⟨by rfl, by rfl, by rfl, by rfl⟩

/-- C2, the code at address `0xFFFFFFFF` and length 1: the sum wraps to 0 in
`uint32_t`, the request passes the validation of a mounted controller and both
`mdadm_read` and `mdadm_write` return 1, after sending commands to the device. -/
theorem mdadm_accepts_wrapped_range :
    0x100000 < 4294967295 + 1 ∧
    endRead 4294967295 1 = 0 ∧
    (mdadm_read world_mounted (fun _ => 0) 4294967295 1 (some [0])).ret = 1 ∧
    (mdadm_read world_mounted (fun _ => 0) 4294967295 1 (some [0])).w.trace.length = 3 ∧
    (mdadm_write world_mounted (fun _ => 0) 4294967295 1 (some [0])).1 = 1 := by
  refine ⟨by decide, by rfl, by rfl, by rfl, by rfl⟩


/-- C11, the code on a request that ends at a block boundary: with the
controller mounted and the cache disabled, `mdadm_read(0, 256, buf)` returns 256
and hands the device five words, seek to disk 0, seek to block 0, `READ_BLOCK`,
seek to block 1, `READ_BLOCK`: two block reads, although every byte of
`[0, 256)` lies in block 0; they are the same five words as for
`mdadm_read(255, 2, buf)`, which does meet two blocks. -/
theorem mdadm_read_full_block_reads_twice :
    cache_enabled world_mounted.cache = false ∧
    (mdadm_read world_mounted (fun _ => 0) 0 256 (some (block_of 0))).ret = 256 ∧
    (mdadm_read world_mounted (fun _ => 0) 0 256 (some (block_of 0))).w.trace =
      [createOpCode JBOD_SEEK_TO_DISK 0 0 0, createOpCode JBOD_SEEK_TO_BLOCK 0 0 0,
       createOpCode JBOD_READ_BLOCK 0 0 0, createOpCode JBOD_SEEK_TO_BLOCK 0 0 1,
       createOpCode JBOD_READ_BLOCK 0 0 0] ∧
    countCmd JBOD_READ_BLOCK
      (mdadm_read world_mounted (fun _ => 0) 0 256 (some (block_of 0))).w.trace = 2 ∧
    countCmd JBOD_SEEK_TO_BLOCK
      (mdadm_read world_mounted (fun _ => 0) 0 256 (some (block_of 0))).w.trace = 2 ∧
    (∀ x, x < 0 + 256 → x / JBOD_BLOCK_SIZE = 0) ∧
    (mdadm_read world_mounted (fun _ => 0) 255 2 (some [0, 0])).w.trace =
      (mdadm_read world_mounted (fun _ => 0) 0 256 (some (block_of 0))).w.trace := by
  refine ⟨by rfl, by rfl, by rfl, by rfl, by rfl, ?_, by rfl⟩
  intro x hx
  unfold JBOD_BLOCK_SIZE
  omega

/-- C15, the code on a cache of capacity 2 in zeroed memory, after a read of
address 65536 has filled the first slot: `mdadm_read(255, 1, buf)` returns 1 and
delivers 0, the byte of the second slot (key (0, 0), `valid = false`); the same
call made again right after it returns 1 and delivers 4, the byte of the device. -/
theorem mdadm_read_twice_differs :
    slots (mdadm_read world_cached (fun _ => 0) 65536 1 (some [0])).w.cache =
      some [(true, 1, 0, 1), (false, 0, 0, 0)] ∧
    (mdadm_read (mdadm_read world_cached (fun _ => 0) 65536 1 (some [0])).w
      (fun _ => 0) 255 1 (some [9])).ret = 1 ∧
    (mdadm_read (mdadm_read world_cached (fun _ => 0) 65536 1 (some [0])).w
      (fun _ => 0) 255 1 (some [9])).buf = some [0] ∧
    (mdadm_read (mdadm_read (mdadm_read world_cached (fun _ => 0) 65536 1 (some [0])).w
      (fun _ => 0) 255 1 (some [9])).w (fun _ => 0) 255 1 (some [9])).ret = 1 ∧
    (mdadm_read (mdadm_read (mdadm_read world_cached (fun _ => 0) 65536 1 (some [0])).w
      (fun _ => 0) 255 1 (some [9])).w (fun _ => 0) 255 1 (some [9])).buf = some [4] ∧
    jbod_sample.data 0 0 255 = 4 := by
  refine ⟨by rfl, by rfl, by rfl, by rfl, by rfl, by rfl⟩

/-- C17, the code on a second cache: after a cache of capacity 2 was filled and
destroyed and a cache of capacity 3 created, a cache exists, `cacheIsFull` is
set, and `numFilledCacheIndices` is 0, not 3; `cache_insert` then returns 1
through the eviction branch, which leaves `numFilledCacheIndices` at 0. -/
theorem cache_recreated_full_flag_stale :
    (runCalls calls_recreate CacheState.init).cacheExists = true ∧
    (runCalls calls_recreate CacheState.init).cache_size = 3 ∧
    (runCalls calls_recreate CacheState.init).numFilledCacheIndices = 0 ∧
    (runCalls calls_recreate CacheState.init).cacheIsFull = true ∧
    slots (runCalls calls_recreate CacheState.init) =
      some [(false, 0, 0, 0), (false, 0, 0, 0), (false, 0, 0, 0)] ∧
    (cache_insert (runCalls calls_recreate CacheState.init) 0 5 (some (block_of 1))).1 = 1 ∧
    (cache_insert (runCalls calls_recreate CacheState.init) 0 5
      (some (block_of 1))).2.numFilledCacheIndices = 0 ∧
    (cache_insert (runCalls calls_recreate CacheState.init) 0 5
      (some (block_of 1))).2.cacheIsFull = true := by
  refine ⟨by rfl, by rfl, by rfl, by rfl, by rfl, by rfl, by rfl, by rfl⟩

/-- C18, the code with and without a cache: on a mounted controller with a new
cache of capacity 2 in zeroed memory, `mdadm_read(65536, 1, buf)` followed by
`mdadm_read(1, 1, buf)` delivers 0 in the second read, the byte of the unused
second slot; the same two reads without a cache deliver 1, the device byte at
address 1. -/
theorem mdadm_read_cached_differs_from_uncached :
    (mdadm_read (mdadm_read world_cached (fun _ => 0) 65536 1 (some [0])).w
      (fun _ => 0) 1 1 (some [9])).ret = 1 ∧
    (mdadm_read (mdadm_read world_cached (fun _ => 0) 65536 1 (some [0])).w
      (fun _ => 0) 1 1 (some [9])).buf = some [0] ∧
    (mdadm_read (mdadm_read world_mounted (fun _ => 0) 65536 1 (some [0])).w
      (fun _ => 0) 1 1 (some [9])).ret = 1 ∧
    (mdadm_read (mdadm_read world_mounted (fun _ => 0) 65536 1 (some [0])).w
      (fun _ => 0) 1 1 (some [9])).buf = some [1] ∧
    jbod_sample.data 0 0 1 = 1 := by
  refine ⟨by rfl, by rfl, by rfl, by rfl, by rfl⟩

/-- C19, the code on requests that end at `0x100000`: on a mounted controller
`mdadm_read(0xFFFFF, 1, buf)` and `mdadm_write(0xFFFFF, 1, buf)` return 1 and
each hands the device the word `createOpCode JBOD_SEEK_TO_DISK 16 0 0`, a seek
to disk 16; the 16 does not fit the disk field, the word equals the one of a seek
to block 0, so its command-kind bits are those of `SEEK_TO_BLOCK` and its disk
field is 0. -/
theorem mdadm_seeks_disk_16 :
    (mdadm_read world_mounted (fun _ => 0) 0xFFFFF 1 (some [0])).ret = 1 ∧
    (mdadm_read world_mounted (fun _ => 0) 0xFFFFF 1 (some [0])).w.trace =
      [createOpCode JBOD_SEEK_TO_DISK 15 0 0, createOpCode JBOD_SEEK_TO_BLOCK 0 0 255,
       createOpCode JBOD_READ_BLOCK 0 0 0, createOpCode JBOD_SEEK_TO_DISK 16 0 0,
       createOpCode JBOD_SEEK_TO_BLOCK 0 0 0, createOpCode JBOD_READ_BLOCK 0 0 0] ∧
    (mdadm_write world_mounted (fun _ => 0) 0xFFFFF 1 (some [7])).1 = 1 ∧
    (mdadm_write world_mounted (fun _ => 0) 0xFFFFF 1 (some [7])).2.trace =
      [createOpCode JBOD_SEEK_TO_DISK 15 0 0, createOpCode JBOD_SEEK_TO_BLOCK 0 0 255,
       createOpCode JBOD_READ_BLOCK 0 0 0, createOpCode JBOD_SEEK_TO_BLOCK 0 0 255,
       createOpCode JBOD_WRITE_BLOCK 0 0 0, createOpCode JBOD_SEEK_TO_DISK 16 0 0,
       createOpCode JBOD_SEEK_TO_BLOCK 0 0 0, createOpCode JBOD_READ_BLOCK 0 0 0,
       createOpCode JBOD_SEEK_TO_BLOCK 0 0 0, createOpCode JBOD_WRITE_BLOCK 0 0 0] ∧
    createOpCode JBOD_SEEK_TO_DISK 16 0 0 = createOpCode JBOD_SEEK_TO_BLOCK 0 0 0 ∧
    opCommand (createOpCode JBOD_SEEK_TO_DISK 16 0 0) = JBOD_SEEK_TO_BLOCK ∧
    opDisk (createOpCode JBOD_SEEK_TO_DISK 16 0 0) = 0 := by
  refine ⟨by rfl, by rfl, by rfl, by rfl, by rfl, by rfl, by rfl⟩

/-- C20, the code on a new cache of capacity 3 whose slots all have
`valid = false` and, as leftover key, (16, 0): `mdadm_read(983040, 1, buf)`
returns 1 and puts block 0 of disk 15 in the first slot; `mdadm_write(1048575,
1, buf)` then returns 1 and leaves that slot valid with the bytes 105, 106, 107,
... it had, while block 0 of disk 15 on the device now holds zeros. -/
theorem mdadm_write_leaves_stale_entry :
    slots world_cached16.cache =
      some [(false, 16, 0, 0), (false, 16, 0, 0), (false, 16, 0, 0)] ∧
    (mdadm_read world_cached16 (fun _ => 0) 983040 1 (some [0])).ret = 1 ∧
    (mdadm_write (mdadm_read world_cached16 (fun _ => 0) 983040 1 (some [0])).w
      (fun _ => 0) 1048575 1 (some [7])).1 = 1 ∧
    slots (mdadm_write (mdadm_read world_cached16 (fun _ => 0) 983040 1 (some [0])).w
      (fun _ => 0) 1048575 1 (some [7])).2.cache =
      some [(true, 15, 0, 1), (true, 15, 255, 3), (false, 16, 0, 4)] ∧
    slot_bytes (mdadm_write (mdadm_read world_cached16 (fun _ => 0) 983040 1 (some [0])).w
      (fun _ => 0) 1048575 1 (some [7])).2.cache 3 =
      [[105, 106, 107], [117, 118, 119], [0, 0, 0]] ∧
    (List.range 3).map ((mdadm_write (mdadm_read world_cached16 (fun _ => 0) 983040 1
      (some [0])).w (fun _ => 0) 1048575 1 (some [7])).2.jbod.data 15 0) = [0, 0, 0] ∧
    (List.range 3).map (jbod_sample.data 15 0) = [105, 106, 107] := by
  refine ⟨by rfl, by rfl, by rfl, by rfl, by rfl, by rfl, by rfl⟩

/-- C12, the code on a cache of capacity 2 in zeroed memory: after
`cache_insert 0 0` the only valid entry has key (0, 0) and access time 1, and
the clock is 1; `cache_update 0 0` of a block of sevens then leaves `clock` at
3 and the valid entry's access time at 2, and also rewrites the block and the
access time of the second slot, whose `valid` flag is false.  After
`cache_insert 1 1` instead, no valid entry carries (0, 0), yet
`cache_update 0 0` moves the clock from 1 to 2 and rewrites that second slot. -/
theorem cache_update_rewrites_invalid_slot :
    Reachable (runCalls calls_insert00 CacheState.init) ∧
    slots (runCalls calls_insert00 CacheState.init) = some [(true, 0, 0, 1), (false, 0, 0, 0)] ∧
    slot_bytes (runCalls calls_insert00 CacheState.init) 2 = [[10, 10], [0, 0]] ∧
    (runCalls calls_insert00 CacheState.init).clock = 1 ∧
    slots (cache_update (runCalls calls_insert00 CacheState.init) 0 0 (block_of 7)) =
      some [(true, 0, 0, 2), (false, 0, 0, 3)] ∧
    slot_bytes (cache_update (runCalls calls_insert00 CacheState.init) 0 0 (block_of 7)) 2 =
      [[7, 7], [7, 7]] ∧
    (cache_update (runCalls calls_insert00 CacheState.init) 0 0 (block_of 7)).clock = 3 ∧
    slots (runCalls calls_one_insert CacheState.init) = some [(true, 1, 1, 1), (false, 0, 0, 0)] ∧
    (runCalls calls_one_insert CacheState.init).clock = 1 ∧
    slots (cache_update (runCalls calls_one_insert CacheState.init) 0 0 (block_of 7)) =
      some [(true, 1, 1, 1), (false, 0, 0, 2)] ∧
    slot_bytes (cache_update (runCalls calls_one_insert CacheState.init) 0 0 (block_of 7)) 2 =
      [[10, 10], [7, 7]] ∧
    (cache_update (runCalls calls_one_insert CacheState.init) 0 0 (block_of 7)).clock = 2 := by
  refine ⟨⟨calls_insert00, rfl⟩, by rfl, by rfl, by rfl, by rfl, by rfl, by rfl, by rfl, by rfl,
    by rfl, by rfl, by rfl⟩
end Mdadm
